import Mathlib

/-! brook: `SimpleStreamServer` handshake and exchange

A shallow embedding of `simplestreamserver.go`.  The Go code is stateful: it
talks to two connections and to two buffer pools.  Here that state is an
explicit `World` value threaded through every operation, and every effect is
also appended to a chronological event log.

* bytes are `Fin 256`; a slice is a `List Byte` together with the identity of
  its backing array (`Buf`); buffers handed out by the pools have `len = cap`;
* a connection delivers the bytes of `input` in order and then fails; the
  outcomes of `SetDeadline` and `Write` calls and the chunk sizes of plain
  `Read` calls are scripted in the connection, so that they are arbitrary;
* the `for` loops of `Exchange` are iterated with fuel.
-/

namespace Brook

/-- Go `byte`. -/
abbrev Byte := Fin 256

/-- Go `error` values that the file can produce or pass on. -/
inductive Error where
  /-- an error returned by a `net.Conn` method or by `io.ReadFull` -/
  | conn : Error
  /-- the value of `errors.New(msg)` -/
  | new (msg : String) : Error
  /-- an error returned by `ServerGate` -/
  | gate : Error
  deriving DecidableEq, Repr

/-- The two pools of package `x` used by the file. -/
inductive PoolId where
  | BP2048 : PoolId
  | BP65507 : PoolId
  deriving DecidableEq, Repr

/-- The two connections: `s.Client` and the `remote` argument of `Exchange`. -/
inductive ConnId where
  | client : ConnId
  | remote : ConnId
  deriving DecidableEq, Repr

/-- Identity of the backing array of a slice: `null` for the nil slice, otherwise
the pool it was taken from and the serial number of the `Get` that returned it. -/
inductive BufId where
  | null : BufId
  | pooled (p : PoolId) (serial : Nat) : BufId
  deriving DecidableEq, Repr

/-- A `[]byte` value: backing array identity and contents. -/
structure Buf where
  id : BufId
  data : List Byte
  deriving DecidableEq, Repr

/-- The nil slice, the zero value of the fields `RB` and `WB`. -/
def Buf.null : Buf := { id := BufId.null, data := [] }

/-- Effects, in the order in which they happen. -/
inductive Event where
  | setDeadline (c : ConnId) (secs : Int) (ok : Bool) : Event
  | readFull (c : ConnId) (n : Nat) (ok : Bool) : Event
  | read (c : ConnId) (cap : Nat) (got : Option Nat) : Event
  | write (c : ConnId) (data : List Byte) (ok : Bool) : Event
  | get (p : PoolId) (b : BufId) : Event
  | put (p : PoolId) (b : BufId) : Event
  | waitReadErr (c : ConnId) : Event
  | copy (dst src : ConnId) (data : List Byte) : Event
  deriving DecidableEq, Repr

/-- State of a `net.Conn` as seen by this file. -/
structure Conn where
  /-- bytes the peer delivers, in order; a read past the end fails -/
  input : List Byte
  /-- sizes of the chunks that successive plain `Read` calls deliver
  (when exhausted, a `Read` delivers all it can) -/
  reads : List Nat
  /-- results of successive `SetDeadline` calls (when exhausted, they succeed) -/
  deadlineOk : List Bool
  /-- results of successive `Write` calls (when exhausted, they succeed) -/
  writeOk : List Bool
  deriving DecidableEq, Repr

/-- State of a `sync.Pool` of byte slices (`x.BP2048`, `x.BP65507`). -/
structure Pool where
  /-- contents of the recycled buffers the pool hands out next -/
  idle : List (List Byte)
  /-- length of the buffer made by the pool's `New` -/
  size : Nat
  /-- number of `Get` calls so far -/
  gets : Nat
  /-- number of `Put` calls so far -/
  puts : Nat
  deriving DecidableEq, Repr

/-- Net-acquire count of a pool: buffers taken and not given back. -/
def Pool.acquired (p : Pool) : Int := (p.gets : Int) - (p.puts : Int)

/-- Everything outside the session that the code reads or changes. -/
structure World where
  client : Conn
  remote : Conn
  BP2048 : Pool
  BP65507 : Pool
  log : List Event
  deriving DecidableEq, Repr

def World.conn (w : World) : ConnId → Conn
  | ConnId.client => w.client
  | ConnId.remote => w.remote

def World.setConn (w : World) (c : ConnId) (k : Conn) : World :=
  match c with
  | ConnId.client => { w with client := k }
  | ConnId.remote => { w with remote := k }

def World.pool (w : World) : PoolId → Pool
  | PoolId.BP2048 => w.BP2048
  | PoolId.BP65507 => w.BP65507

def World.setPool (w : World) (p : PoolId) (k : Pool) : World :=
  match p with
  | PoolId.BP2048 => { w with BP2048 := k }
  | PoolId.BP65507 => { w with BP65507 := k }

def World.emit (w : World) (e : Event) : World :=
  { w with log := w.log ++ [e] }

/-- The call `c.SetDeadline(time.Now().Add(time.Duration(secs) * time.Second))`;
the Boolean is `err == nil`. -/
def World.SetDeadline (w : World) (c : ConnId) (secs : Int) : Bool × World :=
  let k := w.conn c
  let ok := k.deadlineOk.headD true
  (ok, (w.setConn c { k with deadlineOk := k.deadlineOk.tail }).emit
    (Event.setDeadline c secs ok))

/-- The call `io.ReadFull(c, buf)` with `len(buf) = n`: the bytes stored into
`buf` and whether `err == nil`.  It succeeds exactly when `n` more bytes
arrive; otherwise it stores what arrived and fails. -/
def World.ReadFull (w : World) (c : ConnId) (n : Nat) : (List Byte × Bool) × World :=
  let k := w.conn c
  let ok := decide (n ≤ k.input.length)
  ((k.input.take n, ok), (w.setConn c { k with input := k.input.drop n }).emit
    (Event.readFull c n ok))

/-- The call `c.Read(buf)` with `len(buf) = cap`: `none` for an error, otherwise
the bytes stored at the front of `buf`.  At most `cap` bytes are delivered. -/
def World.Read (w : World) (c : ConnId) (cap : Nat) : Option (List Byte) × World :=
  let k := w.conn c
  if k.input = [] then
    (none, (w.setConn c { k with reads := k.reads.tail }).emit (Event.read c cap none))
  else
    let n := min (k.reads.headD cap) cap
    (some (k.input.take n),
      (w.setConn c { k with input := k.input.drop n, reads := k.reads.tail }).emit
        (Event.read c cap (some (k.input.take n).length)))

/-- The call `c.Write(data)`; the Boolean is `err == nil`. -/
def World.Write (w : World) (c : ConnId) (data : List Byte) : Bool × World :=
  let k := w.conn c
  let ok := k.writeOk.headD true
  (ok, (w.setConn c { k with writeOk := k.writeOk.tail }).emit (Event.write c data ok))

/-- The call `pool.Get().([]byte)`: a recycled buffer if the pool has one,
otherwise a new zeroed one of the pool's size. -/
def World.Get (w : World) (p : PoolId) : Buf × World :=
  let k := w.pool p
  let b : Buf :=
    { id := BufId.pooled p k.gets, data := k.idle.headD (List.replicate k.size 0) }
  (b, (w.setPool p { k with idle := k.idle.tail, gets := k.gets + 1 }).emit (Event.get p b.id))

/-- The call `pool.Put(b)`. -/
def World.Put (w : World) (p : PoolId) (b : Buf) : World :=
  let k := w.pool p
  (w.setPool p { k with idle := b.data :: k.idle, puts := k.puts + 1 }).emit (Event.put p b.id)

/-- Modelled from the spec: `WaitReadErr`, the anti-probing drain, is a function
of this package that is not in the file.  It keeps reading from the connection
and discards the data until the connection fails; it writes nothing. -/
def World.WaitReadErr (w : World) (c : ConnId) : World :=
  let k := w.conn c
  (w.setConn c { k with input := [], reads := [] }).emit (Event.waitReadErr c)

/-- The call `io.Copy(dst, src)`: moves what `src` still delivers to `dst`,
arms no deadline and uses no buffer of the session. -/
def World.Copy (w : World) (dst src : ConnId) : World :=
  let k := w.conn src
  (w.setConn src { k with input := [], reads := [] }).emit (Event.copy dst src k.input)

/-- Value of `binary.BigEndian.Uint16(b)`, for `len(b) >= 2`. -/
def Uint16 : List Byte → Nat
  | b0 :: b1 :: _ => b0.val * 256 + b1.val
  | _ => 0

/-- Value of `binary.BigEndian.Uint32(b)`, for `len(b) >= 4`. -/
def Uint32 : List Byte → Nat
  | b0 :: b1 :: b2 :: b3 :: _ => ((b0.val * 256 + b1.val) * 256 + b2.val) * 256 + b3.val
  | _ => 0

/-- The two bytes stored by `binary.BigEndian.PutUint16(b, uint16(l))` for a Go
`int` value `l >= 0`: the conversion to `uint16` keeps `l % 65536`. -/
def PutUint16 (l : Nat) : List Byte :=
  [Fin.ofNat ((l % 65536) / 256), Fin.ofNat ((l % 65536) % 256)]

/-- The slice expression `b[lo:hi]`, for `lo <= hi <= len(b)`. -/
def slice (b : List Byte) (lo hi : Nat) : List Byte := (b.take hi).drop lo

/-- Contents of `b` after `d` has been stored at offset `off`, for
`off + len(d) <= len(b)`. -/
def store (b : List Byte) (off : Nat) (d : List Byte) : List Byte :=
  b.take off ++ d ++ b.drop (off + d.length)

def Buf.store (b : Buf) (off : Nat) (d : List Byte) : Buf :=
  { b with data := Brook.store b.data off d }

/-- The struct `SimpleStreamServer`.  The field `Client` is the connection
`ConnId.client` of the `World`. -/
structure SimpleStreamServer where
  Timeout : Int
  RB : Buf
  WB : Buf
  network : String
  src : String
  dst : String
  deriving DecidableEq, Repr

/-- What the handshake needs from outside the file. -/
structure Env where
  /-- the value of `time.Now().Unix()` at the freshness check; the subtraction
  `time.Now().Unix() - i` is exact for every clock reading above `-2^63 + 2^32` -/
  now : Int
  /-- `socks5.ToAddress` -/
  ToAddress : Byte → List Byte → List Byte → String
  /-- whether `ServerGate` refuses the session -/
  gateErr : Bool

/-- Modelled from the spec: `ServerGate` is a variable of this package that is
not in the file; the gate is an opaque pass-through that wraps a constructed
session, returning it unchanged unless it fails. -/
def ServerGate (env : Env) (s : SimpleStreamServer) : Except Error SimpleStreamServer :=
  if env.gateErr then Except.error Error.gate else Except.ok s

/-- How a call ends: with a session, with an error, or in a run-time panic
(a slice expression out of range). -/
inductive Outcome where
  | ok (s : SimpleStreamServer) : Outcome
  | err (e : Error) : Outcome
  | panic : Outcome
  deriving DecidableEq, Repr

/-- Lines 71-83 of `NewSimpleStreamServer`: the two `if` statements that pick the
transport from the parity of `i` and assign the buffers.  `none` is a panic in
`s.RB[:l]`. -/
def assignBuffers (s : SimpleStreamServer) (b : Buf) (l i : Nat) (udptimeout : Int)
    (w : World) : Option (SimpleStreamServer × World) :=
  -- if i%2 == 0 { s.network = "tcp"; s.RB = b; s.WB = x.BP2048.Get().([]byte) }
  let r1 : SimpleStreamServer × World :=
    if i % 2 = 0 then
      let g := w.Get PoolId.BP2048
      ({ s with network := "tcp", RB := b, WB := g.1 }, g.2)
    else (s, w)
  -- if i%2 == 1 { ... }
  if i % 2 = 1 then
    let s := { r1.1 with network := "udp", Timeout := udptimeout }
    let g := r1.2.Get PoolId.BP65507
    -- copy(s.RB[:l], b[:l])
    if g.1.data.length < l then none else
    let s := { s with RB := g.1.store 0 (slice b.data 0 l) }
    let w := g.2.Put PoolId.BP2048 b
    let g2 := w.Get PoolId.BP65507
    some ({ s with WB := g2.1 }, g2.2)
  else some r1

/-- Lines 65-85 of `NewSimpleStreamServer`: the freshness check, the choice of
transport, the decoding of the destination and the call of the gate.  Here `b` is
the handshake buffer after the body has been read into `b[:l]`. -/
def hsFinish (env : Env) (udptimeout : Int) (s : SimpleStreamServer) (b : Buf) (l : Nat)
    (w : World) : Outcome × World :=
  -- i := int64(binary.BigEndian.Uint32(b[:4]))
  let i := Uint32 (slice b.data 0 4)
  -- if time.Now().Unix()-i > 60
  if env.now - (i : Int) > 60 then
    (Outcome.err (Error.new "Expired request"),
      (w.Put PoolId.BP2048 b).WaitReadErr ConnId.client)
  else
  match assignBuffers s b l i udptimeout w with
  | none => (Outcome.panic, w)
  | some (s, w) =>
    -- s.dst = socks5.ToAddress(s.RB[4], s.RB[4+1:l-2], s.RB[l-2:])
    if s.RB.data.length ≤ 4 ∨ l < 7 ∨ s.RB.data.length < l - 2 then (Outcome.panic, w) else
    let s := { s with
      dst := env.ToAddress (s.RB.data.getD 4 0) (slice s.RB.data 5 (l - 2))
        (s.RB.data.drop (l - 2)) }
    -- return ServerGate(s)
    match ServerGate env s with
    | Except.ok s => (Outcome.ok s, w)
    | Except.error e => (Outcome.err e, w)

/-- Lines 51-64 of `NewSimpleStreamServer`: the comparison of the secret, the
length check and the read of the body.  Here `b` is the handshake buffer after
the 34 header bytes have been read into `b[:34]`. -/
def hsCheck (env : Env) (password : List Byte) (udptimeout : Int) (s : SimpleStreamServer)
    (b : Buf) (w : World) : Outcome × World :=
  -- if bytes.Compare(password, b[:32]) != 0
  if password ≠ slice b.data 0 32 then
    (Outcome.err (Error.new "Password is wrong"),
      (w.Put PoolId.BP2048 b).WaitReadErr ConnId.client)
  else
  -- l := int(binary.BigEndian.Uint16(b[32:34]))
  let l := Uint16 (slice b.data 32 34)
  if l > 2048 then
    (Outcome.err (Error.new "data too long"), w.Put PoolId.BP2048 b)
  else
  -- io.ReadFull(s.Client, b[:l])
  if b.data.length < l then (Outcome.panic, w) else
  let r := w.ReadFull ConnId.client l
  let b := b.store 0 r.1.1
  if r.1.2 = false then (Outcome.err Error.conn, r.2.Put PoolId.BP2048 b) else
  hsFinish env udptimeout s b l r.2

/-- Lines 46-50 of `NewSimpleStreamServer`: the handshake buffer is taken from
the small pool and the 34 header bytes are read into it. -/
def hsHeader (env : Env) (password : List Byte) (udptimeout : Int) (s : SimpleStreamServer)
    (w : World) : Outcome × World :=
  -- b := x.BP2048.Get().([]byte)
  let g := w.Get PoolId.BP2048
  -- io.ReadFull(s.Client, b[:32+2])
  if g.1.data.length < 34 then (Outcome.panic, g.2) else
  let r := g.2.ReadFull ConnId.client 34
  let b := g.1.store 0 r.1.1
  if r.1.2 = false then (Outcome.err Error.conn, r.2.Put PoolId.BP2048 b) else
  hsCheck env password udptimeout s b r.2

/-- The function `NewSimpleStreamServer(password, src, client, timeout, udptimeout)`;
`client` is the connection `ConnId.client` of the world.  Its body is cut into
`hsHeader`, `hsCheck` and `hsFinish`. -/
def NewSimpleStreamServer (env : Env) (password : List Byte) (src : String)
    (timeout udptimeout : Int) (w0 : World) : Outcome × World :=
  -- if timeout != 0 { if err := client.SetDeadline(...); err != nil { return nil, err } }
  let d : Bool × World :=
    if timeout ≠ 0 then w0.SetDeadline ConnId.client timeout else (true, w0)
  if d.1 = false then (Outcome.err Error.conn, d.2) else
  -- s := &SimpleStreamServer{Client: client, Timeout: timeout, src: src}
  let s : SimpleStreamServer :=
    { Timeout := timeout, RB := Buf.null, WB := Buf.null, network := "", src := src, dst := "" }
  hsHeader env password udptimeout s d.2

def SimpleStreamServer.Network (s : SimpleStreamServer) : String := s.network

def SimpleStreamServer.Src (s : SimpleStreamServer) : String := s.src

def SimpleStreamServer.Dst (s : SimpleStreamServer) : String := s.dst

/-- How one pass through the body of a `for` loop of `Exchange` ends. -/
inductive Step where
  /-- the loop goes round again -/
  | next (s : SimpleStreamServer) (w : World) : Step
  /-- the function returns `e` (`none` is `nil`) -/
  | ret (e : Option Error) (s : SimpleStreamServer) (w : World) : Step
  /-- a slice expression is out of range -/
  | panic (w : World) : Step
  deriving DecidableEq, Repr

/-- Lines 131-139 of `Exchange`: the `if s.network == "tcp"` block of the
client-to-destination loop. -/
def Exchange_tcp (s : SimpleStreamServer) (w : World) : Step :=
  -- l, err := s.Client.Read(s.RB)
  let r := w.Read ConnId.client s.RB.data.length
  match r.1 with
  | none => Step.ret none s r.2
  | some data =>
    let s := { s with RB := s.RB.store 0 data }
    -- remote.Write(s.RB[:l])
    let wr := r.2.Write ConnId.remote (slice s.RB.data 0 data.length)
    if wr.1 = false then Step.ret none s wr.2 else Step.next s wr.2

/-- Lines 140-154 of `Exchange`: the `if s.network == "udp"` block of the
client-to-destination loop. -/
def Exchange_udp (s : SimpleStreamServer) (w : World) : Step :=
  -- io.ReadFull(s.Client, s.RB[:2])
  if s.RB.data.length < 2 then Step.panic w else
  let r := w.ReadFull ConnId.client 2
  let s := { s with RB := s.RB.store 0 r.1.1 }
  if r.1.2 = false then Step.ret none s r.2 else
  -- l := int(binary.BigEndian.Uint16(s.RB[:2]))
  let l := Uint16 (slice s.RB.data 0 2)
  if l > 65507 - 2 then Step.ret (some (Error.new "packet too long")) s r.2 else
  -- io.ReadFull(s.Client, s.RB[2:2+l])
  if s.RB.data.length < 2 + l then Step.panic r.2 else
  let r2 := r.2.ReadFull ConnId.client l
  let s := { s with RB := s.RB.store 2 r2.1.1 }
  if r2.1.2 = false then Step.ret none s r2.2 else
  -- remote.Write(s.RB[2 : 2+l])
  let wr := r2.2.Write ConnId.remote (slice s.RB.data 2 (2 + l))
  if wr.1 = false then Step.ret none s wr.2 else Step.next s wr.2

/-- Lines 126-154 of `Exchange`: one pass through the body of the
client-to-destination loop. -/
def Exchange_iter (s : SimpleStreamServer) (w : World) : Step :=
  -- if s.Timeout != 0 { if err := s.Client.SetDeadline(...); err != nil { return nil } }
  let d : Bool × World :=
    if s.Timeout ≠ 0 then w.SetDeadline ConnId.client s.Timeout else (true, w)
  if d.1 = false then Step.ret none s d.2 else
  match (if s.network = "tcp" then Exchange_tcp s d.2 else Step.next s d.2) with
  | Step.next s w => if s.network = "udp" then Exchange_udp s w else Step.next s w
  | r => r

/-- Lines 125-155 of `Exchange`: the client-to-destination loop, run for at
most `fuel` passes; `none` when the fuel runs out before the loop is left. -/
def Exchange_loop : Nat → SimpleStreamServer → World → Option Step
  | 0, _, _ => none
  | fuel + 1, s, w =>
    match Exchange_iter s w with
    | Step.next s w => Exchange_loop fuel s w
    | r => some r

/-- The method `Exchange(remote)` as seen by its caller: lines 121-157.  The
goroutine started on line 89 runs concurrently; its loop is `Exchange_go`.  The
two share nothing but the connections, whose behaviour is arbitrary here. -/
def SimpleStreamServer.Exchange (fuel : Nat) (s : SimpleStreamServer) (w : World) :
    Option Step :=
  -- if s.network == "tcp" && s.Timeout == 0 { io.Copy(remote, s.Client); return nil }
  if s.network = "tcp" ∧ s.Timeout = 0 then
    some (Step.ret none s (w.Copy ConnId.remote ConnId.client))
  else Exchange_loop fuel s w

/-- Lines 100-108 of `Exchange`: the `if s.network == "tcp"` block of the
destination-to-client loop. -/
def Exchange_go_tcp (s : SimpleStreamServer) (w : World) : Step :=
  -- l, err := remote.Read(s.WB)
  let r := w.Read ConnId.remote s.WB.data.length
  match r.1 with
  | none => Step.ret none s r.2
  | some data =>
    let s := { s with WB := s.WB.store 0 data }
    -- s.Client.Write(s.WB[:l])
    let wr := r.2.Write ConnId.client (slice s.WB.data 0 data.length)
    if wr.1 = false then Step.ret none s wr.2 else Step.next s wr.2

/-- Lines 109-118 of `Exchange`: the `if s.network == "udp"` block of the
destination-to-client loop. -/
def Exchange_go_udp (s : SimpleStreamServer) (w : World) : Step :=
  -- l, err := remote.Read(s.WB[2:])
  if s.WB.data.length < 2 then Step.panic w else
  let r := w.Read ConnId.remote (s.WB.data.length - 2)
  match r.1 with
  | none => Step.ret none s r.2
  | some data =>
    let s := { s with WB := s.WB.store 2 data }
    -- binary.BigEndian.PutUint16(s.WB[:2], uint16(l))
    let s := { s with WB := s.WB.store 0 (PutUint16 data.length) }
    -- s.Client.Write(s.WB[:2+l])
    let wr := r.2.Write ConnId.client (slice s.WB.data 0 (2 + data.length))
    if wr.1 = false then Step.ret none s wr.2 else Step.next s wr.2

/-- Lines 95-118 of `Exchange`: one pass through the body of the
destination-to-client loop. -/
def Exchange_go_iter (s : SimpleStreamServer) (w : World) : Step :=
  -- if s.Timeout != 0 { if err := remote.SetDeadline(...); err != nil { return } }
  let d : Bool × World :=
    if s.Timeout ≠ 0 then w.SetDeadline ConnId.remote s.Timeout else (true, w)
  if d.1 = false then Step.ret none s d.2 else
  match (if s.network = "tcp" then Exchange_go_tcp s d.2 else Step.next s d.2) with
  | Step.next s w => if s.network = "udp" then Exchange_go_udp s w else Step.next s w
  | r => r

/-- Lines 94-119 of `Exchange`: the destination-to-client loop, with fuel. -/
def Exchange_go_loop : Nat → SimpleStreamServer → World → Option Step
  | 0, _, _ => none
  | fuel + 1, s, w =>
    match Exchange_go_iter s w with
    | Step.next s w => Exchange_go_loop fuel s w
    | r => some r

/-- Lines 89-120 of `Exchange`: the goroutine. -/
def Exchange_go (fuel : Nat) (s : SimpleStreamServer) (w : World) : Option Step :=
  -- if s.network == "tcp" && s.Timeout == 0 { io.Copy(s.Client, remote); return }
  if s.network = "tcp" ∧ s.Timeout = 0 then
    some (Step.ret none s (w.Copy ConnId.client ConnId.remote))
  else Exchange_go_loop fuel s w

/-- The method `Clean()`. -/
def SimpleStreamServer.Clean (s : SimpleStreamServer) (w : World) : World :=
  -- if s.network == "tcp" { x.BP2048.Put(s.WB); x.BP2048.Put(s.RB) }
  let w := if s.network = "tcp" then (w.Put PoolId.BP2048 s.WB).Put PoolId.BP2048 s.RB else w
  -- if s.network == "udp" { x.BP65507.Put(s.WB); x.BP65507.Put(s.RB) }
  if s.network = "udp" then (w.Put PoolId.BP65507 s.WB).Put PoolId.BP65507 s.RB else w

/-! ## The handshake on the wire

`secret(32) || bodyLength(uint16) || body`, read from the client connection. -/

/-- The length field of the handshake: bytes 32 and 33 of what the client sends. -/
def hsLen (w0 : World) : Nat := Uint16 (w0.client.input.drop 32)

/-- The request body: the `hsLen` bytes that follow the 34 header bytes. -/
def hsBody (w0 : World) : List Byte := (w0.client.input.drop 34).take (hsLen w0)

/-- The timestamp: the big-endian `uint32` at the front of the request body. -/
def hsTimestamp (w0 : World) : Nat := Uint32 (hsBody w0)

/-- Contents of the buffer returned by the `k`-th next `Get` of a pool to which
nothing is put back in between. -/
def Pool.nth (p : Pool) (k : Nat) : List Byte := p.idle.getD k (List.replicate p.size 0)

/-- What holds when `NewSimpleStreamServer`, called in the world `w0`, returns the
session `s` and leaves the world `w`. -/
structure Accepted (env : Env) (pw : List Byte) (src : String) (t ut : Int) (w0 : World)
    (s : SimpleStreamServer) (w : World) : Prop where
  armed : t = 0 ∨ w0.client.deadlineOk.headD true = true
  header : 34 ≤ w0.client.input.length
  secret : pw = w0.client.input.take 32
  len_ge : 7 ≤ hsLen w0
  len_le : hsLen w0 ≤ 2048
  body : (hsBody w0).length = hsLen w0
  fresh : env.now - (hsTimestamp w0 : Int) ≤ 60
  gate : env.gateErr = false
  network : s.network = if hsTimestamp w0 % 2 = 0 then "tcp" else "udp"
  timeout : s.Timeout = if hsTimestamp w0 % 2 = 0 then t else ut
  src : s.src = src
  rb_body : s.RB.data.take (hsLen w0) = hsBody w0
  rb_len_ge : hsLen w0 ≤ s.RB.data.length
  dst : s.dst = env.ToAddress (s.RB.data.getD 4 0) (slice s.RB.data 5 (hsLen w0 - 2))
    (s.RB.data.drop (hsLen w0 - 2))
  rb_id : s.RB.id = if hsTimestamp w0 % 2 = 0 then BufId.pooled PoolId.BP2048 w0.BP2048.gets
    else BufId.pooled PoolId.BP65507 w0.BP65507.gets
  rb_len : s.RB.data.length = if hsTimestamp w0 % 2 = 0 then (w0.BP2048.nth 0).length
    else (w0.BP65507.nth 0).length
  wb_id : s.WB.id = if hsTimestamp w0 % 2 = 0 then BufId.pooled PoolId.BP2048 (w0.BP2048.gets + 1)
    else BufId.pooled PoolId.BP65507 (w0.BP65507.gets + 1)
  wb_data : s.WB.data = if hsTimestamp w0 % 2 = 0 then w0.BP2048.nth 1 else w0.BP65507.nth 1
  small_gets : w.BP2048.gets = w0.BP2048.gets + (if hsTimestamp w0 % 2 = 0 then 2 else 1)
  small_puts : w.BP2048.puts = w0.BP2048.puts + (if hsTimestamp w0 % 2 = 0 then 0 else 1)
  large_gets : w.BP65507.gets = w0.BP65507.gets + (if hsTimestamp w0 % 2 = 0 then 0 else 2)
  large_puts : w.BP65507.puts = w0.BP65507.puts

/-! ## The states the handshake passes through -/

/-- The session value made on line 45. -/
def newSession (t : Int) (src : String) : SimpleStreamServer :=
  { Timeout := t, RB := Buf.null, WB := Buf.null, network := "", src := src, dst := "" }

/-- Whether the deadline of lines 40-44 is armed without error (or not armed at all). -/
def armOk (t : Int) (w0 : World) : Prop := t = 0 ∨ w0.client.deadlineOk.headD true = true

instance (t : Int) (w0 : World) : Decidable (armOk t w0) := by
  unfold armOk; infer_instance

/-- The world after lines 40-44. -/
def armedWorld (t : Int) (w0 : World) : World :=
  if t ≠ 0 then (w0.SetDeadline ConnId.client t).2 else w0

/-- The handshake buffer after the header has been read into it (line 47). -/
def headerBuf (t : Int) (w0 : World) : Buf :=
  ((armedWorld t w0).Get PoolId.BP2048).1.store 0 (w0.client.input.take 34)

/-- The world after the header has been read (line 47). -/
def headerWorld (t : Int) (w0 : World) : World :=
  (((armedWorld t w0).Get PoolId.BP2048).2.ReadFull ConnId.client 34).2

/-- The handshake buffer after the body has been read into it (line 61). -/
def bodyBuf (t : Int) (w0 : World) : Buf := (headerBuf t w0).store 0 (hsBody w0)

/-- The world after the body has been read (line 61). -/
def bodyWorld (t : Int) (w0 : World) : World :=
  ((headerWorld t w0).ReadFull ConnId.client (hsLen w0)).2

/-- The value `i` of line 65: the big-endian `uint32` that the code reads from the
first four bytes of the handshake buffer once the body has been read into it. -/
def hsStamp (t : Int) (w0 : World) : Nat := Uint32 (slice (bodyBuf t w0).data 0 4)

/-! ## Runs of the loops of `Exchange` -/

/-- The state after `k` passes through the client-to-destination loop, none of
which has left the loop; `none` if one of them has. -/
def Exchange_run : Nat → SimpleStreamServer → World → Option (SimpleStreamServer × World)
  | 0, s, w => some (s, w)
  | k + 1, s, w =>
    match Exchange_iter s w with
    | Step.next s w => Exchange_run k s w
    | _ => none

/-- In the state `s`, `w` the next pass through the client-to-destination loop
reads a length field above 65505 from the client: the deadline is armed without
error (if there is one to arm) and the two bytes arrive. -/
def oversize (s : SimpleStreamServer) (w : World) : Prop :=
  armOk s.Timeout w ∧ 2 ≤ s.RB.data.length ∧ 2 ≤ w.client.input.length ∧
    65505 < Uint16 w.client.input

/-- The world in which a pass through a loop ends. -/
def Step.world : Step → World
  | Step.next _ w => w
  | Step.ret _ _ w => w
  | Step.panic w => w

/-! ## Concrete inputs -/

/-- Modelled from the spec: the address decoder `socks5.ToAddress` is not in the
file.  It turns a type byte, the address bytes and two port bytes into
`host:port`.  Type 1 is an IPv4 literal (dotted decimal), type 3 a domain name
after its length byte; the other types are not modelled and give an empty host. -/
def ToAddress (a : Byte) (addr port : List Byte) : String :=
  let h : String :=
    if a = 1 then ".".intercalate (addr.map fun x => toString x.val)
    else if a = 3 then String.mk (addr.tail.map fun x => Char.ofNat x.val)
    else ""
  h ++ ":" ++ toString (Uint16 port)

/-- A pool that has not been used yet. -/
def Pool.unused (size : Nat) : Pool := { idle := [], size := size, gets := 0, puts := 0 }

/-- A connection on which `inp` arrives and every other call succeeds. -/
def Conn.ofInput (inp : List Byte) : Conn :=
  { input := inp, reads := [], deadlineOk := [], writeOk := [] }

/-- The world before a handshake in which the client sends `inp`. -/
def World.start (inp : List Byte) : World :=
  { client := Conn.ofInput inp, remote := Conn.ofInput [], BP2048 := Pool.unused 2048,
    BP65507 := Pool.unused 65507, log := [] }

/-- The secret of the scenario of the spec: 32 zero bytes. -/
def zeroSecret : List Byte := List.replicate 32 0

/-- A handshake: the zero secret, the length field 11, and a body made of the four
timestamp bytes, the type IPv4, the address 127.0.0.1 and the port 80. -/
def request (t0 t1 t2 t3 : Byte) : List Byte :=
  zeroSecret ++ [0, 11] ++ [t0, t1, t2, t3, 1, 127, 0, 0, 1, 0, 80]

/-- The clock reads `now`, the decoder is `ToAddress`, the gate lets the session
through. -/
def envAt (now : Int) : Env := { now := now, ToAddress := ToAddress, gateErr := false }

/-- The stream session built from `request t0 t1 t2 t3` in `World.start`. -/
def streamSession (t0 t1 t2 t3 : Byte) : SimpleStreamServer :=
  { Timeout := 0
    RB := { id := BufId.pooled PoolId.BP2048 0,
            data := [t0, t1, t2, t3, 1, 127, 0, 0, 1, 0, 80] ++ List.replicate 21 0 ++ [0, 11] ++
              List.replicate 2014 0 }
    WB := { id := BufId.pooled PoolId.BP2048 1, data := List.replicate 2048 0 }
    network := "tcp"
    src := "peer"
    dst := "127.0.0.1:80" }

/-- The world after that handshake. -/
def streamWorld : World :=
  { client := Conn.ofInput []
    remote := Conn.ofInput []
    BP2048 := { idle := [], size := 2048, gets := 2, puts := 0 }
    BP65507 := Pool.unused 65507
    log := [Event.get PoolId.BP2048 (BufId.pooled PoolId.BP2048 0),
            Event.readFull ConnId.client 34 true, Event.readFull ConnId.client 11 true,
            Event.get PoolId.BP2048 (BufId.pooled PoolId.BP2048 1)] }

/-- A datagram session with zeroed buffers of the large pool and no timeout. -/
def datagramSession : SimpleStreamServer :=
  { Timeout := 0
    RB := { id := BufId.pooled PoolId.BP65507 0, data := List.replicate 65507 0 }
    WB := { id := BufId.pooled PoolId.BP65507 1, data := List.replicate 65507 0 }
    network := "udp"
    src := "peer"
    dst := "127.0.0.1:80" }

/-- A world in which the destination delivers the three bytes 5, 6, 7. -/
def replyWorld : World := { World.start [] with remote := Conn.ofInput [5, 6, 7] }

/-! ## The ways the handshake ends -/

/-- The world after lines 71-83, when the session has its two buffers. -/
def grantedWorld (t : Int) (w0 : World) : World :=
  if hsStamp t w0 % 2 = 0 then ((bodyWorld t w0).Get PoolId.BP2048).2
  else ((((bodyWorld t w0).Get PoolId.BP65507).2.Put PoolId.BP2048
    (bodyBuf t w0)).Get PoolId.BP65507).2

/-- The world after the handshake buffer `b` has been put back and the
connection drained (lines 52-53 and 67-68). -/
def World.reject (w : World) (b : Buf) : World :=
  (w.Put PoolId.BP2048 b).WaitReadErr ConnId.client

/-- The handshake is well formed: the deadline is armed without error, the 34
header bytes arrive, the secret matches, `L <= 2048` and the `L` body bytes arrive. -/
def hsValid (pw : List Byte) (t : Int) (w0 : World) : Prop :=
  armOk t w0 ∧ 34 ≤ w0.client.input.length ∧ w0.client.input.take 32 = pw ∧
    hsLen w0 ≤ 2048 ∧ 34 + hsLen w0 ≤ w0.client.input.length

/-- The events of lines 40-44. -/
def armEvents (t : Int) (w0 : World) : List Event :=
  if t = 0 then [] else [Event.setDeadline ConnId.client t (w0.client.deadlineOk.headD true)]

/-- Like `envAt`, with a gate that refuses the session. -/
def envRefusing (now : Int) : Env := { now := now, ToAddress := ToAddress, gateErr := true }

/-- A handshake with the zero secret and the length field 4, whose body is only the
four timestamp bytes. -/
def bareRequest (t0 t1 t2 t3 : Byte) : List Byte := zeroSecret ++ [0, 4] ++ [t0, t1, t2, t3]

/-- A secret whose first four bytes are `0x65 0x53 0xF1 0x00`, that is 1700000000. -/
def stampSecret : List Byte := [0x65, 0x53, 0xF1, 0x00] ++ List.replicate 28 0

/-! ## What a pass through a loop does to the session and to the log -/

/-- Whether an event is a call of `SetDeadline`. -/
def Event.isDeadline : Event → Bool
  | Event.setDeadline _ _ _ => true
  | _ => false

/-- The session with which a pass through a loop ends (none after a panic). -/
def Step.session : Step → Option SimpleStreamServer
  | Step.next s _ => some s
  | Step.ret _ s _ => some s
  | Step.panic _ => none

/-- The same step with `f` applied to its session. -/
def Step.mapSession (f : SimpleStreamServer → SimpleStreamServer) : Step → Step
  | Step.next s w => Step.next (f s) w
  | Step.ret e s w => Step.ret e (f s) w
  | Step.panic w => Step.panic w

/-- The session with another write buffer. -/
def SimpleStreamServer.withWB (s : SimpleStreamServer) (b : Buf) : SimpleStreamServer :=
  { s with WB := b }

/-- The session with another read buffer. -/
def SimpleStreamServer.withRB (s : SimpleStreamServer) (b : Buf) : SimpleStreamServer :=
  { s with RB := b }

/-- What a pass through a loop leaves of the session `s` in `s1`: all fields but the
contents of `RB`, whose identity and length stay. -/
def keepsButRB (s s1 : SimpleStreamServer) : Prop :=
  s1.WB = s.WB ∧ s1.RB.id = s.RB.id ∧ s1.RB.data.length = s.RB.data.length ∧
    s1.network = s.network ∧ s1.src = s.src ∧ s1.dst = s.dst ∧ s1.Timeout = s.Timeout

/-- The same for the destination-to-client loop: all fields but the contents of `WB`. -/
def keepsButWB (s s1 : SimpleStreamServer) : Prop :=
  s1.RB = s.RB ∧ s1.WB.id = s.WB.id ∧ s1.WB.data.length = s.WB.data.length ∧
    s1.network = s.network ∧ s1.src = s.src ∧ s1.dst = s.dst ∧ s1.Timeout = s.Timeout

/-- From `w` to `w1` the log only grows, and by no call of `SetDeadline`. -/
def quietly (w w1 : World) : Prop :=
  ∃ evs, w1.log = w.log ++ evs ∧ ∀ e ∈ evs, e.isDeadline = false

/-- The world after lines 95-99 of the destination-to-client loop. -/
def armedRemote (t : Int) (w : World) : World :=
  if t ≠ 0 then (w.SetDeadline ConnId.remote t).2 else w

/-! ## Basic facts about slices and the wire encodings -/

theorem store_length (b : List Byte) (off : Nat) (d : List Byte)
    (h : off + d.length ≤ b.length) : (store b off d).length = b.length := by
  simp [store]; omega

theorem take_store_zero (b d : List Byte) (n : Nat) (hn : n ≤ d.length) :
    (store b 0 d).take n = d.take n := by
  simp [store, List.take_append_of_le_length hn]

theorem slice_zero (b : List Byte) (n : Nat) : slice b 0 n = b.take n := by
  simp [slice]

theorem Uint16_take (b : List Byte) (n : Nat) (hn : 2 ≤ n) : Uint16 (b.take n) = Uint16 b := by
  obtain ⟨k, rfl⟩ : ∃ k, n = k + 2 := ⟨n - 2, by omega⟩
  rcases b with _ | ⟨a, _ | ⟨c, r⟩⟩ <;> simp [Uint16]

theorem Uint32_take (b : List Byte) (n : Nat) (hn : 4 ≤ n) : Uint32 (b.take n) = Uint32 b := by
  obtain ⟨k, rfl⟩ : ∃ k, n = k + 4 := ⟨n - 4, by omega⟩
  rcases b with _ | ⟨a, _ | ⟨c, _ | ⟨d, _ | ⟨e, r⟩⟩⟩⟩ <;> simp [Uint32]

theorem Uint16_lt (b : List Byte) : Uint16 b < 65536 := by
  rcases b with _ | ⟨a, _ | ⟨c, r⟩⟩ <;> simp [Uint16]
  have := a.isLt; have := c.isLt; omega

theorem Uint32_lt (b : List Byte) : Uint32 b < 4294967296 := by
  rcases b with _ | ⟨a, _ | ⟨c, _ | ⟨d, _ | ⟨e, r⟩⟩⟩⟩ <;> simp [Uint32]
  have := a.isLt; have := c.isLt; have := d.isLt; have := e.isLt; omega

/-! ## Frame facts about the operations on the world -/

@[simp] theorem Get_client (w : World) (p : PoolId) : (w.Get p).2.client = w.client := by
  cases p <;> rfl

@[simp] theorem Put_client (w : World) (p : PoolId) (b : Buf) : (w.Put p b).client = w.client := by
  cases p <;> rfl

@[simp] theorem SetDeadline_client_input (w : World) (c : ConnId) (t : Int) :
    (w.SetDeadline c t).2.client.input = w.client.input := by
  cases c <;> rfl

@[simp] theorem SetDeadline_pool (w : World) (c : ConnId) (t : Int) (p : PoolId) :
    (w.SetDeadline c t).2.pool p = w.pool p := by
  cases c <;> cases p <;> rfl

@[simp] theorem ReadFull_pool (w : World) (c : ConnId) (n : Nat) (p : PoolId) :
    (w.ReadFull c n).2.pool p = w.pool p := by
  cases c <;> cases p <;> rfl

@[simp] theorem WaitReadErr_pool (w : World) (c : ConnId) (p : PoolId) :
    (w.WaitReadErr c).pool p = w.pool p := by
  cases c <;> cases p <;> rfl

@[simp] theorem ReadFull_data (w : World) (n : Nat) :
    (w.ReadFull ConnId.client n).1.1 = w.client.input.take n := rfl

@[simp] theorem ReadFull_ok (w : World) (n : Nat) :
    (w.ReadFull ConnId.client n).1.2 = decide (n ≤ w.client.input.length) := rfl

@[simp] theorem ReadFull_client_input (w : World) (n : Nat) :
    (w.ReadFull ConnId.client n).2.client.input = w.client.input.drop n := rfl

theorem Get_pool (w : World) (p q : PoolId) :
    (w.Get p).2.pool q =
      if q = p then { w.pool p with idle := (w.pool p).idle.tail, gets := (w.pool p).gets + 1 }
      else w.pool q := by
  cases p <;> cases q <;> rfl

theorem Put_pool (w : World) (p q : PoolId) (b : Buf) :
    (w.Put p b).pool q =
      if q = p then { w.pool p with idle := b.data :: (w.pool p).idle, puts := (w.pool p).puts + 1 }
      else w.pool q := by
  cases p <;> cases q <;> rfl

theorem Get_buf (w : World) (p : PoolId) :
    (w.Get p).1 =
      { id := BufId.pooled p (w.pool p).gets,
        data := (w.pool p).idle.headD (List.replicate (w.pool p).size 0) } := rfl

/-! ## The handshake, stage by stage -/

theorem assignBuffers_even (s : SimpleStreamServer) (b : Buf) (l i : Nat) (ut : Int) (w : World)
    (hi : i % 2 = 0) :
    assignBuffers s b l i ut w =
      some ({ s with network := "tcp", RB := b, WB := (w.Get PoolId.BP2048).1 },
        (w.Get PoolId.BP2048).2) := by
  have h1 : ¬ i % 2 = 1 := by omega
  simp [assignBuffers, hi]

theorem assignBuffers_odd (s : SimpleStreamServer) (b : Buf) (l i : Nat) (ut : Int) (w : World)
    (hi : i % 2 = 1) :
    assignBuffers s b l i ut w =
      if (w.Get PoolId.BP65507).1.data.length < l then none else
      some ({ s with
                network := "udp"
                Timeout := ut
                RB := (w.Get PoolId.BP65507).1.store 0 (slice b.data 0 l)
                WB := (((w.Get PoolId.BP65507).2.Put PoolId.BP2048 b).Get PoolId.BP65507).1 },
        (((w.Get PoolId.BP65507).2.Put PoolId.BP2048 b).Get PoolId.BP65507).2) := by
  have h1 : ¬ i % 2 = 0 := by omega
  simp [assignBuffers, hi]

/-- What `hsFinish` has established when it returns a session. -/
theorem hsFinish_ok {env : Env} {ut : Int} {s : SimpleStreamServer} {b : Buf} {l : Nat}
    {w : World} {s' : SimpleStreamServer} {w' : World}
    (h : hsFinish env ut s b l w = (Outcome.ok s', w')) :
    env.now - (Uint32 (slice b.data 0 4) : Int) ≤ 60 ∧ 7 ≤ l ∧ env.gateErr = false ∧
    ∃ s1, assignBuffers s b l (Uint32 (slice b.data 0 4)) ut w = some (s1, w') ∧
      4 < s1.RB.data.length ∧ l - 2 ≤ s1.RB.data.length ∧
      s'.dst = env.ToAddress (s1.RB.data.getD 4 0) (slice s1.RB.data 5 (l - 2))
        (s1.RB.data.drop (l - 2)) ∧
      s'.network = s1.network ∧ s'.Timeout = s1.Timeout ∧ s'.src = s1.src ∧
      s'.RB = s1.RB ∧ s'.WB = s1.WB := by
  unfold hsFinish at h
  simp only [] at h
  split at h
  · simp at h
  · split at h
    · simp at h
    · rename_i s1 w1 hab
      split at h
      · simp at h
      · rename_i hc
        unfold ServerGate at h
        split at h
        · rename_i s2 hg
          split at hg
          · simp at hg
          · rename_i hge
            simp only [Except.ok.injEq] at hg
            simp only [Prod.mk.injEq, Outcome.ok.injEq] at h
            obtain ⟨h1, h2⟩ := h
            subst h2
            refine ⟨by omega, by omega, by simpa using hge, s1, hab, by omega, by omega, ?_⟩
            rw [← h1, ← hg]
            simp
        · simp at h


/-- What `hsCheck` has established when it returns a session. -/
theorem hsCheck_ok {env : Env} {pw : List Byte} {ut : Int} {s : SimpleStreamServer} {b : Buf}
    {w : World} {s' : SimpleStreamServer} {w' : World}
    (h : hsCheck env pw ut s b w = (Outcome.ok s', w')) :
    pw = slice b.data 0 32 ∧ Uint16 (slice b.data 32 34) ≤ 2048 ∧
    Uint16 (slice b.data 32 34) ≤ b.data.length ∧
    Uint16 (slice b.data 32 34) ≤ w.client.input.length ∧
    hsFinish env ut s (b.store 0 (w.client.input.take (Uint16 (slice b.data 32 34))))
      (Uint16 (slice b.data 32 34)) (w.ReadFull ConnId.client (Uint16 (slice b.data 32 34))).2
        = (Outcome.ok s', w') := by
  unfold hsCheck at h
  simp only [] at h
  split at h
  · simp at h
  · rename_i hpw
    split at h
    · simp at h
    · split at h
      · simp at h
      · split at h
        · simp at h
        · rename_i h1 h2 h3
          simp only [ReadFull_ok, decide_eq_false_iff_not, not_not] at h3
          simp only [ReadFull_data] at h
          exact ⟨by simpa using hpw, by omega, by omega, h3, h⟩

/-- What `hsHeader` has established when it returns a session. -/
theorem hsHeader_ok {env : Env} {pw : List Byte} {ut : Int} {s : SimpleStreamServer}
    {w : World} {s' : SimpleStreamServer} {w' : World}
    (h : hsHeader env pw ut s w = (Outcome.ok s', w')) :
    34 ≤ (w.Get PoolId.BP2048).1.data.length ∧ 34 ≤ w.client.input.length ∧
    hsCheck env pw ut s ((w.Get PoolId.BP2048).1.store 0 (w.client.input.take 34))
      ((w.Get PoolId.BP2048).2.ReadFull ConnId.client 34).2 = (Outcome.ok s', w') := by
  unfold hsHeader at h
  simp only [] at h
  split at h
  · simp at h
  · split at h
    · simp at h
    · rename_i h1 h2
      simp only [ReadFull_ok, decide_eq_false_iff_not, not_not, Get_client] at h2
      simp only [ReadFull_data, Get_client] at h
      exact ⟨by omega, h2, h⟩

@[simp] theorem Buf_store_data (b : Buf) (off : Nat) (d : List Byte) :
    (b.store off d).data = store b.data off d := rfl

@[simp] theorem Buf_store_id (b : Buf) (off : Nat) (d : List Byte) :
    (b.store off d).id = b.id := rfl

theorem store_zero (b d : List Byte) : store b 0 d = d ++ b.drop d.length := by
  simp [store]

theorem header_secret (b inp : List Byte) (h : 34 ≤ inp.length) :
    slice (store b 0 (inp.take 34)) 0 32 = inp.take 32 := by
  rw [slice_zero, take_store_zero _ _ _ (by simp; omega), List.take_take]
  simp

theorem header_len (b inp : List Byte) (h : 34 ≤ inp.length) :
    Uint16 (slice (store b 0 (inp.take 34)) 32 34) = Uint16 (inp.drop 32) := by
  unfold slice
  rw [take_store_zero _ _ _ (by simp; omega), List.take_take]
  simp only [min_self]
  rw [List.drop_take]
  exact Uint16_take _ _ (by omega)

theorem body_timestamp (b body : List Byte) (h : 4 ≤ body.length) :
    Uint32 (slice (store b 0 body) 0 4) = Uint32 body := by
  rw [slice_zero, take_store_zero _ _ _ h]
  exact Uint32_take _ _ (le_refl 4)

theorem Pool_nth_zero (p : Pool) : p.idle.headD (List.replicate p.size 0) = p.nth 0 := by
  unfold Pool.nth; cases p.idle <;> rfl

theorem Pool_nth_one (p : Pool) : p.idle.tail.headD (List.replicate p.size 0) = p.nth 1 := by
  unfold Pool.nth; rcases p.idle with _ | ⟨a, _ | ⟨b, r⟩⟩ <;> rfl

theorem body_take (b body : List Byte) : (store b 0 body).take body.length = body := by
  rw [take_store_zero _ _ _ (le_refl _), List.take_length]

theorem NewSimpleStreamServer_ok {env : Env} {pw : List Byte} {src : String} {t ut : Int}
    {w0 : World} {s : SimpleStreamServer} {w : World}
    (h : NewSimpleStreamServer env pw src t ut w0 = (Outcome.ok s, w)) :
    Accepted env pw src t ut w0 s w := by
  unfold NewSimpleStreamServer at h
  simp only [] at h
  obtain ⟨w1, s0, hw1i, hw1p, harm, hs0t, hs0s, h⟩ : ∃ (w1 : World) (s0 : SimpleStreamServer),
      w1.client.input = w0.client.input ∧
      (∀ p, w1.pool p = w0.pool p) ∧ (t = 0 ∨ w0.client.deadlineOk.headD true = true) ∧
      s0.Timeout = t ∧ s0.src = src ∧ hsHeader env pw ut s0 w1 = (Outcome.ok s, w) := by
    by_cases ht : t = 0
    · subst ht
      simp only [ne_eq, not_true_eq_false, ↓reduceIte, Bool.true_eq_false] at h
      exact ⟨w0, _, rfl, fun _ => rfl, Or.inl rfl, rfl, rfl, h⟩
    · simp only [ne_eq, ht, not_false_eq_true, ↓reduceIte] at h
      split at h
      · simp at h
      · rename_i hd
        refine ⟨(w0.SetDeadline ConnId.client t).2, _, by simp, by simp, Or.inr ?_, rfl, rfl, h⟩
        simpa [World.SetDeadline, World.conn] using hd
  obtain ⟨hb0, hin, h1⟩ := hsHeader_ok h
  obtain ⟨hpw, hl, hlb, hli, h2⟩ := hsCheck_ok h1
  obtain ⟨hfresh, hl7, hgate, s1, hab, h4, hl2, hdst, hnet, hto, hsrc, hrb, hwb⟩ := hsFinish_ok h2
  clear h h1 h2
  rw [hw1i] at hin
  simp only [Buf_store_data, hw1i, ReadFull_client_input, Get_client, header_len _ _ hin]
    at hpw hl hlb hli hfresh hl7 hab hl2 hdst
  have hL : Uint16 (List.drop 32 w0.client.input) = hsLen w0 := rfl
  have hB : List.take (hsLen w0) (List.drop 34 w0.client.input) = hsBody w0 := rfl
  simp only [hL, hB] at hl hlb hli hfresh hl7 hab hl2 hdst
  have hbl : (hsBody w0).length = hsLen w0 := by
    rw [← hB, List.length_take]; omega
  rw [body_timestamp _ _ (by omega)] at hfresh hab
  have hT : Uint32 (hsBody w0) = hsTimestamp w0 := rfl
  simp only [hT] at hfresh hab
  rw [header_secret _ _ hin] at hpw
  rw [store_length _ _ _ (by simp; omega)] at hlb
  have hsm : ∀ x : World, x.BP2048 = x.pool PoolId.BP2048 := fun _ => rfl
  have hlg : ∀ x : World, x.BP65507 = x.pool PoolId.BP65507 := fun _ => rfl
  rcases Nat.mod_two_eq_zero_or_one (hsTimestamp w0) with hp | hp
  · rw [assignBuffers_even _ _ _ _ _ _ hp] at hab
    simp only [Option.some.injEq, Prod.mk.injEq] at hab
    obtain ⟨hs1, hw⟩ := hab
    subst hs1
    subst hw
    simp only [Buf_store_data, Buf_store_id] at hdst hrb hl2 h4
    have hlen : s.RB.data.length = (w0.BP2048.nth 0).length := by
      rw [hrb]
      simp only [Buf_store_data]
      rw [store_length _ _ _ (by rw [store_length _ _ _ (by simp; omega)]; omega),
        store_length _ _ _ (by simp; omega), Get_buf, hw1p, Pool_nth_zero]
      rfl
    have hbody : s.RB.data.take (hsLen w0) = hsBody w0 := by
      rw [hrb]
      simp only [Buf_store_data]
      rw [← hbl]
      exact body_take _ _
    refine
      { armed := harm, header := hin, secret := hpw, len_ge := hl7, len_le := hl, body := hbl,
        fresh := hfresh, gate := hgate, network := ?_, timeout := ?_, src := ?_, rb_body := hbody,
        rb_len_ge := ?_, dst := ?_, rb_id := ?_, rb_len := ?_, wb_id := ?_, wb_data := ?_,
        small_gets := ?_, small_puts := ?_, large_gets := ?_, large_puts := ?_ }
    · simp [hnet, hp]
    · simp [hto, hp, hs0t]
    · simp [hsrc, hs0s]
    · rw [hlen]
      rw [Get_buf, hw1p, Pool_nth_zero] at hlb
      exact hlb
    · rw [hdst, hrb]; rfl
    · simp [hp, hrb, Get_buf, hw1p, hsm]
    · simp [hp, hlen]
    · simp [hp, hwb, Get_buf, Get_pool, hw1p, hsm]
    · simp [hp, hwb, Get_buf, Get_pool, hw1p, hsm, Pool.nth, List.getD_eq_getElem?_getD]
    · simp [hp, hsm, Get_pool, hw1p]
    · simp [hp, hsm, Get_pool, hw1p]
    · simp [hp, hlg, Get_pool, hw1p]
    · simp [hp, hlg, Get_pool, hw1p]
  · rw [assignBuffers_odd _ _ _ _ _ _ hp] at hab
    split at hab
    · simp at hab
    · rename_i hbig
      simp only [Option.some.injEq, Prod.mk.injEq] at hab
      obtain ⟨hs1, hw⟩ := hab
      subst hs1
      subst hw
      simp only [Buf_store_data, Buf_store_id] at hdst hrb hl2 h4
      simp only [ReadFull_pool, Get_buf, Get_pool, reduceCtorEq, ↓reduceIte, hw1p,
        Pool_nth_zero] at hbig
      have hsl : slice (store (store (w1.Get PoolId.BP2048).1.data 0
          (List.take 34 w0.client.input)) 0 (hsBody w0)) 0 (hsLen w0) = hsBody w0 := by
        rw [slice_zero, ← hbl]; exact body_take _ _
      have hrbd : s.RB.data = store ((w0.pool PoolId.BP65507).nth 0) 0 (hsBody w0) := by
        rw [hrb]
        simp only [Buf_store_data]
        rw [hsl]
        simp only [ReadFull_pool, Get_buf, Get_pool, reduceCtorEq, ↓reduceIte, hw1p,
          Pool_nth_zero]
      have hlen : s.RB.data.length = (w0.BP65507.nth 0).length := by
        rw [hrbd, store_length _ _ _ (by omega)]; rfl
      have hbody : s.RB.data.take (hsLen w0) = hsBody w0 := by
        rw [hrbd, ← hbl]
        exact body_take _ _
      have hne : ¬ hsTimestamp w0 % 2 = 0 := by omega
      refine
        { armed := harm, header := hin, secret := hpw, len_ge := hl7, len_le := hl, body := hbl,
          fresh := hfresh, gate := hgate, network := ?_, timeout := ?_, src := ?_,
          rb_body := hbody, rb_len_ge := ?_, dst := ?_, rb_id := ?_, rb_len := ?_, wb_id := ?_,
          wb_data := ?_, small_gets := ?_, small_puts := ?_, large_gets := ?_, large_puts := ?_ }
      · simp [hnet, hne]
      · simp [hto, hne]
      · simp [hsrc, hs0s]
      · rw [hlen]; exact Nat.le_of_not_lt hbig
      · rw [hdst, hrb]; rfl
      · simp [hne, hrb, Get_buf, Get_pool, hw1p, hlg]
      · simp [hne, hlen]
      · simp [hne, hwb, Get_buf, Get_pool, Put_pool, hw1p, hlg]
      · simp [hne, hwb, Get_buf, Get_pool, Put_pool, hw1p, hlg, Pool.nth, List.getD_eq_getElem?_getD]
      · simp [hne, hsm, Get_pool, Put_pool, hw1p]
      · simp [hne, hsm, Get_pool, Put_pool, hw1p]
      · simp [hne, hlg, Get_pool, Put_pool, hw1p]
      · simp [hne, hlg, Get_pool, Put_pool, hw1p]

/-- The scenario of the spec, run: the clock reads 1700000000 = `0x6553F100`. -/
theorem scenario_run :
    NewSimpleStreamServer (envAt 1700000000) zeroSecret "peer" 0 0
      (World.start (request 0x65 0x53 0xF1 0x00)) =
      (Outcome.ok (streamSession 0x65 0x53 0xF1 0x00), streamWorld) := by
  decide!

theorem Pool_unused_nth (n k : Nat) : ((Pool.unused n).nth k).length = n := by
  cases k <;> simp [Pool.unused, Pool.nth]

/-! ## The handshake, forwards -/

@[simp] theorem armedWorld_input (t : Int) (w0 : World) :
    (armedWorld t w0).client.input = w0.client.input := by
  unfold armedWorld; split <;> simp

@[simp] theorem armedWorld_pool (t : Int) (w0 : World) (p : PoolId) :
    (armedWorld t w0).pool p = w0.pool p := by
  unfold armedWorld; split <;> simp

theorem New_of_not_armOk (env : Env) (pw : List Byte) (src : String) (t ut : Int) (w0 : World)
    (h : ¬ armOk t w0) :
    NewSimpleStreamServer env pw src t ut w0 = (Outcome.err Error.conn, armedWorld t w0) := by
  unfold armOk at h
  push_neg at h
  obtain ⟨h1, h2⟩ := h
  have h3 : w0.client.deadlineOk.head?.getD true = false := by simpa using h2
  simp [NewSimpleStreamServer, armedWorld, h1, World.SetDeadline, World.conn, h3]

theorem New_of_armOk (env : Env) (pw : List Byte) (src : String) (t ut : Int) (w0 : World)
    (h : armOk t w0) :
    NewSimpleStreamServer env pw src t ut w0 =
      hsHeader env pw ut (newSession t src) (armedWorld t w0) := by
  unfold NewSimpleStreamServer armedWorld newSession
  by_cases ht : t = 0
  · simp [ht]
  · have h3 : w0.client.deadlineOk.head?.getD true = true := by
      rcases h with h | h
      · exact absurd h ht
      · simpa using h
    simp [ht, World.SetDeadline, World.conn, h3]

theorem headerBuf_length (t : Int) (w0 : World) (hb : 34 ≤ (w0.BP2048.nth 0).length)
    (hin : 34 ≤ w0.client.input.length) :
    (headerBuf t w0).data.length = (w0.BP2048.nth 0).length := by
  unfold headerBuf
  rw [Buf_store_data, Get_buf, armedWorld_pool, Pool_nth_zero,
    store_length _ _ _ (by rw [List.length_take]; show _ ≤ (w0.BP2048.nth 0).length; omega)]
  rfl

theorem New_reaches_check (env : Env) (pw : List Byte) (src : String) (t ut : Int) (w0 : World)
    (h : armOk t w0) (hb : 34 ≤ (w0.BP2048.nth 0).length) (hin : 34 ≤ w0.client.input.length) :
    NewSimpleStreamServer env pw src t ut w0 =
      hsCheck env pw ut (newSession t src) (headerBuf t w0) (headerWorld t w0) := by
  rw [New_of_armOk _ _ _ _ _ _ h]
  unfold hsHeader headerBuf headerWorld
  have h1 : ¬ ((armedWorld t w0).Get PoolId.BP2048).1.data.length < 34 := by
    rw [Get_buf, armedWorld_pool, Pool_nth_zero]
    exact Nat.not_lt.mpr hb
  simp [h1, hin]

theorem New_reaches_finish (env : Env) (pw : List Byte) (src : String) (t ut : Int) (w0 : World)
    (h : armOk t w0) (hb : 34 ≤ (w0.BP2048.nth 0).length) (hin : 34 ≤ w0.client.input.length)
    (hpw : w0.client.input.take 32 = pw) (hl : hsLen w0 ≤ 2048)
    (hlb : hsLen w0 ≤ (w0.BP2048.nth 0).length)
    (hbody : 34 + hsLen w0 ≤ w0.client.input.length) :
    NewSimpleStreamServer env pw src t ut w0 =
      hsFinish env ut (newSession t src) (bodyBuf t w0) (hsLen w0) (bodyWorld t w0) := by
  rw [New_reaches_check _ _ _ _ _ _ h hb hin]
  have hlen := headerBuf_length t w0 hb hin
  have e1 : slice (headerBuf t w0).data 0 32 = w0.client.input.take 32 := by
    unfold headerBuf; rw [Buf_store_data]; exact header_secret _ _ hin
  have e2 : Uint16 (slice (headerBuf t w0).data 32 34) = hsLen w0 := by
    unfold headerBuf; rw [Buf_store_data]; exact header_len _ _ hin
  have e3 : (headerWorld t w0).client.input = w0.client.input.drop 34 := by
    unfold headerWorld; simp
  unfold hsCheck
  simp only [e1, e2, ReadFull_data, ReadFull_ok, e3]
  have h1 : ¬ hsLen w0 > 2048 := by omega
  have h2 : ¬ (headerBuf t w0).data.length < hsLen w0 := by omega
  have h3 : hsLen w0 ≤ (List.drop 34 w0.client.input).length := by
    rw [List.length_drop]; omega
  simp only [hpw, ne_eq, not_true_eq_false, ↓reduceIte, h1, h2, h3, decide_True,
    Bool.true_eq_false]
  rfl

theorem Get_acquired (w : World) (p : PoolId) :
    ((w.Get p).2.pool p).acquired = (w.pool p).acquired + 1 := by
  rw [Get_pool]; simp [Pool.acquired]; ring

theorem Put_acquired (w : World) (p : PoolId) (b : Buf) :
    ((w.Put p b).pool p).acquired = (w.pool p).acquired - 1 := by
  rw [Put_pool]; simp [Pool.acquired]; ring

@[simp] theorem Get_log (w : World) (p : PoolId) :
    (w.Get p).2.log = w.log ++ [Event.get p (BufId.pooled p (w.pool p).gets)] := by
  cases p <;> rfl

@[simp] theorem Put_log (w : World) (p : PoolId) (b : Buf) :
    (w.Put p b).log = w.log ++ [Event.put p b.id] := by
  cases p <;> rfl

@[simp] theorem ReadFull_log (w : World) (c : ConnId) (n : Nat) :
    (w.ReadFull c n).2.log =
      w.log ++ [Event.readFull c n (decide (n ≤ (w.conn c).input.length))] := by
  cases c <;> rfl

@[simp] theorem WaitReadErr_log (w : World) (c : ConnId) :
    (w.WaitReadErr c).log = w.log ++ [Event.waitReadErr c] := by
  cases c <;> rfl

theorem armedWorld_log (t : Int) (w0 : World) (h : armOk t w0) :
    (armedWorld t w0).log =
      w0.log ++ (if t = 0 then [] else [Event.setDeadline ConnId.client t true]) := by
  unfold armedWorld
  by_cases ht : t = 0
  · simp [ht]
  · have h3 : w0.client.deadlineOk.headD true = true := by
      rcases h with h | h
      · exact absurd h ht
      · exact h
    simp only [ne_eq, ht, not_false_eq_true, ↓reduceIte]
    show w0.log ++ [Event.setDeadline ConnId.client t (w0.client.deadlineOk.headD true)] = _
    rw [h3]

/-! ## The client-to-destination loop -/

theorem SetDeadline_ok (w : World) (t : Int) :
    (w.SetDeadline ConnId.client t).1 = w.client.deadlineOk.headD true := rfl

/-- The outcome of lines 126-130. -/
theorem iter_arm (s : SimpleStreamServer) (w : World) :
    (if s.Timeout ≠ 0 then w.SetDeadline ConnId.client s.Timeout else (true, w)).1 = true ↔
      armOk s.Timeout w := by
  unfold armOk
  by_cases ht : s.Timeout = 0
  · simp [ht]
  · simp [ht, SetDeadline_ok]

theorem armedWorld_eq (t : Int) (w : World) :
    (if t ≠ 0 then w.SetDeadline ConnId.client t else (true, w)).2 = armedWorld t w := by
  unfold armedWorld; split <;> rfl

theorem Exchange_iter_of_not_armOk (s : SimpleStreamServer) (w : World)
    (h : ¬ armOk s.Timeout w) :
    Exchange_iter s w = Step.ret none s (armedWorld s.Timeout w) := by
  unfold Exchange_iter
  have h1 := (iter_arm s w).not.mpr h
  simp only [Bool.not_eq_true] at h1
  simp only [h1, ↓reduceIte, armedWorld_eq]

theorem Exchange_iter_udp (s : SimpleStreamServer) (w : World) (hn : s.network = "udp")
    (h : armOk s.Timeout w) :
    Exchange_iter s w = Exchange_udp s (armedWorld s.Timeout w) := by
  unfold Exchange_iter
  have h1 := (iter_arm s w).mpr h
  have h2 : ¬ s.network = "tcp" := by rw [hn]; decide
  simp only [h1, Bool.true_eq_false, ↓reduceIte, h2, armedWorld_eq]
  simp only [hn, ↓reduceIte]

theorem Exchange_tcp_network (s : SimpleStreamServer) (w : World) (s' : SimpleStreamServer)
    (w' : World) (h : Exchange_tcp s w = Step.next s' w') : s'.network = s.network := by
  unfold Exchange_tcp at h
  simp only [] at h
  split at h
  · simp at h
  · split at h
    · simp at h
    · simp only [Step.next.injEq] at h
      rw [← h.1]

theorem Exchange_iter_tcp (s : SimpleStreamServer) (w : World) (hn : s.network = "tcp")
    (h : armOk s.Timeout w) :
    Exchange_iter s w = Exchange_tcp s (armedWorld s.Timeout w) := by
  unfold Exchange_iter
  have h1 := (iter_arm s w).mpr h
  simp only [h1, Bool.true_eq_false, ↓reduceIte, hn, armedWorld_eq]
  cases hr : Exchange_tcp s (armedWorld s.Timeout w) with
  | next s' w' =>
    have h2 : ¬ s'.network = "udp" := by
      rw [Exchange_tcp_network _ _ _ _ hr, hn]; decide
    simp only [h2, ↓reduceIte]
  | ret e s' w' => rfl
  | panic w' => rfl


theorem Exchange_iter_other (s : SimpleStreamServer) (w : World) (h1 : s.network ≠ "tcp")
    (h2 : s.network ≠ "udp") (h : armOk s.Timeout w) :
    Exchange_iter s w = Step.next s (armedWorld s.Timeout w) := by
  unfold Exchange_iter
  have h3 := (iter_arm s w).mpr h
  simp only [h3, Bool.true_eq_false, ↓reduceIte, h1, h2, armedWorld_eq]

theorem Exchange_tcp_no_error (s : SimpleStreamServer) (w : World) :
    (∃ s' w', Exchange_tcp s w = Step.next s' w') ∨
      (∃ s' w', Exchange_tcp s w = Step.ret none s' w') := by
  unfold Exchange_tcp
  simp only []
  split
  · exact Or.inr ⟨_, _, rfl⟩
  · split
    · exact Or.inr ⟨_, _, rfl⟩
    · exact Or.inl ⟨_, _, rfl⟩

theorem length_field (b inp : List Byte) (h : 2 ≤ inp.length) :
    Uint16 (slice (store b 0 (inp.take 2)) 0 2) = Uint16 inp := by
  rw [slice_zero, take_store_zero _ _ _ (by rw [List.length_take]; omega), List.take_take]
  exact Uint16_take _ _ (le_refl 2)

theorem Exchange_udp_oversize (s : SimpleStreamServer) (w : World)
    (h1 : 2 ≤ s.RB.data.length) (h2 : 2 ≤ w.client.input.length)
    (h3 : 65505 < Uint16 w.client.input) :
    ∃ s' w', Exchange_udp s w = Step.ret (some (Error.new "packet too long")) s' w' := by
  unfold Exchange_udp
  have h1' : ¬ s.RB.data.length < 2 := by omega
  simp only [h1', ↓reduceIte, ReadFull_ok, ReadFull_data, h2, decide_True, Bool.true_eq_false,
    Buf_store_data, length_field _ _ h2]
  have h3' : Uint16 w.client.input > 65507 - 2 := by omega
  simp only [h3', ↓reduceIte]
  exact ⟨_, _, rfl⟩

theorem Exchange_udp_error (s : SimpleStreamServer) (w : World) (e : Error)
    (s' : SimpleStreamServer) (w' : World) (h : Exchange_udp s w = Step.ret (some e) s' w') :
    2 ≤ s.RB.data.length ∧ 2 ≤ w.client.input.length ∧ 65505 < Uint16 w.client.input ∧
      e = Error.new "packet too long" := by
  unfold Exchange_udp at h
  simp only [] at h
  split at h
  · simp at h
  · rename_i h1
    split at h
    · simp at h
    · rename_i h2
      simp only [ReadFull_ok, decide_eq_false_iff_not, not_not] at h2
      simp only [ReadFull_data, Buf_store_data, length_field _ _ h2] at h
      split at h
      · rename_i h3
        simp only [Step.ret.injEq, Option.some.injEq] at h
        exact ⟨by omega, h2, by omega, h.1.symm⟩
      · split at h
        · simp at h
        · split at h
          · simp at h
          · split at h
            · simp at h
            · simp at h

theorem Exchange_iter_error (s : SimpleStreamServer) (w : World) (e : Error)
    (s' : SimpleStreamServer) (w' : World) (h : Exchange_iter s w = Step.ret (some e) s' w') :
    s.network = "udp" ∧ oversize s w ∧ e = Error.new "packet too long" := by
  by_cases harm : armOk s.Timeout w
  · by_cases hu : s.network = "udp"
    · rw [Exchange_iter_udp s w hu harm] at h
      have := Exchange_udp_error _ _ _ _ _ h
      rw [armedWorld_input] at this
      exact ⟨hu, ⟨harm, this.1, this.2.1, this.2.2.1⟩, this.2.2.2⟩
    · by_cases ht : s.network = "tcp"
      · rw [Exchange_iter_tcp s w ht harm] at h
        rcases Exchange_tcp_no_error s (armedWorld s.Timeout w) with ⟨a, b, hc⟩ | ⟨a, b, hc⟩
        · rw [hc] at h; simp at h
        · rw [hc] at h; simp at h
      · rw [Exchange_iter_other s w ht hu harm] at h
        simp at h
  · rw [Exchange_iter_of_not_armOk s w harm] at h
    simp at h

theorem Exchange_iter_oversize (s : SimpleStreamServer) (w : World) (hu : s.network = "udp")
    (h : oversize s w) :
    ∃ s' w', Exchange_iter s w = Step.ret (some (Error.new "packet too long")) s' w' := by
  obtain ⟨harm, h1, h2, h3⟩ := h
  rw [Exchange_iter_udp s w hu harm]
  exact Exchange_udp_oversize _ _ h1 (by rw [armedWorld_input]; exact h2)
    (by rw [armedWorld_input]; exact h3)

theorem Read_client_some (w : World) (cap : Nat) (data : List Byte)
    (h : (w.Read ConnId.client cap).1 = some data) :
    w.client.input ≠ [] ∧
    data = w.client.input.take (min (w.client.reads.headD cap) cap) ∧
    (w.Read ConnId.client cap).2.client.input =
      w.client.input.drop (min (w.client.reads.headD cap) cap) ∧
    (w.Read ConnId.client cap).2.client.reads = w.client.reads.tail := by
  unfold World.Read at h ⊢
  simp only [World.conn] at h ⊢
  split at h
  · simp at h
  · rename_i hne
    simp only [Option.some.injEq] at h
    simp only [hne, ↓reduceIte]
    exact ⟨hne, h.symm, rfl, rfl⟩

@[simp] theorem Write_remote_client (w : World) (d : List Byte) :
    (w.Write ConnId.remote d).2.client = w.client := rfl

theorem Exchange_tcp_next (s : SimpleStreamServer) (w : World) (s' : SimpleStreamServer)
    (w' : World) (h : Exchange_tcp s w = Step.next s' w') :
    s'.network = s.network ∧ s'.Timeout = s.Timeout ∧
    s'.RB.data.length = s.RB.data.length ∧
    (0 < s.RB.data.length →
      w'.client.input.length + w'.client.reads.length <
        w.client.input.length + w.client.reads.length) := by
  unfold Exchange_tcp at h
  simp only [] at h
  split at h
  · simp at h
  · rename_i data hr
    obtain ⟨hne, hd, hi, hrd⟩ := Read_client_some _ _ _ hr
    split at h
    · simp at h
    · simp only [Step.next.injEq] at h
      obtain ⟨h1, h2⟩ := h
      have hdl : data.length ≤ s.RB.data.length := by
        rw [hd, List.length_take]; omega
      refine ⟨by rw [← h1], by rw [← h1], ?_, ?_⟩
      · rw [← h1]
        exact store_length _ _ _ (by omega)
      · intro hpos
        rw [← h2, Write_remote_client, hi, hrd, List.length_drop, List.length_tail]
        have hin : 0 < w.client.input.length := List.length_pos.mpr hne
        rcases hrs : w.client.reads with _ | ⟨a, r⟩
        · simp only [List.headD_nil, min_self, List.length_nil]
          omega
        · simp only [List.headD_cons, List.length_cons]
          omega


theorem Exchange_udp_next (s : SimpleStreamServer) (w : World) (s' : SimpleStreamServer)
    (w' : World) (h : Exchange_udp s w = Step.next s' w') : s'.network = s.network := by
  unfold Exchange_udp at h
  simp only [] at h
  repeat' split at h
  all_goals first
    | (simp only [Step.next.injEq] at h; rw [← h.1])
    | simp at h

theorem Exchange_iter_next (s : SimpleStreamServer) (w : World) (s' : SimpleStreamServer)
    (w' : World) (h : Exchange_iter s w = Step.next s' w') : s'.network = s.network := by
  by_cases harm : armOk s.Timeout w
  · by_cases hu : s.network = "udp"
    · rw [Exchange_iter_udp s w hu harm] at h
      exact Exchange_udp_next _ _ _ _ h
    · by_cases ht : s.network = "tcp"
      · rw [Exchange_iter_tcp s w ht harm] at h
        exact (Exchange_tcp_next _ _ _ _ h).1
      · rw [Exchange_iter_other s w ht hu harm] at h
        simp only [Step.next.injEq] at h
        rw [← h.1]
  · rw [Exchange_iter_of_not_armOk s w harm] at h
    simp at h

theorem Exchange_run_network (k : Nat) (s : SimpleStreamServer) (w : World)
    (sk : SimpleStreamServer) (wk : World) (h : Exchange_run k s w = some (sk, wk)) :
    sk.network = s.network := by
  induction k generalizing s w with
  | zero =>
    simp only [Exchange_run, Option.some.injEq, Prod.mk.injEq] at h
    rw [← h.1]
  | succ k ih =>
    unfold Exchange_run at h
    split at h
    · rename_i s1 w1 hit
      rw [ih _ _ h, Exchange_iter_next _ _ _ _ hit]
    · simp at h

theorem Exchange_loop_some (fuel : Nat) (s : SimpleStreamServer) (w : World) (r : Step)
    (h : Exchange_loop fuel s w = some r) :
    ∃ k sk wk, k < fuel ∧ Exchange_run k s w = some (sk, wk) ∧ Exchange_iter sk wk = r ∧
      ∀ a b, r ≠ Step.next a b := by
  induction fuel generalizing s w with
  | zero => simp [Exchange_loop] at h
  | succ fuel ih =>
    unfold Exchange_loop at h
    split at h
    · rename_i s1 w1 hit
      obtain ⟨k, sk, wk, hk, hrun, hr, hne⟩ := ih _ _ h
      refine ⟨k + 1, sk, wk, by omega, ?_, hr, hne⟩
      unfold Exchange_run
      rw [hit]
      exact hrun
    · rename_i hne
      simp only [Option.some.injEq] at h
      subst h
      exact ⟨0, s, w, by omega, rfl, rfl, fun a b hc => hne a b hc⟩

theorem Exchange_loop_of_run (k : Nat) (s : SimpleStreamServer) (w : World)
    (sk : SimpleStreamServer) (wk : World) (r : Step)
    (hrun : Exchange_run k s w = some (sk, wk)) (hit : Exchange_iter sk wk = r)
    (hne : ∀ a b, r ≠ Step.next a b) : Exchange_loop (k + 1) s w = some r := by
  induction k generalizing s w with
  | zero =>
    simp only [Exchange_run, Option.some.injEq, Prod.mk.injEq] at hrun
    obtain ⟨h1, h2⟩ := hrun
    subst h1; subst h2
    unfold Exchange_loop
    split
    · rename_i a b hc
      exact absurd (hit ▸ hc) (fun hx => hne a b hx)
    · rw [hit]
  | succ k ih =>
    unfold Exchange_run at hrun
    split at hrun
    · rename_i s1 w1 hs
      unfold Exchange_loop
      rw [hs]
      exact ih _ _ hrun
    · simp at hrun


@[simp] theorem armedWorld_reads (t : Int) (w0 : World) :
    (armedWorld t w0).client.reads = w0.client.reads := by
  unfold armedWorld; split <;> rfl

theorem Exchange_iter_tcp_cases (s : SimpleStreamServer) (w : World) (ht : s.network = "tcp") :
    (∃ s' w', Exchange_iter s w = Step.next s' w' ∧ s'.network = "tcp" ∧
      s'.RB.data.length = s.RB.data.length ∧
      (0 < s.RB.data.length →
        w'.client.input.length + w'.client.reads.length <
          w.client.input.length + w.client.reads.length)) ∨
    (∃ s' w', Exchange_iter s w = Step.ret none s' w') := by
  by_cases harm : armOk s.Timeout w
  · rw [Exchange_iter_tcp s w ht harm]
    rcases Exchange_tcp_no_error s (armedWorld s.Timeout w) with ⟨a, b, hc⟩ | ⟨a, b, hc⟩
    · have hn := Exchange_tcp_next _ _ _ _ hc
      rw [armedWorld_input, armedWorld_reads] at hn
      exact Or.inl ⟨a, b, hc, by rw [hn.1, ht], hn.2.2.1, hn.2.2.2⟩
    · exact Or.inr ⟨a, b, hc⟩
  · rw [Exchange_iter_of_not_armOk s w harm]
    exact Or.inr ⟨_, _, rfl⟩

theorem Exchange_loop_tcp_returns (n : Nat) (s : SimpleStreamServer) (w : World)
    (ht : s.network = "tcp") (hrb : 0 < s.RB.data.length)
    (hm : w.client.input.length + w.client.reads.length < n) :
    ∃ s' w', Exchange_loop n s w = some (Step.ret none s' w') := by
  induction n generalizing s w with
  | zero => omega
  | succ n ih =>
    unfold Exchange_loop
    rcases Exchange_iter_tcp_cases s w ht with ⟨a, b, hc, hn, hl, hd⟩ | ⟨a, b, hc⟩
    · rw [hc]
      exact ih a b hn (by omega) (by have := hd hrb; omega)
    · rw [hc]
      exact ⟨a, b, rfl⟩

theorem slice_store (b d : List Byte) (off : Nat) (h : off + d.length ≤ b.length) :
    slice (store b off d) off (off + d.length) = d := by
  unfold slice store
  have h1 : (b.take off).length = off := by rw [List.length_take]; omega
  rw [List.append_assoc, List.take_append_eq_append_take, List.take_of_length_le (by omega),
    h1, List.drop_append_eq_append_drop, List.drop_of_length_le (by omega), h1]
  simp

@[simp] theorem Write_log (w : World) (c : ConnId) (d : List Byte) :
    (w.Write c d).2.log = w.log ++ [Event.write c d ((w.conn c).writeOk.headD true)] := by
  cases c <;> rfl

@[simp] theorem armedWorld_remote (t : Int) (w0 : World) :
    (armedWorld t w0).remote = w0.remote := by
  unfold armedWorld; split <;> rfl

@[simp] theorem ReadFull_client_remote (w : World) (n : Nat) :
    (w.ReadFull ConnId.client n).2.remote = w.remote := rfl

/-! ## The destination-to-client loop -/

theorem Uint16_PutUint16 (l : Nat) (h : l < 65536) : Uint16 (PutUint16 l) = l := by
  simp only [Uint16, PutUint16, Fin.ofNat]
  omega

theorem PutUint16_length (l : Nat) : (PutUint16 l).length = 2 := rfl

theorem framed (b d p : List Byte) (hp : p.length = 2) (h : 2 + d.length ≤ b.length) :
    slice (store (store b 2 d) 0 p) 0 (2 + d.length) = p ++ d := by
  have h1 : (store b 2 d).length = b.length := store_length _ _ _ h
  have h2 : (b.take 2).length = 2 := by rw [List.length_take]; omega
  rw [slice_zero, store_zero, hp]
  unfold store
  rw [List.append_assoc, List.drop_append_eq_append_drop, List.drop_of_length_le (by omega), h2,
    List.take_append_eq_append_take, List.take_of_length_le (by omega), hp]
  simp

theorem Read_remote_some (w : World) (cap : Nat) (data : List Byte)
    (h : (w.Read ConnId.remote cap).1 = some data) :
    data.length ≤ cap ∧
    (w.Read ConnId.remote cap).2.log =
      w.log ++ [Event.read ConnId.remote cap (some data.length)] ∧
    (w.Read ConnId.remote cap).2.client = w.client := by
  unfold World.Read at h ⊢
  simp only [World.conn] at h ⊢
  split at h
  · simp at h
  · rename_i hne
    simp only [Option.some.injEq] at h
    simp only [hne, ↓reduceIte]
    subst h
    refine ⟨?_, rfl, rfl⟩
    rw [List.length_take]
    omega

/-- The world after lines 95-99 of the destination-to-client loop. -/
theorem go_arm (t : Int) (w : World)
    (harm : t = 0 ∨ w.remote.deadlineOk.headD true = true) :
    (if t ≠ 0 then w.SetDeadline ConnId.remote t else (true, w)).1 = true ∧
    (if t ≠ 0 then w.SetDeadline ConnId.remote t else (true, w)).2.log =
      w.log ++ (if t = 0 then [] else [Event.setDeadline ConnId.remote t true]) ∧
    (if t ≠ 0 then w.SetDeadline ConnId.remote t else (true, w)).2.remote.input =
      w.remote.input ∧
    (if t ≠ 0 then w.SetDeadline ConnId.remote t else (true, w)).2.remote.reads =
      w.remote.reads ∧
    (if t ≠ 0 then w.SetDeadline ConnId.remote t else (true, w)).2.client = w.client := by
  by_cases ht : t = 0
  · simp [ht]
  · have h3 : w.remote.deadlineOk.headD true = true := by
      rcases harm with h | h
      · exact absurd h ht
      · exact h
    simp only [ne_eq, ht, not_false_eq_true, ↓reduceIte]
    refine ⟨h3, ?_, rfl, rfl, rfl⟩
    show w.log ++ [Event.setDeadline ConnId.remote t (w.remote.deadlineOk.headD true)] = _
    rw [h3]

theorem Read_congr (w w' : World) (cap : Nat) (h1 : w'.remote.input = w.remote.input)
    (h2 : w'.remote.reads = w.remote.reads) :
    (w'.Read ConnId.remote cap).1 = (w.Read ConnId.remote cap).1 := by
  unfold World.Read
  simp only [World.conn, h1, h2]
  split <;> rfl

/-! ## Every way the handshake ends -/

theorem hsHeader_eq (env : Env) (pw : List Byte) (src : String) (t ut : Int) (w0 : World)
    (hb : 34 ≤ (w0.BP2048.nth 0).length) :
    hsHeader env pw ut (newSession t src) (armedWorld t w0) =
      if w0.client.input.length < 34 then
        (Outcome.err Error.conn, (headerWorld t w0).Put PoolId.BP2048 (headerBuf t w0))
      else hsCheck env pw ut (newSession t src) (headerBuf t w0) (headerWorld t w0) := by
  unfold hsHeader headerBuf headerWorld
  have h1 : ¬ ((armedWorld t w0).Get PoolId.BP2048).1.data.length < 34 := by
    rw [Get_buf, armedWorld_pool, Pool_nth_zero]
    exact Nat.not_lt.mpr hb
  by_cases hin : 34 ≤ w0.client.input.length
  · have hin' : ¬ w0.client.input.length < 34 := by omega
    simp [h1, hin, hin']
  · have hin' : w0.client.input.length < 34 := by omega
    simp [h1, hin, hin']

theorem New_short_header (env : Env) (pw : List Byte) (src : String) (t ut : Int) (w0 : World)
    (h : armOk t w0) (hb : 34 ≤ (w0.BP2048.nth 0).length) (hin : w0.client.input.length < 34) :
    NewSimpleStreamServer env pw src t ut w0 =
      (Outcome.err Error.conn, (headerWorld t w0).Put PoolId.BP2048 (headerBuf t w0)) := by
  rw [New_of_armOk _ _ _ _ _ _ h, hsHeader_eq _ _ _ _ _ _ hb, if_pos hin]

theorem header_facts (t : Int) (w0 : World) (hin : 34 ≤ w0.client.input.length) :
    slice (headerBuf t w0).data 0 32 = w0.client.input.take 32 ∧
    Uint16 (slice (headerBuf t w0).data 32 34) = hsLen w0 ∧
    (headerWorld t w0).client.input = w0.client.input.drop 34 := by
  refine ⟨?_, ?_, ?_⟩
  · unfold headerBuf; rw [Buf_store_data]; exact header_secret _ _ hin
  · unfold headerBuf; rw [Buf_store_data]; exact header_len _ _ hin
  · unfold headerWorld; simp

theorem New_mismatch (env : Env) (pw : List Byte) (src : String) (t ut : Int) (w0 : World)
    (h : armOk t w0) (hb : 34 ≤ (w0.BP2048.nth 0).length) (hin : 34 ≤ w0.client.input.length)
    (hne : w0.client.input.take 32 ≠ pw) :
    NewSimpleStreamServer env pw src t ut w0 =
      (Outcome.err (Error.new "Password is wrong"),
        (headerWorld t w0).reject (headerBuf t w0)) := by
  rw [New_reaches_check _ _ _ _ _ _ h hb hin]
  have hne2 : pw ≠ slice (headerBuf t w0).data 0 32 := by
    rw [(header_facts t w0 hin).1]; exact fun h => hne h.symm
  unfold hsCheck World.reject
  simp only [hne2, ne_eq, not_false_eq_true, ↓reduceIte]

theorem New_too_long (env : Env) (pw : List Byte) (src : String) (t ut : Int) (w0 : World)
    (h : armOk t w0) (hb : 34 ≤ (w0.BP2048.nth 0).length) (hin : 34 ≤ w0.client.input.length)
    (hpw : w0.client.input.take 32 = pw) (hl : 2048 < hsLen w0) :
    NewSimpleStreamServer env pw src t ut w0 =
      (Outcome.err (Error.new "data too long"),
        (headerWorld t w0).Put PoolId.BP2048 (headerBuf t w0)) := by
  rw [New_reaches_check _ _ _ _ _ _ h hb hin]
  obtain ⟨e1, e2, _⟩ := header_facts t w0 hin
  unfold hsCheck
  simp only [e1, e2, hpw, ne_eq, not_true_eq_false, ↓reduceIte, gt_iff_lt, hl]

theorem New_short_body (env : Env) (pw : List Byte) (src : String) (t ut : Int) (w0 : World)
    (h : armOk t w0) (hb : 34 ≤ (w0.BP2048.nth 0).length) (hin : 34 ≤ w0.client.input.length)
    (hpw : w0.client.input.take 32 = pw) (hl : hsLen w0 ≤ 2048)
    (hlb : hsLen w0 ≤ (w0.BP2048.nth 0).length)
    (hbody : w0.client.input.length < 34 + hsLen w0) :
    NewSimpleStreamServer env pw src t ut w0 =
      (Outcome.err Error.conn, (bodyWorld t w0).Put PoolId.BP2048 (bodyBuf t w0)) := by
  rw [New_reaches_check _ _ _ _ _ _ h hb hin]
  have hlen := headerBuf_length t w0 hb hin
  obtain ⟨e1, e2, e3⟩ := header_facts t w0 hin
  unfold hsCheck
  simp only [e1, e2, ReadFull_data, ReadFull_ok, e3]
  have h1 : ¬ hsLen w0 > 2048 := by omega
  have h2 : ¬ (headerBuf t w0).data.length < hsLen w0 := by omega
  have h3 : ¬ hsLen w0 ≤ (List.drop 34 w0.client.input).length := by
    rw [List.length_drop]; omega
  simp only [hpw, ne_eq, not_true_eq_false, ↓reduceIte, h1, h2, h3, decide_False]
  rfl

theorem hsFinish_expired (env : Env) (ut : Int) (s : SimpleStreamServer) (b : Buf) (l : Nat)
    (w : World) (h : env.now - (Uint32 (slice b.data 0 4) : Int) > 60) :
    hsFinish env ut s b l w = (Outcome.err (Error.new "Expired request"), w.reject b) := by
  unfold hsFinish World.reject
  simp only [h, ↓reduceIte]

theorem hsFinish_fresh_even (env : Env) (ut : Int) (s : SimpleStreamServer) (b : Buf) (l : Nat)
    (w : World) (hf : ¬ env.now - (Uint32 (slice b.data 0 4) : Int) > 60)
    (hp : Uint32 (slice b.data 0 4) % 2 = 0) (h4 : 4 < b.data.length)
    (hl2 : l ≤ b.data.length) :
    (l < 7 → hsFinish env ut s b l w = (Outcome.panic, (w.Get PoolId.BP2048).2)) ∧
    (7 ≤ l → ∃ s', hsFinish env ut s b l w =
      (if env.gateErr then Outcome.err Error.gate else Outcome.ok s',
        (w.Get PoolId.BP2048).2)) := by
  unfold hsFinish
  simp only [hf, ↓reduceIte, assignBuffers_even _ _ _ _ _ _ hp]
  refine ⟨?_, ?_⟩
  · intro h7
    have hc : b.data.length ≤ 4 ∨ l < 7 ∨ b.data.length < l - 2 := Or.inr (Or.inl h7)
    simp only [hc, ↓reduceIte]
  · intro h7
    have hc : ¬ (b.data.length ≤ 4 ∨ l < 7 ∨ b.data.length < l - 2) := by omega
    simp only [hc, ↓reduceIte]
    unfold ServerGate
    by_cases hg : env.gateErr = true
    · simp only [hg, ↓reduceIte]
      exact ⟨s, trivial⟩
    · simp only [hg, ↓reduceIte]
      exact ⟨_, rfl⟩

theorem hsFinish_fresh_odd (env : Env) (ut : Int) (s : SimpleStreamServer) (b : Buf) (l : Nat)
    (w : World) (hf : ¬ env.now - (Uint32 (slice b.data 0 4) : Int) > 60)
    (hp : Uint32 (slice b.data 0 4) % 2 = 1)
    (h4 : 4 < (w.Get PoolId.BP65507).1.data.length)
    (hl2 : l ≤ (w.Get PoolId.BP65507).1.data.length) (hlb : l ≤ b.data.length) :
    (l < 7 → hsFinish env ut s b l w = (Outcome.panic,
      (((w.Get PoolId.BP65507).2.Put PoolId.BP2048 b).Get PoolId.BP65507).2)) ∧
    (7 ≤ l → ∃ s', hsFinish env ut s b l w =
      (if env.gateErr then Outcome.err Error.gate else Outcome.ok s',
        (((w.Get PoolId.BP65507).2.Put PoolId.BP2048 b).Get PoolId.BP65507).2)) := by
  unfold hsFinish
  have hbig : ¬ (w.Get PoolId.BP65507).1.data.length < l := by omega
  have hsl : (slice b.data 0 l).length = l := by
    rw [slice_zero, List.length_take]; omega
  have hrl : (store (w.Get PoolId.BP65507).1.data 0 (slice b.data 0 l)).length =
      (w.Get PoolId.BP65507).1.data.length := store_length _ _ _ (by omega)
  simp only [hf, ↓reduceIte, assignBuffers_odd _ _ _ _ _ _ hp, hbig, Buf_store_data, hrl]
  refine ⟨?_, ?_⟩
  · intro h7
    have hc : (w.Get PoolId.BP65507).1.data.length ≤ 4 ∨ l < 7 ∨
        (w.Get PoolId.BP65507).1.data.length < l - 2 := Or.inr (Or.inl h7)
    simp only [hc, ↓reduceIte]
  · intro h7
    have hc : ¬ ((w.Get PoolId.BP65507).1.data.length ≤ 4 ∨ l < 7 ∨
        (w.Get PoolId.BP65507).1.data.length < l - 2) := by omega
    simp only [hc, ↓reduceIte]
    unfold ServerGate
    by_cases hg : env.gateErr = true
    · simp only [hg, ↓reduceIte]
      exact ⟨s, trivial⟩
    · simp only [hg, ↓reduceIte]
      exact ⟨_, rfl⟩

theorem bodyBuf_length (t : Int) (w0 : World) (hb : 34 ≤ (w0.BP2048.nth 0).length)
    (hin : 34 ≤ w0.client.input.length) (hlb : hsLen w0 ≤ (w0.BP2048.nth 0).length) :
    (bodyBuf t w0).data.length = (w0.BP2048.nth 0).length := by
  have hlen := headerBuf_length t w0 hb hin
  unfold bodyBuf
  rw [Buf_store_data, store_length _ _ _ (by
    unfold hsBody; rw [List.length_take]; omega), hlen]

theorem bodyWorld_large (t : Int) (w0 : World) :
    (bodyWorld t w0).pool PoolId.BP65507 = w0.pool PoolId.BP65507 := by
  unfold bodyWorld headerWorld
  simp [Get_pool]

theorem bodyWorld_small (t : Int) (w0 : World) :
    (bodyWorld t w0).pool PoolId.BP2048 =
      { w0.BP2048 with idle := w0.BP2048.idle.tail, gets := w0.BP2048.gets + 1 } := by
  unfold bodyWorld headerWorld
  simp [Get_pool]
  exact ⟨rfl, rfl, rfl, rfl⟩

theorem New_expired (env : Env) (pw : List Byte) (src : String) (t ut : Int) (w0 : World)
    (h : armOk t w0) (hb : 34 ≤ (w0.BP2048.nth 0).length) (hin : 34 ≤ w0.client.input.length)
    (hpw : w0.client.input.take 32 = pw) (hl : hsLen w0 ≤ 2048)
    (hlb : hsLen w0 ≤ (w0.BP2048.nth 0).length)
    (hbody : 34 + hsLen w0 ≤ w0.client.input.length)
    (hold : env.now - (hsStamp t w0 : Int) > 60) :
    NewSimpleStreamServer env pw src t ut w0 =
      (Outcome.err (Error.new "Expired request"), (bodyWorld t w0).reject (bodyBuf t w0)) := by
  rw [New_reaches_finish _ _ _ _ _ _ h hb hin hpw hl hlb hbody]
  exact hsFinish_expired _ _ _ _ _ _ hold

theorem New_fresh (env : Env) (pw : List Byte) (src : String) (t ut : Int) (w0 : World)
    (h : armOk t w0) (hsmall : (w0.BP2048.nth 0).length = 2048)
    (hlarge : (w0.BP65507.nth 0).length = 65507) (hin : 34 ≤ w0.client.input.length)
    (hpw : w0.client.input.take 32 = pw) (hl : hsLen w0 ≤ 2048)
    (hbody : 34 + hsLen w0 ≤ w0.client.input.length)
    (hf : ¬ env.now - (hsStamp t w0 : Int) > 60) :
    (hsLen w0 < 7 →
      NewSimpleStreamServer env pw src t ut w0 = (Outcome.panic, grantedWorld t w0)) ∧
    (7 ≤ hsLen w0 → ∃ s, NewSimpleStreamServer env pw src t ut w0 =
      (if env.gateErr then Outcome.err Error.gate else Outcome.ok s, grantedWorld t w0)) := by
  rw [New_reaches_finish _ _ _ _ _ _ h (by omega) hin hpw hl (by omega) hbody]
  have hbl := bodyBuf_length t w0 (by omega) hin (by omega)
  unfold grantedWorld
  rcases Nat.mod_two_eq_zero_or_one (hsStamp t w0) with hp | hp
  · simp only [hp, ↓reduceIte]
    exact hsFinish_fresh_even env ut _ _ _ _ hf hp (by omega) (by omega)
  · have hne : ¬ hsStamp t w0 % 2 = 0 := by omega
    simp only [hne, ↓reduceIte]
    have hg : ((bodyWorld t w0).Get PoolId.BP65507).1.data.length = 65507 := by
      rw [Get_buf, bodyWorld_large, Pool_nth_zero]; exact hlarge
    exact hsFinish_fresh_odd env ut _ _ _ _ hf hp (by omega) (by omega) (by omega)

/-- Every way in which `NewSimpleStreamServer` ends, with the world it leaves, for
pools that hand out buffers of their nominal length. -/
theorem New_cases (env : Env) (pw : List Byte) (src : String) (t ut : Int) (w0 : World)
    (hsmall : (w0.BP2048.nth 0).length = 2048) (hlarge : (w0.BP65507.nth 0).length = 65507) :
    (¬ armOk t w0 ∧ NewSimpleStreamServer env pw src t ut w0 =
      (Outcome.err Error.conn, armedWorld t w0)) ∨
    (armOk t w0 ∧ w0.client.input.length < 34 ∧ NewSimpleStreamServer env pw src t ut w0 =
      (Outcome.err Error.conn, (headerWorld t w0).Put PoolId.BP2048 (headerBuf t w0))) ∨
    (armOk t w0 ∧ 34 ≤ w0.client.input.length ∧ w0.client.input.take 32 ≠ pw ∧
      NewSimpleStreamServer env pw src t ut w0 =
        (Outcome.err (Error.new "Password is wrong"),
          (headerWorld t w0).reject (headerBuf t w0))) ∨
    (armOk t w0 ∧ 34 ≤ w0.client.input.length ∧ w0.client.input.take 32 = pw ∧
      2048 < hsLen w0 ∧ NewSimpleStreamServer env pw src t ut w0 =
        (Outcome.err (Error.new "data too long"),
          (headerWorld t w0).Put PoolId.BP2048 (headerBuf t w0))) ∨
    (armOk t w0 ∧ 34 ≤ w0.client.input.length ∧ w0.client.input.take 32 = pw ∧
      hsLen w0 ≤ 2048 ∧ w0.client.input.length < 34 + hsLen w0 ∧
      NewSimpleStreamServer env pw src t ut w0 =
        (Outcome.err Error.conn, (bodyWorld t w0).Put PoolId.BP2048 (bodyBuf t w0))) ∨
    (hsValid pw t w0 ∧ env.now - (hsStamp t w0 : Int) > 60 ∧
      NewSimpleStreamServer env pw src t ut w0 =
        (Outcome.err (Error.new "Expired request"),
          (bodyWorld t w0).reject (bodyBuf t w0))) ∨
    (hsValid pw t w0 ∧ ¬ env.now - (hsStamp t w0 : Int) > 60 ∧ hsLen w0 < 7 ∧
      NewSimpleStreamServer env pw src t ut w0 = (Outcome.panic, grantedWorld t w0)) ∨
    (hsValid pw t w0 ∧ ¬ env.now - (hsStamp t w0 : Int) > 60 ∧ 7 ≤ hsLen w0 ∧
      ∃ s, NewSimpleStreamServer env pw src t ut w0 =
        (if env.gateErr then Outcome.err Error.gate else Outcome.ok s, grantedWorld t w0)) := by
  by_cases harm : armOk t w0
  swap
  · exact Or.inl ⟨harm, New_of_not_armOk _ _ _ _ _ _ harm⟩
  by_cases hin : 34 ≤ w0.client.input.length
  swap
  · exact Or.inr (Or.inl ⟨harm, by omega,
      New_short_header _ _ _ _ _ _ harm (by omega) (by omega)⟩)
  by_cases hpw : w0.client.input.take 32 = pw
  swap
  · exact Or.inr (Or.inr (Or.inl ⟨harm, hin, hpw,
      New_mismatch _ _ _ _ _ _ harm (by omega) hin hpw⟩))
  by_cases hl : hsLen w0 ≤ 2048
  swap
  · exact Or.inr (Or.inr (Or.inr (Or.inl ⟨harm, hin, hpw, by omega,
      New_too_long _ _ _ _ _ _ harm (by omega) hin hpw (by omega)⟩)))
  by_cases hbody : 34 + hsLen w0 ≤ w0.client.input.length
  swap
  · exact Or.inr (Or.inr (Or.inr (Or.inr (Or.inl ⟨harm, hin, hpw, hl, by omega,
      New_short_body _ _ _ _ _ _ harm (by omega) hin hpw hl (by omega) (by omega)⟩))))
  have hv : hsValid pw t w0 := ⟨harm, hin, hpw, hl, hbody⟩
  by_cases hold : env.now - (hsStamp t w0 : Int) > 60
  · exact Or.inr (Or.inr (Or.inr (Or.inr (Or.inr (Or.inl ⟨hv, hold,
      New_expired _ _ _ _ _ _ harm (by omega) hin hpw hl (by omega) hbody hold⟩)))))
  have hf := New_fresh env pw src t ut w0 harm hsmall hlarge hin hpw hl hbody hold
  by_cases h7 : hsLen w0 < 7
  · exact Or.inr (Or.inr (Or.inr (Or.inr (Or.inr (Or.inr (Or.inl ⟨hv, hold, h7,
      hf.1 h7⟩))))))
  · exact Or.inr (Or.inr (Or.inr (Or.inr (Or.inr (Or.inr (Or.inr ⟨hv, hold, by omega,
      hf.2 (by omega)⟩))))))

/-! ## The events of the handshake -/

theorem armedWorld_log_eq (t : Int) (w0 : World) :
    (armedWorld t w0).log = w0.log ++ armEvents t w0 := by
  unfold armedWorld armEvents
  by_cases ht : t = 0
  · simp [ht]
  · simp only [ne_eq, ht, not_false_eq_true, ↓reduceIte]
    rfl

theorem headerWorld_log (t : Int) (w0 : World) :
    (headerWorld t w0).log = w0.log ++ armEvents t w0 ++
      [Event.get PoolId.BP2048 (BufId.pooled PoolId.BP2048 w0.BP2048.gets),
       Event.readFull ConnId.client 34 (decide (34 ≤ w0.client.input.length))] := by
  unfold headerWorld
  simp [armedWorld_log_eq, World.conn]
  rfl

theorem bodyWorld_log (t : Int) (w0 : World) :
    (bodyWorld t w0).log = (headerWorld t w0).log ++
      [Event.readFull ConnId.client (hsLen w0)
        (decide (hsLen w0 ≤ (w0.client.input.drop 34).length))] := by
  unfold bodyWorld
  simp [World.conn]
  unfold headerWorld
  simp

theorem headerBuf_id (t : Int) (w0 : World) :
    (headerBuf t w0).id = BufId.pooled PoolId.BP2048 w0.BP2048.gets := by
  unfold headerBuf
  simp [Get_buf]
  rfl

theorem bodyBuf_id (t : Int) (w0 : World) :
    (bodyBuf t w0).id = BufId.pooled PoolId.BP2048 w0.BP2048.gets := by
  unfold bodyBuf
  rw [Buf_store_id, headerBuf_id]

theorem grantedWorld_log (t : Int) (w0 : World) :
    (grantedWorld t w0).log = (bodyWorld t w0).log ++
      (if hsStamp t w0 % 2 = 0 then
        [Event.get PoolId.BP2048 (BufId.pooled PoolId.BP2048 (w0.BP2048.gets + 1))]
      else
        [Event.get PoolId.BP65507 (BufId.pooled PoolId.BP65507 w0.BP65507.gets),
         Event.put PoolId.BP2048 (BufId.pooled PoolId.BP2048 w0.BP2048.gets),
         Event.get PoolId.BP65507 (BufId.pooled PoolId.BP65507 (w0.BP65507.gets + 1))]) := by
  unfold grantedWorld
  split
  · simp [bodyWorld_small]
  · simp [bodyWorld_large, Get_pool, Put_pool, bodyBuf_id]
    rfl

theorem reject_log (w : World) (b : Buf) :
    (w.reject b).log = w.log ++
      [Event.put PoolId.BP2048 b.id, Event.waitReadErr ConnId.client] := by
  unfold World.reject
  simp

/-! ## The pools during the handshake -/

theorem Put_small_counts (w : World) (b : Buf) :
    (w.Put PoolId.BP2048 b).BP2048.acquired = w.BP2048.acquired - 1 ∧
    (w.Put PoolId.BP2048 b).BP65507 = w.BP65507 :=
  ⟨Put_acquired w PoolId.BP2048 b, rfl⟩

theorem reject_counts (w : World) (b : Buf) :
    (w.reject b).BP2048.acquired = w.BP2048.acquired - 1 ∧ (w.reject b).BP65507 = w.BP65507 :=
  ⟨Put_acquired w PoolId.BP2048 b, rfl⟩

theorem armedWorld_counts (t : Int) (w0 : World) :
    (armedWorld t w0).BP2048 = w0.BP2048 ∧ (armedWorld t w0).BP65507 = w0.BP65507 :=
  ⟨armedWorld_pool t w0 PoolId.BP2048, armedWorld_pool t w0 PoolId.BP65507⟩

theorem headerWorld_counts (t : Int) (w0 : World) :
    (headerWorld t w0).BP2048.acquired = w0.BP2048.acquired + 1 ∧
    (headerWorld t w0).BP65507 = w0.BP65507 := by
  refine ⟨?_, ?_⟩
  · show ((headerWorld t w0).pool PoolId.BP2048).acquired = _
    unfold headerWorld
    rw [ReadFull_pool, Get_acquired, armedWorld_pool]
    rfl
  · show (headerWorld t w0).pool PoolId.BP65507 = _
    unfold headerWorld
    simp [Get_pool]
    rfl

theorem bodyWorld_counts (t : Int) (w0 : World) :
    (bodyWorld t w0).BP2048.acquired = w0.BP2048.acquired + 1 ∧
    (bodyWorld t w0).BP65507 = w0.BP65507 := by
  have h := headerWorld_counts t w0
  exact ⟨h.1, h.2⟩

theorem grantedWorld_counts (t : Int) (w0 : World) :
    (grantedWorld t w0).BP2048.acquired =
      w0.BP2048.acquired + (if hsStamp t w0 % 2 = 0 then 2 else 0) ∧
    (grantedWorld t w0).BP65507.acquired =
      w0.BP65507.acquired + (if hsStamp t w0 % 2 = 0 then 0 else 2) := by
  have hb := bodyWorld_counts t w0
  unfold grantedWorld
  split
  · refine ⟨?_, ?_⟩
    · show (((bodyWorld t w0).Get PoolId.BP2048).2.pool PoolId.BP2048).acquired = _
      rw [Get_acquired]
      show (bodyWorld t w0).BP2048.acquired + 1 = _
      rw [hb.1]; ring
    · show (((bodyWorld t w0).Get PoolId.BP2048).2.pool PoolId.BP65507).acquired = _
      rw [Get_pool]
      simp only [reduceCtorEq, ↓reduceIte]
      show (bodyWorld t w0).BP65507.acquired = _
      rw [hb.2]; ring
  · refine ⟨?_, ?_⟩
    · show ((((bodyWorld t w0).Get PoolId.BP65507).2.Put PoolId.BP2048 (bodyBuf t w0)).Get
        PoolId.BP65507).2.BP2048.acquired = _
      show (((bodyWorld t w0).Get PoolId.BP65507).2.Put PoolId.BP2048
        (bodyBuf t w0)).BP2048.acquired = _
      rw [(Put_small_counts _ _).1]
      show (bodyWorld t w0).BP2048.acquired - 1 = _
      rw [hb.1]; ring
    · show (((((bodyWorld t w0).Get PoolId.BP65507).2.Put PoolId.BP2048 (bodyBuf t w0)).Get
        PoolId.BP65507).2.pool PoolId.BP65507).acquired = _
      rw [Get_acquired]
      show (((bodyWorld t w0).Get PoolId.BP65507).2.pool PoolId.BP65507).acquired + 1 = _
      rw [Get_acquired]
      show (bodyWorld t w0).BP65507.acquired + 1 + 1 = _
      rw [hb.2]; ring

/-- The world in which a successful handshake ends. -/
theorem NewSimpleStreamServer_ok_world {env : Env} {pw : List Byte} {src : String} {t ut : Int}
    {w0 : World} {s : SimpleStreamServer} {w : World}
    (h : NewSimpleStreamServer env pw src t ut w0 = (Outcome.ok s, w)) :
    hsValid pw t w0 ∧ w = grantedWorld t w0 ∧ ¬ env.now - (hsStamp t w0 : Int) > 60 ∧
      7 ≤ hsLen w0 ∧ (hsStamp t w0 = hsTimestamp w0) := by
  have a := NewSimpleStreamServer_ok h
  have harm : armOk t w0 := a.armed
  have hin := a.header
  have hbody : 34 + hsLen w0 ≤ w0.client.input.length := by
    have hb := a.body
    unfold hsBody at hb
    rw [List.length_take, List.length_drop] at hb
    omega
  have hv : hsValid pw t w0 := ⟨harm, hin, a.secret.symm, a.len_le, hbody⟩
  have h0 := h
  rw [New_of_armOk _ _ _ _ _ _ harm] at h0
  obtain ⟨hb0, _, h1⟩ := hsHeader_ok h0
  rw [Get_buf, armedWorld_pool, Pool_nth_zero] at hb0
  have hb0' : 34 ≤ (w0.BP2048.nth 0).length := hb0
  obtain ⟨_, _, hlb, _, _⟩ := hsCheck_ok h1
  have hlen := headerBuf_length t w0 hb0' hin
  have e2 : Uint16 (slice (headerBuf t w0).data 32 34) = hsLen w0 := (header_facts t w0 hin).2.1
  have hlb' : hsLen w0 ≤ (w0.BP2048.nth 0).length := by
    have : Uint16 (slice (headerBuf t w0).data 32 34) ≤ (headerBuf t w0).data.length := by
      unfold headerBuf
      simpa using hlb
    omega
  rw [New_reaches_finish _ _ _ _ _ _ harm hb0' hin a.secret.symm a.len_le hlb' hbody] at h
  obtain ⟨hfresh, hl7, _, s1, hab, _⟩ := hsFinish_ok h
  have hst : hsStamp t w0 = hsTimestamp w0 := by
    unfold hsStamp bodyBuf
    rw [Buf_store_data]
    exact body_timestamp _ _ (by have := a.body; omega)
  refine ⟨hv, ?_, by unfold hsStamp; omega, hl7, hst⟩
  unfold grantedWorld
  rcases Nat.mod_two_eq_zero_or_one (hsStamp t w0) with hp | hp
  · have hp' : Uint32 (slice (bodyBuf t w0).data 0 4) % 2 = 0 := hp
    rw [assignBuffers_even _ _ _ _ _ _ hp'] at hab
    simp only [Option.some.injEq, Prod.mk.injEq] at hab
    simp only [hp, ↓reduceIte]
    exact hab.2.symm
  · have hp' : Uint32 (slice (bodyBuf t w0).data 0 4) % 2 = 1 := hp
    rw [assignBuffers_odd _ _ _ _ _ _ hp'] at hab
    have hne : ¬ hsStamp t w0 % 2 = 0 := by omega
    simp only [hne, ↓reduceIte]
    split at hab
    · simp at hab
    · simp only [Option.some.injEq, Prod.mk.injEq] at hab
      exact hab.2.symm

theorem gate_outcome_ne (g : Bool) (s : SimpleStreamServer) (msg : String) :
    (if g = true then Outcome.err Error.gate else Outcome.ok s) ≠ Outcome.err (Error.new msg) := by
  cases g <;> simp

theorem stamp_eq_timestamp (t : Int) (w0 : World) (h4 : 4 ≤ hsLen w0)
    (hbody : 34 + hsLen w0 ≤ w0.client.input.length) : hsStamp t w0 = hsTimestamp w0 := by
  unfold hsStamp bodyBuf
  rw [Buf_store_data]
  refine body_timestamp _ _ ?_
  unfold hsBody
  rw [List.length_take, List.length_drop]
  omega

theorem armEvents_mem (t : Int) (w0 : World) (e : Event) (h : e ∈ armEvents t w0) :
    ∃ ok, e = Event.setDeadline ConnId.client t ok := by
  unfold armEvents at h
  split at h
  · simp at h
  · simp only [List.mem_singleton] at h
    exact ⟨_, h⟩

theorem armEvents_no_drain (t : Int) (w0 : World) :
    Event.waitReadErr ConnId.client ∉ armEvents t w0 := by
  intro h
  obtain ⟨ok, hc⟩ := armEvents_mem t w0 _ h
  simp at hc

theorem armEvents_no_write (t : Int) (w0 : World) (c : ConnId) (d : List Byte) (ok : Bool) :
    Event.write c d ok ∉ armEvents t w0 := by
  intro h
  obtain ⟨ok, hc⟩ := armEvents_mem t w0 _ h
  simp at hc

/-! ## Passes through the loops: frame and log -/

theorem quietly_refl (w : World) : quietly w w := ⟨[], by simp, by simp⟩

theorem quietly_trans {w w1 w2 : World} (h1 : quietly w w1) (h2 : quietly w1 w2) :
    quietly w w2 := by
  obtain ⟨a, ha, hqa⟩ := h1
  obtain ⟨b, hb, hqb⟩ := h2
  refine ⟨a ++ b, by rw [hb, ha, List.append_assoc], ?_⟩
  intro e he
  rcases List.mem_append.mp he with h | h
  · exact hqa e h
  · exact hqb e h

theorem Read_quietly (w : World) (c : ConnId) (cap : Nat) : quietly w (w.Read c cap).2 := by
  cases c <;>
  · unfold World.Read
    simp only []
    split
    · exact ⟨[_], rfl, by simp [Event.isDeadline]⟩
    · exact ⟨[_], rfl, by simp [Event.isDeadline]⟩

theorem ReadFull_quietly (w : World) (c : ConnId) (n : Nat) :
    quietly w (w.ReadFull c n).2 :=
  ⟨[_], ReadFull_log w c n, by simp [Event.isDeadline]⟩

theorem Write_quietly (w : World) (c : ConnId) (d : List Byte) : quietly w (w.Write c d).2 :=
  ⟨[_], Write_log w c d, by simp [Event.isDeadline]⟩

theorem Copy_quietly (w : World) (c d : ConnId) : quietly w (w.Copy c d) := by
  cases d <;> exact ⟨[_], rfl, by simp [Event.isDeadline]⟩

theorem Read_data_length (w : World) (c : ConnId) (cap : Nat) (data : List Byte)
    (h : (w.Read c cap).1 = some data) : data.length ≤ cap := by
  unfold World.Read at h
  simp only [] at h
  split at h
  · simp at h
  · simp only [Option.some.injEq] at h
    rw [← h, List.length_take]
    omega

theorem keepsButRB_store (s : SimpleStreamServer) (off : Nat) (d : List Byte)
    (h : off + d.length ≤ s.RB.data.length) : keepsButRB s (s.withRB (s.RB.store off d)) :=
  ⟨rfl, rfl, store_length _ _ _ h, rfl, rfl, rfl, rfl⟩

theorem keepsButRB_refl (s : SimpleStreamServer) : keepsButRB s s :=
  ⟨rfl, rfl, rfl, rfl, rfl, rfl, rfl⟩

theorem keepsButRB_trans {s s1 s2 : SimpleStreamServer} (h1 : keepsButRB s s1)
    (h2 : keepsButRB s1 s2) : keepsButRB s s2 := by
  obtain ⟨a1, a2, a3, a4, a5, a6, a7⟩ := h1
  obtain ⟨b1, b2, b3, b4, b5, b6, b7⟩ := h2
  exact ⟨b1.trans a1, b2.trans a2, b3.trans a3, b4.trans a4, b5.trans a5, b6.trans a6,
    b7.trans a7⟩

theorem Exchange_tcp_eq (s : SimpleStreamServer) (w : World) :
    ((w.Read ConnId.client s.RB.data.length).1 = none ∧
      Exchange_tcp s w = Step.ret none s (w.Read ConnId.client s.RB.data.length).2) ∨
    (∃ data, (w.Read ConnId.client s.RB.data.length).1 = some data ∧
      Exchange_tcp s w =
        if ((w.Read ConnId.client s.RB.data.length).2.Write ConnId.remote
            (slice (store s.RB.data 0 data) 0 data.length)).1 = false then
          Step.ret none (s.withRB (s.RB.store 0 data))
            ((w.Read ConnId.client s.RB.data.length).2.Write ConnId.remote
              (slice (store s.RB.data 0 data) 0 data.length)).2
        else
          Step.next (s.withRB (s.RB.store 0 data))
            ((w.Read ConnId.client s.RB.data.length).2.Write ConnId.remote
              (slice (store s.RB.data 0 data) 0 data.length)).2) := by
  unfold Exchange_tcp
  simp only []
  cases hr : (w.Read ConnId.client s.RB.data.length).1 with
  | none => exact Or.inl ⟨rfl, rfl⟩
  | some data => exact Or.inr ⟨data, rfl, rfl⟩

theorem Exchange_tcp_summary (s : SimpleStreamServer) (w : World) :
    quietly w (Exchange_tcp s w).world ∧
    (∀ s1, (Exchange_tcp s w).session = some s1 → keepsButRB s s1) ∧
    (∀ b, Exchange_tcp (s.withWB b) w = (Exchange_tcp s w).mapSession (fun x => x.withWB b)) ∧
    (∀ w', Exchange_tcp s w ≠ Step.panic w') := by
  have hq1 := Read_quietly w ConnId.client s.RB.data.length
  rcases Exchange_tcp_eq s w with ⟨hr, h⟩ | ⟨data, hr, h⟩
  · refine ⟨?_, ?_, ?_, ?_⟩
    · rw [h]; exact hq1
    · intro s1 h1
      rw [h] at h1
      simp only [Step.session, Option.some.injEq] at h1
      subst h1
      exact keepsButRB_refl s
    · intro b
      rcases Exchange_tcp_eq (s.withWB b) w with ⟨_, h'⟩ | ⟨data', hr', _⟩
      · rw [h', h]; rfl
      · have : (w.Read ConnId.client s.RB.data.length).1 = some data' := hr'
        rw [hr] at this; simp at this
    · intro w' hc
      rw [h] at hc; simp at hc
  · have hl := Read_data_length _ _ _ _ hr
    have hq2 := Write_quietly (w.Read ConnId.client s.RB.data.length).2 ConnId.remote
      (slice (store s.RB.data 0 data) 0 data.length)
    refine ⟨?_, ?_, ?_, ?_⟩
    · rw [h]
      split
      · exact quietly_trans hq1 hq2
      · exact quietly_trans hq1 hq2
    · intro s1 h1
      rw [h] at h1
      split at h1
      · simp only [Step.session, Option.some.injEq] at h1
        subst h1
        exact keepsButRB_store s 0 data (by omega)
      · simp only [Step.session, Option.some.injEq] at h1
        subst h1
        exact keepsButRB_store s 0 data (by omega)
    · intro b
      rcases Exchange_tcp_eq (s.withWB b) w with ⟨hr', _⟩ | ⟨data', hr', h'⟩
      · have : (w.Read ConnId.client s.RB.data.length).1 = none := hr'
        rw [hr] at this; simp at this
      · have hd : (w.Read ConnId.client s.RB.data.length).1 = some data' := hr'
        rw [hr] at hd
        simp only [Option.some.injEq] at hd
        subst hd
        rw [h', h]
        simp only [SimpleStreamServer.withWB, SimpleStreamServer.withRB]
        split <;> rfl
    · intro w' hc
      rw [h] at hc
      split at hc <;> simp at hc

theorem quietly_Write {w w1 : World} (h : quietly w w1) (c : ConnId) (d : List Byte) :
    quietly w (w1.Write c d).2 := quietly_trans h (Write_quietly w1 c d)

theorem quietly_ReadFull {w w1 : World} (h : quietly w w1) (c : ConnId) (n : Nat) :
    quietly w (w1.ReadFull c n).2 := quietly_trans h (ReadFull_quietly w1 c n)

theorem quietly_Read {w w1 : World} (h : quietly w w1) (c : ConnId) (cap : Nat) :
    quietly w (w1.Read c cap).2 := quietly_trans h (Read_quietly w1 c cap)

theorem ReadFull_data_length (w : World) (c : ConnId) (n : Nat) :
    (w.ReadFull c n).1.1.length ≤ n := by
  unfold World.ReadFull
  simp only [List.length_take]
  omega

theorem Exchange_udp_quietly (s : SimpleStreamServer) (w : World) :
    quietly w (Exchange_udp s w).world := by
  unfold Exchange_udp
  simp only []
  repeat' split
  all_goals simp only [Step.world]
  all_goals
    repeat (first
      | exact quietly_refl _
      | apply quietly_Write
      | apply quietly_ReadFull
      | apply quietly_Read)

theorem Exchange_udp_keeps (s : SimpleStreamServer) (w : World) (s1 : SimpleStreamServer)
    (h : (Exchange_udp s w).session = some s1) : keepsButRB s s1 := by
  have l1 := ReadFull_data_length w ConnId.client 2
  unfold Exchange_udp at h
  simp only [] at h
  split at h
  · simp [Step.session] at h
  · rename_i h2
    have e1 : (store s.RB.data 0 (w.ReadFull ConnId.client 2).1.1).length = s.RB.data.length :=
      store_length _ _ _ (by omega)
    split at h
    · simp only [Step.session, Option.some.injEq] at h
      subst h
      exact ⟨rfl, rfl, e1, rfl, rfl, rfl, rfl⟩
    · split at h
      · simp only [Step.session, Option.some.injEq] at h
        subst h
        exact ⟨rfl, rfl, e1, rfl, rfl, rfl, rfl⟩
      · split at h
        · simp [Step.session] at h
        · rename_i h3
          simp only [Buf_store_data] at h3
          have l2 := ReadFull_data_length (w.ReadFull ConnId.client 2).2 ConnId.client
            (Uint16 (slice (store s.RB.data 0 (w.ReadFull ConnId.client 2).1.1) 0 2))
          have e2 : (store (store s.RB.data 0 (w.ReadFull ConnId.client 2).1.1) 2
              ((w.ReadFull ConnId.client 2).2.ReadFull ConnId.client
                (Uint16 (slice (store s.RB.data 0 (w.ReadFull ConnId.client 2).1.1) 0
                  2))).1.1).length = s.RB.data.length := by
            rw [store_length _ _ _ (by omega), e1]
          split at h
          · simp only [Step.session, Option.some.injEq] at h
            subst h
            exact ⟨rfl, rfl, e2, rfl, rfl, rfl, rfl⟩
          · split at h
            · simp only [Step.session, Option.some.injEq] at h
              subst h
              exact ⟨rfl, rfl, e2, rfl, rfl, rfl, rfl⟩
            · simp only [Step.session, Option.some.injEq] at h
              subst h
              exact ⟨rfl, rfl, e2, rfl, rfl, rfl, rfl⟩

theorem Exchange_udp_withWB (s : SimpleStreamServer) (w : World) (b : Buf) :
    Exchange_udp (s.withWB b) w = (Exchange_udp s w).mapSession (fun x => x.withWB b) := by
  unfold Exchange_udp
  simp only [SimpleStreamServer.withWB]
  split_ifs <;> rfl

theorem Exchange_udp_no_panic (s : SimpleStreamServer) (w : World)
    (hrb : s.RB.data.length = 65507) (w' : World) : Exchange_udp s w ≠ Step.panic w' := by
  have l1 := ReadFull_data_length w ConnId.client 2
  have e1 : (store s.RB.data 0 (w.ReadFull ConnId.client 2).1.1).length = s.RB.data.length :=
    store_length _ _ _ (by omega)
  intro h
  unfold Exchange_udp at h
  simp only [Buf_store_data, e1] at h
  split at h
  · omega
  · split at h
    · simp at h
    · split at h
      · simp at h
      · rename_i h3
        split at h
        · omega
        · split at h
          · simp at h
          · split at h <;> simp at h

theorem armedWorld_zero (w : World) : armedWorld 0 w = w := by
  unfold armedWorld; simp

/-- The four ways a pass through the client-to-destination loop goes. -/
theorem Exchange_iter_cases (s : SimpleStreamServer) (w : World) :
    (¬ armOk s.Timeout w ∧ Exchange_iter s w = Step.ret none s (armedWorld s.Timeout w)) ∨
    (s.network = "tcp" ∧ Exchange_iter s w = Exchange_tcp s (armedWorld s.Timeout w)) ∨
    (s.network = "udp" ∧ Exchange_iter s w = Exchange_udp s (armedWorld s.Timeout w)) ∨
    (s.network ≠ "tcp" ∧ s.network ≠ "udp" ∧
      Exchange_iter s w = Step.next s (armedWorld s.Timeout w)) := by
  by_cases harm : armOk s.Timeout w
  · by_cases hu : s.network = "udp"
    · exact Or.inr (Or.inr (Or.inl ⟨hu, Exchange_iter_udp s w hu harm⟩))
    · by_cases ht : s.network = "tcp"
      · exact Or.inr (Or.inl ⟨ht, Exchange_iter_tcp s w ht harm⟩)
      · exact Or.inr (Or.inr (Or.inr ⟨ht, hu, Exchange_iter_other s w ht hu harm⟩))
  · exact Or.inl ⟨harm, Exchange_iter_of_not_armOk s w harm⟩

theorem Exchange_iter_quietly (s : SimpleStreamServer) (w : World) (h0 : s.Timeout = 0) :
    quietly w (Exchange_iter s w).world := by
  rcases Exchange_iter_cases s w with ⟨_, h⟩ | ⟨_, h⟩ | ⟨_, h⟩ | ⟨_, _, h⟩
  all_goals rw [h, h0, armedWorld_zero]
  · exact quietly_refl w
  · exact (Exchange_tcp_summary s w).1
  · exact Exchange_udp_quietly s w
  · exact quietly_refl w

theorem Exchange_iter_keeps (s : SimpleStreamServer) (w : World) (s1 : SimpleStreamServer)
    (h1 : (Exchange_iter s w).session = some s1) : keepsButRB s s1 := by
  rcases Exchange_iter_cases s w with ⟨_, h⟩ | ⟨_, h⟩ | ⟨_, h⟩ | ⟨_, _, h⟩
  all_goals rw [h] at h1
  · simp only [Step.session, Option.some.injEq] at h1
    subst h1; exact keepsButRB_refl s
  · exact (Exchange_tcp_summary s _).2.1 s1 h1
  · exact Exchange_udp_keeps s _ s1 h1
  · simp only [Step.session, Option.some.injEq] at h1
    subst h1; exact keepsButRB_refl s

theorem Exchange_iter_withWB (s : SimpleStreamServer) (w : World) (b : Buf) :
    Exchange_iter (s.withWB b) w = (Exchange_iter s w).mapSession (fun x => x.withWB b) := by
  by_cases harm : armOk s.Timeout w
  · by_cases hu : s.network = "udp"
    · rw [Exchange_iter_udp s w hu harm, Exchange_iter_udp (s.withWB b) w hu harm]
      exact Exchange_udp_withWB s _ b
    · by_cases ht : s.network = "tcp"
      · rw [Exchange_iter_tcp s w ht harm, Exchange_iter_tcp (s.withWB b) w ht harm]
        exact (Exchange_tcp_summary s _).2.2.1 b
      · rw [Exchange_iter_other s w ht hu harm, Exchange_iter_other (s.withWB b) w ht hu harm]
        rfl
  · rw [Exchange_iter_of_not_armOk s w harm, Exchange_iter_of_not_armOk (s.withWB b) w harm]
    rfl

theorem Exchange_iter_no_panic (s : SimpleStreamServer) (w : World)
    (hrb : s.RB.data.length = 65507) (w' : World) : Exchange_iter s w ≠ Step.panic w' := by
  rcases Exchange_iter_cases s w with ⟨_, h⟩ | ⟨_, h⟩ | ⟨_, h⟩ | ⟨_, _, h⟩
  all_goals rw [h]
  · simp
  · exact (Exchange_tcp_summary s _).2.2.2 w'
  · exact Exchange_udp_no_panic s _ hrb w'
  · simp

theorem Exchange_loop_props (fuel : Nat) (s : SimpleStreamServer) (w : World) (r : Step)
    (h : Exchange_loop fuel s w = some r) :
    (s.Timeout = 0 → quietly w r.world) ∧
    (∀ s1, r.session = some s1 → keepsButRB s s1) ∧
    (s.RB.data.length = 65507 → ∀ w', r ≠ Step.panic w') := by
  induction fuel generalizing s w with
  | zero => simp [Exchange_loop] at h
  | succ fuel ih =>
    unfold Exchange_loop at h
    split at h
    · rename_i s' w' hit
      have hk : keepsButRB s s' := Exchange_iter_keeps s w s' (by rw [hit]; rfl)
      obtain ⟨i1, i2, i3⟩ := ih s' w' h
      refine ⟨?_, ?_, ?_⟩
      · intro h0
        have hq := Exchange_iter_quietly s w h0
        rw [hit] at hq
        exact quietly_trans hq (i1 (by rw [hk.2.2.2.2.2.2, h0]))
      · intro s1 h1
        exact keepsButRB_trans hk (i2 s1 h1)
      · intro hrb
        exact i3 (by rw [hk.2.2.1, hrb])
    · simp only [Option.some.injEq] at h
      subst h
      exact ⟨Exchange_iter_quietly s w, Exchange_iter_keeps s w,
        fun hrb => Exchange_iter_no_panic s w hrb⟩

theorem Exchange_props (fuel : Nat) (s : SimpleStreamServer) (w : World) (r : Step)
    (h : s.Exchange fuel w = some r) :
    (s.Timeout = 0 → quietly w r.world) ∧
    (∀ s1, r.session = some s1 → keepsButRB s s1) ∧
    (s.RB.data.length = 65507 → ∀ w', r ≠ Step.panic w') := by
  unfold SimpleStreamServer.Exchange at h
  split at h
  · simp only [Option.some.injEq] at h
    subst h
    refine ⟨fun _ => Copy_quietly w _ _, ?_, fun _ w' hc => by simp at hc⟩
    intro s1 h1
    simp only [Step.session, Option.some.injEq] at h1
    subst h1
    exact keepsButRB_refl s
  · exact Exchange_loop_props fuel s w r h

/-! ## Passes through the destination-to-client loop -/

theorem armedRemote_zero (w : World) : armedRemote 0 w = w := by
  unfold armedRemote; simp

/-- The four ways a pass through the destination-to-client loop goes. -/
theorem Exchange_go_iter_cases (s : SimpleStreamServer) (w : World) :
    Exchange_go_iter s w = Step.ret none s (armedRemote s.Timeout w) ∨
    (s.network = "tcp" ∧ Exchange_go_iter s w = Exchange_go_tcp s (armedRemote s.Timeout w)) ∨
    (s.network = "udp" ∧ Exchange_go_iter s w = Exchange_go_udp s (armedRemote s.Timeout w)) ∨
    (s.network ≠ "tcp" ∧ s.network ≠ "udp" ∧
      Exchange_go_iter s w = Step.next s (armedRemote s.Timeout w)) := by
  have hw : (if s.Timeout ≠ 0 then w.SetDeadline ConnId.remote s.Timeout else (true, w)).2 =
      armedRemote s.Timeout w := by
    unfold armedRemote; split <;> rfl
  unfold Exchange_go_iter
  simp only [hw]
  generalize (if s.Timeout ≠ 0 then w.SetDeadline ConnId.remote s.Timeout else (true, w)).1 = d1
  cases d1
  · exact Or.inl (by simp only [↓reduceIte])
  · simp only [Bool.true_eq_false, ↓reduceIte]
    by_cases hu : s.network = "udp"
    · have ht : ¬ s.network = "tcp" := by rw [hu]; decide
      refine Or.inr (Or.inr (Or.inl ⟨hu, ?_⟩))
      simp only [ht, ↓reduceIte]
      simp only [hu, ↓reduceIte]
    · by_cases ht : s.network = "tcp"
      · refine Or.inr (Or.inl ⟨ht, ?_⟩)
        simp only [ht, ↓reduceIte]
        cases hr : Exchange_go_tcp s (armedRemote s.Timeout w) with
        | next s' w' =>
          have hn : s'.network = "tcp" := by
            have hx := hr
            unfold Exchange_go_tcp at hx
            simp only [] at hx
            split at hx
            · simp at hx
            · split at hx
              · simp at hx
              · simp only [Step.next.injEq] at hx
                rw [← hx.1]; exact ht
          have h2 : ¬ s'.network = "udp" := by rw [hn]; decide
          simp only [h2, ↓reduceIte]
        | ret e s' w' => rfl
        | panic w' => rfl
      · refine Or.inr (Or.inr (Or.inr ⟨ht, hu, ?_⟩))
        simp only [ht, hu, ↓reduceIte]

theorem keepsButWB_refl (s : SimpleStreamServer) : keepsButWB s s :=
  ⟨rfl, rfl, rfl, rfl, rfl, rfl, rfl⟩

theorem keepsButWB_trans {s s1 s2 : SimpleStreamServer} (h1 : keepsButWB s s1)
    (h2 : keepsButWB s1 s2) : keepsButWB s s2 := by
  obtain ⟨a1, a2, a3, a4, a5, a6, a7⟩ := h1
  obtain ⟨b1, b2, b3, b4, b5, b6, b7⟩ := h2
  exact ⟨b1.trans a1, b2.trans a2, b3.trans a3, b4.trans a4, b5.trans a5, b6.trans a6,
    b7.trans a7⟩

theorem Exchange_go_tcp_quietly (s : SimpleStreamServer) (w : World) :
    quietly w (Exchange_go_tcp s w).world := by
  unfold Exchange_go_tcp
  simp only []
  repeat' split
  all_goals simp only [Step.world]
  all_goals
    repeat (first
      | exact quietly_refl _
      | apply quietly_Write
      | apply quietly_ReadFull
      | apply quietly_Read)

theorem Exchange_go_udp_quietly (s : SimpleStreamServer) (w : World) :
    quietly w (Exchange_go_udp s w).world := by
  unfold Exchange_go_udp
  simp only []
  repeat' split
  all_goals simp only [Step.world]
  all_goals
    repeat (first
      | exact quietly_refl _
      | apply quietly_Write
      | apply quietly_ReadFull
      | apply quietly_Read)

theorem Exchange_go_tcp_keeps (s : SimpleStreamServer) (w : World) (s1 : SimpleStreamServer)
    (h : (Exchange_go_tcp s w).session = some s1) : keepsButWB s s1 := by
  unfold Exchange_go_tcp at h
  simp only [] at h
  split at h
  · simp only [Step.session, Option.some.injEq] at h
    subst h; exact keepsButWB_refl s
  · rename_i data hr
    have hl := Read_data_length _ _ _ _ hr
    have e : (store s.WB.data 0 data).length = s.WB.data.length :=
      store_length _ _ _ (by omega)
    split at h
    · simp only [Step.session, Option.some.injEq] at h
      subst h; exact ⟨rfl, rfl, e, rfl, rfl, rfl, rfl⟩
    · simp only [Step.session, Option.some.injEq] at h
      subst h; exact ⟨rfl, rfl, e, rfl, rfl, rfl, rfl⟩

theorem Exchange_go_udp_keeps (s : SimpleStreamServer) (w : World) (s1 : SimpleStreamServer)
    (h : (Exchange_go_udp s w).session = some s1) : keepsButWB s s1 := by
  unfold Exchange_go_udp at h
  simp only [] at h
  split at h
  · simp [Step.session] at h
  · rename_i h2
    split at h
    · simp only [Step.session, Option.some.injEq] at h
      subst h; exact keepsButWB_refl s
    · rename_i data hr
      have hl := Read_data_length _ _ _ _ hr
      have e1 : (store s.WB.data 2 data).length = s.WB.data.length :=
        store_length _ _ _ (by omega)
      have e : (store (store s.WB.data 2 data) 0 (PutUint16 data.length)).length =
          s.WB.data.length := by
        rw [store_length _ _ _ (by rw [PutUint16_length, e1]; omega), e1]
      split at h
      · simp only [Step.session, Option.some.injEq] at h
        subst h; exact ⟨rfl, rfl, e, rfl, rfl, rfl, rfl⟩
      · simp only [Step.session, Option.some.injEq] at h
        subst h; exact ⟨rfl, rfl, e, rfl, rfl, rfl, rfl⟩

theorem Exchange_go_tcp_withRB (s : SimpleStreamServer) (w : World) (b : Buf) :
    Exchange_go_tcp (s.withRB b) w = (Exchange_go_tcp s w).mapSession (fun x => x.withRB b) := by
  unfold Exchange_go_tcp
  simp only [SimpleStreamServer.withRB]
  split <;> [rfl; (split_ifs <;> rfl)]

theorem Exchange_go_udp_withRB (s : SimpleStreamServer) (w : World) (b : Buf) :
    Exchange_go_udp (s.withRB b) w = (Exchange_go_udp s w).mapSession (fun x => x.withRB b) := by
  unfold Exchange_go_udp
  simp only [SimpleStreamServer.withRB]
  split_ifs
  · rfl
  · split <;> [rfl; (split_ifs <;> rfl)]

theorem Exchange_go_iter_quietly (s : SimpleStreamServer) (w : World) (h0 : s.Timeout = 0) :
    quietly w (Exchange_go_iter s w).world := by
  rcases Exchange_go_iter_cases s w with h | ⟨_, h⟩ | ⟨_, h⟩ | ⟨_, _, h⟩
  all_goals rw [h, h0, armedRemote_zero]
  · exact quietly_refl w
  · exact Exchange_go_tcp_quietly s w
  · exact Exchange_go_udp_quietly s w
  · exact quietly_refl w

theorem Exchange_go_iter_keeps (s : SimpleStreamServer) (w : World) (s1 : SimpleStreamServer)
    (h1 : (Exchange_go_iter s w).session = some s1) : keepsButWB s s1 := by
  rcases Exchange_go_iter_cases s w with h | ⟨_, h⟩ | ⟨_, h⟩ | ⟨_, _, h⟩
  all_goals rw [h] at h1
  · simp only [Step.session, Option.some.injEq] at h1
    subst h1; exact keepsButWB_refl s
  · exact Exchange_go_tcp_keeps s _ s1 h1
  · exact Exchange_go_udp_keeps s _ s1 h1
  · simp only [Step.session, Option.some.injEq] at h1
    subst h1; exact keepsButWB_refl s

theorem Exchange_go_iter_withRB (s : SimpleStreamServer) (w : World) (b : Buf) :
    Exchange_go_iter (s.withRB b) w =
      (Exchange_go_iter s w).mapSession (fun x => x.withRB b) := by
  have hw : (if s.Timeout ≠ 0 then w.SetDeadline ConnId.remote s.Timeout else (true, w)).2 =
      armedRemote s.Timeout w := by
    unfold armedRemote; split <;> rfl
  unfold Exchange_go_iter
  simp only [SimpleStreamServer.withRB, hw]
  generalize (if s.Timeout ≠ 0 then w.SetDeadline ConnId.remote s.Timeout else (true, w)).1 = d1
  cases d1
  · simp only [↓reduceIte]; rfl
  · simp only [Bool.true_eq_false, ↓reduceIte]
    have e1 := Exchange_go_tcp_withRB s (armedRemote s.Timeout w) b
    have e2 := Exchange_go_udp_withRB s (armedRemote s.Timeout w) b
    simp only [SimpleStreamServer.withRB] at e1 e2
    by_cases ht : s.network = "tcp"
    · have hu : ¬ s.network = "udp" := by rw [ht]; decide
      simp only [ht, ↓reduceIte]
      simp only [ht] at e1
      rw [e1]
      cases hr : Exchange_go_tcp s (armedRemote s.Timeout w) with
      | next s' w' =>
        have hn : s'.network = "tcp" :=
          ((Exchange_go_tcp_keeps s _ s' (by rw [hr]; rfl)).2.2.2.1).trans ht
        have h2 : ¬ s'.network = "udp" := by rw [hn]; decide
        simp only [Step.mapSession, h2, ↓reduceIte]
      | ret e s' w' => rfl
      | panic w' => rfl
    · simp only [ht, ↓reduceIte]
      by_cases hu : s.network = "udp"
      · simp only [hu, ↓reduceIte]
        simp only [hu] at e2
        exact e2
      · simp only [hu, ↓reduceIte]
        rfl

theorem Exchange_go_loop_props (fuel : Nat) (s : SimpleStreamServer) (w : World) (r : Step)
    (h : Exchange_go_loop fuel s w = some r) :
    (s.Timeout = 0 → quietly w r.world) ∧ (∀ s1, r.session = some s1 → keepsButWB s s1) := by
  induction fuel generalizing s w with
  | zero => simp [Exchange_go_loop] at h
  | succ fuel ih =>
    unfold Exchange_go_loop at h
    split at h
    · rename_i s' w' hit
      have hk : keepsButWB s s' := Exchange_go_iter_keeps s w s' (by rw [hit]; rfl)
      obtain ⟨i1, i2⟩ := ih s' w' h
      refine ⟨?_, ?_⟩
      · intro h0
        have hq := Exchange_go_iter_quietly s w h0
        rw [hit] at hq
        exact quietly_trans hq (i1 (by rw [hk.2.2.2.2.2.2, h0]))
      · intro s1 h1
        exact keepsButWB_trans hk (i2 s1 h1)
    · simp only [Option.some.injEq] at h
      subst h
      exact ⟨Exchange_go_iter_quietly s w, Exchange_go_iter_keeps s w⟩

theorem Exchange_go_props (fuel : Nat) (s : SimpleStreamServer) (w : World) (r : Step)
    (h : Exchange_go fuel s w = some r) :
    (s.Timeout = 0 → quietly w r.world) ∧ (∀ s1, r.session = some s1 → keepsButWB s s1) := by
  unfold Exchange_go at h
  split at h
  · simp only [Option.some.injEq] at h
    subst h
    refine ⟨fun _ => Copy_quietly w _ _, ?_⟩
    intro s1 h1
    simp only [Step.session, Option.some.injEq] at h1
    subst h1
    exact keepsButWB_refl s
  · exact Exchange_go_loop_props fuel s w r h

theorem ToAddress_port (a : Byte) (addr p : List Byte) :
    ToAddress a addr p = ToAddress a addr (p.take 2) := by
  unfold ToAddress
  rw [Uint16_take _ _ (le_refl 2)]

/-! ## The claims -/

/-- C1: when `NewSimpleStreamServer` returns a session, `Network()` is `"tcp"` if the
big-endian timestamp at the front of the request body is even and `"udp"` if it is
odd; it is exactly one of the two and never empty. -/
theorem C1_network_by_parity (env : Env) (pw : List Byte) (src : String) (t ut : Int)
    (w0 : World) (s : SimpleStreamServer) (w : World)
    (h : NewSimpleStreamServer env pw src t ut w0 = (Outcome.ok s, w)) :
    (hsTimestamp w0 % 2 = 0 → s.Network = "tcp") ∧
    (hsTimestamp w0 % 2 = 1 → s.Network = "udp") ∧
    (s.Network = "tcp" ↔ hsTimestamp w0 % 2 = 0) ∧
    (s.Network = "udp" ↔ hsTimestamp w0 % 2 = 1) ∧
    (s.Network = "tcp" ∨ s.Network = "udp") ∧ s.Network ≠ "" := by
  have a := NewSimpleStreamServer_ok h
  have hn := a.network
  unfold SimpleStreamServer.Network
  rcases Nat.mod_two_eq_zero_or_one (hsTimestamp w0) with hp | hp
  · simp [hn, hp]
  · simp [hn, hp]

/-- The scenario of the spec is a successful handshake with an even timestamp; its
session is a stream session. -/
theorem C1_network_by_parity_witness :
    NewSimpleStreamServer (envAt 1700000000) zeroSecret "peer" 0 0
      (World.start (request 0x65 0x53 0xF1 0x00)) =
      (Outcome.ok (streamSession 0x65 0x53 0xF1 0x00), streamWorld) ∧
    hsTimestamp (World.start (request 0x65 0x53 0xF1 0x00)) = 1700000000 ∧
    (streamSession 0x65 0x53 0xF1 0x00).Network = "tcp" :=
  ⟨scenario_run, by decide!,
    (C1_network_by_parity _ _ _ _ _ _ _ _ scenario_run).1 (by decide!)⟩

/-- C9: when `NewSimpleStreamServer` returns a session, its `Timeout` is the
caller's `udptimeout` if the timestamp is odd and the caller's `timeout` if it is
even, whatever the two values are. -/
theorem C9_timeout_by_parity (env : Env) (pw : List Byte) (src : String) (t ut : Int)
    (w0 : World) (s : SimpleStreamServer) (w : World)
    (h : NewSimpleStreamServer env pw src t ut w0 = (Outcome.ok s, w)) :
    (hsTimestamp w0 % 2 = 1 → s.Timeout = ut) ∧ (hsTimestamp w0 % 2 = 0 → s.Timeout = t) := by
  have a := NewSimpleStreamServer_ok h
  have hn := a.timeout
  rcases Nat.mod_two_eq_zero_or_one (hsTimestamp w0) with hp | hp
  · simp [hn, hp]
  · simp [hn, hp]

/-- With the generic timeout 3 and the datagram timeout 7, a handshake with the odd
timestamp 1700000001 returns a session whose `Timeout` is 7, and the same handshake
with the even timestamp 1700000000 returns one whose `Timeout` is 3. -/
theorem C9_timeout_by_parity_witness :
    hsTimestamp (World.start (request 0x65 0x53 0xF1 0x01)) % 2 = 1 ∧
    (∃ s, (NewSimpleStreamServer (envAt 1700000000) zeroSecret "peer" 3 7
        (World.start (request 0x65 0x53 0xF1 0x01))).1 = Outcome.ok s ∧
      s.Timeout = 7 ∧ s.Network = "udp") ∧
    hsTimestamp (World.start (request 0x65 0x53 0xF1 0x00)) % 2 = 0 ∧
    (∃ s, (NewSimpleStreamServer (envAt 1700000000) zeroSecret "peer" 3 7
        (World.start (request 0x65 0x53 0xF1 0x00))).1 = Outcome.ok s ∧
      s.Timeout = 3 ∧ s.Network = "tcp") := by
  have hodd : hsTimestamp (World.start (request 0x65 0x53 0xF1 0x01)) % 2 = 1 := by decide!
  have heven : hsTimestamp (World.start (request 0x65 0x53 0xF1 0x00)) % 2 = 0 := by decide!
  have hf1 : ¬ (envAt 1700000000).now -
      (hsStamp 3 (World.start (request 0x65 0x53 0xF1 0x01)) : Int) > 60 := by decide!
  have hf0 : ¬ (envAt 1700000000).now -
      (hsStamp 3 (World.start (request 0x65 0x53 0xF1 0x00)) : Int) > 60 := by decide!
  obtain ⟨s1, h1⟩ := (New_fresh (envAt 1700000000) zeroSecret "peer" 3 7
    (World.start (request 0x65 0x53 0xF1 0x01)) (Or.inr rfl) (Pool_unused_nth 2048 0)
    (Pool_unused_nth 65507 0) (by decide!) (by decide!) (by decide!) (by decide!) hf1).2
    (by decide!)
  obtain ⟨s0, h0⟩ := (New_fresh (envAt 1700000000) zeroSecret "peer" 3 7
    (World.start (request 0x65 0x53 0xF1 0x00)) (Or.inr rfl) (Pool_unused_nth 2048 0)
    (Pool_unused_nth 65507 0) (by decide!) (by decide!) (by decide!) (by decide!) hf0).2
    (by decide!)
  have h1k : NewSimpleStreamServer (envAt 1700000000) zeroSecret "peer" 3 7
      (World.start (request 0x65 0x53 0xF1 0x01)) =
      (Outcome.ok s1, grantedWorld 3 (World.start (request 0x65 0x53 0xF1 0x01))) := h1
  have h0k : NewSimpleStreamServer (envAt 1700000000) zeroSecret "peer" 3 7
      (World.start (request 0x65 0x53 0xF1 0x00)) =
      (Outcome.ok s0, grantedWorld 3 (World.start (request 0x65 0x53 0xF1 0x00))) := h0
  have n1 := (NewSimpleStreamServer_ok h1k).network
  have n0 := (NewSimpleStreamServer_ok h0k).network
  rw [hodd] at n1
  rw [heven] at n0
  exact ⟨hodd,
    ⟨s1, by rw [h1k], (C9_timeout_by_parity _ _ _ _ _ _ _ _ h1k).1 hodd, n1⟩,
    heven,
    ⟨s0, by rw [h0k], (C9_timeout_by_parity _ _ _ _ _ _ _ _ h0k).2 heven, n0⟩⟩

/-- C10: if the small pool hands out buffers of length 2048 and the large pool
buffers of length 65507, a session returned by `NewSimpleStreamServer` has `RB` and
`WB` of length 2048 when it is a stream session and of length 65507 when it is a
datagram session, and `RB` and `WB` are different buffers. -/
theorem C10_buffer_lengths (env : Env) (pw : List Byte) (src : String) (t ut : Int)
    (w0 : World) (s : SimpleStreamServer) (w : World)
    (hsmall : ∀ k, (w0.BP2048.nth k).length = 2048)
    (hlarge : ∀ k, (w0.BP65507.nth k).length = 65507)
    (h : NewSimpleStreamServer env pw src t ut w0 = (Outcome.ok s, w)) :
    (s.Network = "tcp" → s.RB.data.length = 2048 ∧ s.WB.data.length = 2048) ∧
    (s.Network = "udp" → s.RB.data.length = 65507 ∧ s.WB.data.length = 65507) ∧
    (s.Network = "tcp" ∨ s.Network = "udp") ∧ s.RB.id ≠ s.WB.id := by
  have a := NewSimpleStreamServer_ok h
  have hn := a.network
  have h1 := a.rb_len
  have h2 := a.wb_data
  have h3 := a.rb_id
  have h4 := a.wb_id
  unfold SimpleStreamServer.Network
  rcases Nat.mod_two_eq_zero_or_one (hsTimestamp w0) with hp | hp
  · simp [hn, hp, h1, h2, h3, h4, hsmall]
  · simp [hn, hp, h1, h2, h3, h4, hlarge]

/-- Unused pools hand out buffers of their size, and the session of the scenario has
two distinct buffers of length 2048. -/
theorem C10_buffer_lengths_witness :
    (∀ k, ((World.start (request 0x65 0x53 0xF1 0x00)).BP2048.nth k).length = 2048) ∧
    (∀ k, ((World.start (request 0x65 0x53 0xF1 0x00)).BP65507.nth k).length = 65507) ∧
    NewSimpleStreamServer (envAt 1700000000) zeroSecret "peer" 0 0
      (World.start (request 0x65 0x53 0xF1 0x00)) =
      (Outcome.ok (streamSession 0x65 0x53 0xF1 0x00), streamWorld) ∧
    (streamSession 0x65 0x53 0xF1 0x00).RB.data.length = 2048 ∧
    (streamSession 0x65 0x53 0xF1 0x00).WB.data.length = 2048 ∧
    (streamSession 0x65 0x53 0xF1 0x00).RB.id ≠ (streamSession 0x65 0x53 0xF1 0x00).WB.id :=
  have hs : ∀ k, ((World.start (request 0x65 0x53 0xF1 0x00)).BP2048.nth k).length = 2048 := by
    intro k; exact Pool_unused_nth _ k
  have hl : ∀ k, ((World.start (request 0x65 0x53 0xF1 0x00)).BP65507.nth k).length = 65507 := by
    intro k; exact Pool_unused_nth _ k
  have c := C10_buffer_lengths _ _ _ _ _ _ _ _ hs hl scenario_run
  ⟨hs, hl, scenario_run, (c.1 rfl).1, (c.1 rfl).2, c.2.2.2⟩

/-- C8: when `NewSimpleStreamServer` returns a session built from a request body of
length `L`, for both transports the body lies at the front of `RB` and `Dst()` is
the address decoder applied to the type byte `body[4]`, the address bytes
`body[5 .. L-2)` and the slice `RB[L-2:]`, which starts with the last two body
bytes; for a decoder that reads the port from the first two bytes of that slice,
`Dst()` is the decoder applied to `body[4]`, `body[5 .. L-2)` and
`body[L-2], body[L-1]`.  With a secret of 32 zero bytes and the body
`timestamp = now` (even), IPv4, 127.0.0.1, port 80, the session is a stream
session with `Dst() = "127.0.0.1:80"`. -/
theorem C8_destination (env : Env) (pw : List Byte) (src : String) (t ut : Int)
    (w0 : World) (s : SimpleStreamServer) (w : World)
    (h : NewSimpleStreamServer env pw src t ut w0 = (Outcome.ok s, w)) :
    (hsBody w0).length = hsLen w0 ∧ 7 ≤ hsLen w0 ∧
    s.RB.data.take (hsLen w0) = hsBody w0 ∧
    (s.RB.data.drop (hsLen w0 - 2)).take 2 = (hsBody w0).drop (hsLen w0 - 2) ∧
    ((hsBody w0).drop (hsLen w0 - 2)).length = 2 ∧
    s.Dst = env.ToAddress ((hsBody w0).getD 4 0) (slice (hsBody w0) 5 (hsLen w0 - 2))
      (s.RB.data.drop (hsLen w0 - 2)) ∧
    ((∀ a addr p, env.ToAddress a addr p = env.ToAddress a addr (p.take 2)) →
      s.Dst = env.ToAddress ((hsBody w0).getD 4 0) (slice (hsBody w0) 5 (hsLen w0 - 2))
        ((hsBody w0).drop (hsLen w0 - 2))) ∧
    (∃ s1 w1, NewSimpleStreamServer (envAt 1700000000) zeroSecret "peer" 0 0
        (World.start (request 0x65 0x53 0xF1 0x00)) = (Outcome.ok s1, w1) ∧
      hsTimestamp (World.start (request 0x65 0x53 0xF1 0x00)) = 1700000000 ∧
      hsBody (World.start (request 0x65 0x53 0xF1 0x00)) =
        [0x65, 0x53, 0xF1, 0x00, 1, 127, 0, 0, 1, 0, 80] ∧
      s1.Network = "tcp" ∧ s1.Dst = "127.0.0.1:80") := by
  have a := NewSimpleStreamServer_ok h
  have hbl := a.body
  have h7 := a.len_ge
  have hrb := a.rb_body
  have hd := a.dst
  obtain ⟨rest, hrest⟩ : ∃ rest, s.RB.data = hsBody w0 ++ rest :=
    ⟨s.RB.data.drop (hsLen w0), by rw [← hrb, List.take_append_drop]⟩
  have e1 : s.RB.data.getD 4 0 = (hsBody w0).getD 4 0 := by
    rw [hrest, List.getD_append _ _ _ _ (by omega)]
  have e2 : slice s.RB.data 5 (hsLen w0 - 2) = slice (hsBody w0) 5 (hsLen w0 - 2) := by
    unfold slice
    rw [hrest, List.take_append_of_le_length (by omega)]
  have e3 : (s.RB.data.drop (hsLen w0 - 2)).take 2 = (hsBody w0).drop (hsLen w0 - 2) := by
    rw [hrest, List.drop_append_of_le_length (by omega),
      List.take_append_of_le_length (by rw [List.length_drop]; omega),
      List.take_of_length_le (by rw [List.length_drop]; omega)]
  have e4 : s.Dst = env.ToAddress ((hsBody w0).getD 4 0) (slice (hsBody w0) 5 (hsLen w0 - 2))
      (s.RB.data.drop (hsLen w0 - 2)) := by
    unfold SimpleStreamServer.Dst
    rw [hd, e1, e2]
  refine ⟨hbl, h7, hrb, e3, by rw [List.length_drop]; omega, e4, ?_, ?_⟩
  · intro hport
    rw [e4, hport, e3]
  · exact ⟨_, _, scenario_run, by decide!, by decide!, rfl, rfl⟩

/-- In the scenario of the spec the modelled decoder reads two port bytes and the
destination is decoded from the body bytes alone. -/
theorem C8_destination_witness :
    NewSimpleStreamServer (envAt 1700000000) zeroSecret "peer" 0 0
      (World.start (request 0x65 0x53 0xF1 0x00)) =
      (Outcome.ok (streamSession 0x65 0x53 0xF1 0x00), streamWorld) ∧
    (∀ a addr p, ToAddress a addr p = ToAddress a addr (p.take 2)) ∧
    (streamSession 0x65 0x53 0xF1 0x00).Dst = ToAddress 1 [127, 0, 0, 1] [0, 80] :=
  ⟨scenario_run, ToAddress_port,
    (C8_destination _ _ _ _ _ _ _ _ scenario_run).2.2.2.2.2.2.1 ToAddress_port⟩

/-- C2: if the first 32 bytes received are not the configured secret,
`NewSimpleStreamServer` returns an error and no session, whatever the rest of the
input is, and the net-acquire count of the small pool is what it was before the
call; when the header has been read the error is "Password is wrong". -/
theorem C2_secret_mismatch (env : Env) (pw : List Byte) (src : String) (t ut : Int)
    (w0 : World) (hb : (w0.BP2048.nth 0).length = 2048)
    (hne : w0.client.input.take 32 ≠ pw) :
    (∃ e, (NewSimpleStreamServer env pw src t ut w0).1 = Outcome.err e) ∧
    (NewSimpleStreamServer env pw src t ut w0).2.BP2048.acquired = w0.BP2048.acquired ∧
    (armOk t w0 → 34 ≤ w0.client.input.length →
      (NewSimpleStreamServer env pw src t ut w0).1 =
        Outcome.err (Error.new "Password is wrong")) := by
  have hsm : ∀ x : World, x.BP2048 = x.pool PoolId.BP2048 := fun _ => rfl
  by_cases harm : armOk t w0
  · by_cases hin : 34 ≤ w0.client.input.length
    · rw [New_reaches_check _ _ _ _ _ _ harm (by omega) hin]
      have e1 : slice (headerBuf t w0).data 0 32 = w0.client.input.take 32 := by
        unfold headerBuf; rw [Buf_store_data]; exact header_secret _ _ hin
      have hne2 : pw ≠ slice (headerBuf t w0).data 0 32 := by
        rw [e1]; exact fun h => hne h.symm
      unfold hsCheck
      simp only [hne2, ne_eq, not_false_eq_true, ↓reduceIte]
      refine ⟨⟨_, rfl⟩, ?_, fun _ _ => trivial⟩
      rw [hsm, WaitReadErr_pool, Put_acquired]
      unfold headerWorld
      rw [ReadFull_pool, Get_acquired, armedWorld_pool, hsm]
      ring
    · rw [New_of_armOk _ _ _ _ _ _ harm]
      unfold hsHeader
      have h1 : ¬ ((armedWorld t w0).Get PoolId.BP2048).1.data.length < 34 := by
        rw [Get_buf, armedWorld_pool, Pool_nth_zero]
        show ¬ (w0.BP2048.nth 0).length < 34
        omega
      simp only [h1, ↓reduceIte, ReadFull_ok, Get_client, armedWorld_input, hin, decide_False]
      refine ⟨⟨_, rfl⟩, ?_, fun _ h => h.elim⟩
      rw [hsm, Put_acquired, ReadFull_pool, Get_acquired, armedWorld_pool, hsm]
      ring
  · rw [New_of_not_armOk _ _ _ _ _ _ harm]
    refine ⟨⟨_, rfl⟩, ?_, fun h => absurd h harm⟩
    rw [hsm, armedWorld_pool, hsm]


/-- A handshake that carries the zero secret while the configured secret is 32 bytes
of value 1 is refused and leaves no buffer acquired. -/
theorem C2_secret_mismatch_witness :
    ((World.start (request 0x65 0x53 0xF1 0x00)).BP2048.nth 0).length = 2048 ∧
    (World.start (request 0x65 0x53 0xF1 0x00)).client.input.take 32 ≠ List.replicate 32 1 ∧
    (NewSimpleStreamServer (envAt 1700000000) (List.replicate 32 1) "peer" 0 0
      (World.start (request 0x65 0x53 0xF1 0x00))).1 =
        Outcome.err (Error.new "Password is wrong") ∧
    (NewSimpleStreamServer (envAt 1700000000) (List.replicate 32 1) "peer" 0 0
      (World.start (request 0x65 0x53 0xF1 0x00))).2.BP2048.acquired = 0 :=
  have hb := Pool_unused_nth 2048 0
  have hne : (World.start (request 0x65 0x53 0xF1 0x00)).client.input.take 32 ≠
      List.replicate 32 1 := by decide!
  have c := C2_secret_mismatch (envAt 1700000000) (List.replicate 32 1) "peer" 0 0
    (World.start (request 0x65 0x53 0xF1 0x00)) hb hne
  ⟨hb, hne, c.2.2 (Or.inl rfl) (by decide!), c.2.1⟩

/-- C3: with a matching secret and a length field above 2048,
`NewSimpleStreamServer` fails with "data too long" having consumed exactly the 34
header bytes: the only read is the one of the header, the handshake buffer is put
back into the small pool before the return, and nothing follows. -/
theorem C3_length_too_large (env : Env) (pw : List Byte) (src : String) (t ut : Int)
    (w0 : World) (harm : armOk t w0) (hb : (w0.BP2048.nth 0).length = 2048)
    (hin : 34 ≤ w0.client.input.length) (hpw : w0.client.input.take 32 = pw)
    (hl : 2048 < hsLen w0) :
    (NewSimpleStreamServer env pw src t ut w0).1 = Outcome.err (Error.new "data too long") ∧
    (NewSimpleStreamServer env pw src t ut w0).2.client.input = w0.client.input.drop 34 ∧
    (NewSimpleStreamServer env pw src t ut w0).2.log =
      w0.log ++ (if t = 0 then [] else [Event.setDeadline ConnId.client t true]) ++
        [Event.get PoolId.BP2048 (BufId.pooled PoolId.BP2048 w0.BP2048.gets),
         Event.readFull ConnId.client 34 true,
         Event.put PoolId.BP2048 (BufId.pooled PoolId.BP2048 w0.BP2048.gets)] ∧
    (NewSimpleStreamServer env pw src t ut w0).2.BP2048.acquired = w0.BP2048.acquired := by
  have hsm : ∀ x : World, x.BP2048 = x.pool PoolId.BP2048 := fun _ => rfl
  rw [New_reaches_check _ _ _ _ _ _ harm (by omega) hin]
  have e1 : slice (headerBuf t w0).data 0 32 = w0.client.input.take 32 := by
    unfold headerBuf; rw [Buf_store_data]; exact header_secret _ _ hin
  have e2 : Uint16 (slice (headerBuf t w0).data 32 34) = hsLen w0 := by
    unfold headerBuf; rw [Buf_store_data]; exact header_len _ _ hin
  unfold hsCheck
  simp only [e1, e2, hpw, ne_eq, not_true_eq_false, ↓reduceIte, gt_iff_lt, hl]
  refine ⟨trivial, ?_, ?_, ?_⟩
  · unfold headerWorld; simp
  · unfold headerWorld headerBuf
    simp [armedWorld_log t w0 harm, World.conn, hin, hsm, Get_buf]
  · rw [hsm, Put_acquired]
    unfold headerWorld
    rw [ReadFull_pool, Get_acquired, armedWorld_pool, hsm]
    ring


/-- A handshake with the length field `0x0801 = 2049` is refused after the header; the
three bytes that follow stay unread. -/
theorem C3_length_too_large_witness :
    armOk 0 (World.start (zeroSecret ++ [0x08, 0x01] ++ [1, 2, 3])) ∧
    ((World.start (zeroSecret ++ [0x08, 0x01] ++ [1, 2, 3])).BP2048.nth 0).length = 2048 ∧
    34 ≤ (World.start (zeroSecret ++ [0x08, 0x01] ++ [1, 2, 3])).client.input.length ∧
    (World.start (zeroSecret ++ [0x08, 0x01] ++ [1, 2, 3])).client.input.take 32 = zeroSecret ∧
    hsLen (World.start (zeroSecret ++ [0x08, 0x01] ++ [1, 2, 3])) = 2049 ∧
    (NewSimpleStreamServer (envAt 1700000000) zeroSecret "peer" 0 0
      (World.start (zeroSecret ++ [0x08, 0x01] ++ [1, 2, 3]))).1 =
        Outcome.err (Error.new "data too long") ∧
    (NewSimpleStreamServer (envAt 1700000000) zeroSecret "peer" 0 0
      (World.start (zeroSecret ++ [0x08, 0x01] ++ [1, 2, 3]))).2.client.input = [1, 2, 3] :=
  have c := C3_length_too_large (envAt 1700000000) zeroSecret "peer" 0 0
    (World.start (zeroSecret ++ [0x08, 0x01] ++ [1, 2, 3])) (Or.inl rfl)
    (Pool_unused_nth 2048 0) (by decide!) (by decide!) (by decide!)
  ⟨Or.inl rfl, Pool_unused_nth 2048 0, by decide!, by decide!, by decide!, c.1, c.2.1⟩

/-- C4, as stated, fails: a handshake with a matching secret, `L = 11` and a fully
readable body whose timestamp lies 256 seconds in the future (`|now - ts| > 60`)
is accepted. -/
theorem C4_future_timestamp_accepted :
    armOk 0 (World.start (request 0x65 0x53 0xF2 0x00)) ∧
    (World.start (request 0x65 0x53 0xF2 0x00)).client.input.take 32 = zeroSecret ∧
    hsLen (World.start (request 0x65 0x53 0xF2 0x00)) = 11 ∧
    34 + hsLen (World.start (request 0x65 0x53 0xF2 0x00)) ≤
      (World.start (request 0x65 0x53 0xF2 0x00)).client.input.length ∧
    hsTimestamp (World.start (request 0x65 0x53 0xF2 0x00)) = 1700000256 ∧
    |(envAt 1700000000).now - (hsTimestamp (World.start (request 0x65 0x53 0xF2 0x00)) : Int)|
      > 60 ∧
    NewSimpleStreamServer (envAt 1700000000) zeroSecret "peer" 0 0
      (World.start (request 0x65 0x53 0xF2 0x00)) =
      (Outcome.ok (streamSession 0x65 0x53 0xF2 0x00), streamWorld) := by
  refine ⟨Or.inl rfl, by decide!, by decide!, by decide!, by decide!, ?_, by decide!⟩
  have h : hsTimestamp (World.start (request 0x65 0x53 0xF2 0x00)) = 1700000256 := by decide!
  rw [h]
  decide

/-- C4, amended: for every handshake with a matching secret, `L <= 2048` and a fully
readable body, if the timestamp `ts` that the code reads satisfies `now - ts > 60`
then `NewSimpleStreamServer` fails with "Expired request"; `ts` is the big-endian
`uint32` at the front of the request body whenever `L >= 4`.  Only timestamps in the
past are rejected. -/
theorem C4_expired_rejected (env : Env) (pw : List Byte) (src : String) (t ut : Int)
    (w0 : World) (harm : armOk t w0) (hb : (w0.BP2048.nth 0).length = 2048)
    (hpw : w0.client.input.take 32 = pw) (hl : hsLen w0 ≤ 2048)
    (hbody : 34 + hsLen w0 ≤ w0.client.input.length) :
    (env.now - (hsStamp t w0 : Int) > 60 →
      (NewSimpleStreamServer env pw src t ut w0).1 =
        Outcome.err (Error.new "Expired request")) ∧
    (4 ≤ hsLen w0 → hsStamp t w0 = hsTimestamp w0) ∧
    (4 ≤ hsLen w0 → env.now - (hsTimestamp w0 : Int) > 60 →
      (NewSimpleStreamServer env pw src t ut w0).1 =
        Outcome.err (Error.new "Expired request")) := by
  have hrun := New_reaches_finish env pw src t ut w0 harm (by omega) (by omega) hpw hl
    (by omega) hbody
  have hbl : (hsBody w0).length = hsLen w0 := by
    unfold hsBody; rw [List.length_take, List.length_drop]; omega
  have e : 4 ≤ hsLen w0 → hsStamp t w0 = hsTimestamp w0 := by
    intro h4
    unfold hsStamp bodyBuf; rw [Buf_store_data]; exact body_timestamp _ _ (by omega)
  have main : env.now - (hsStamp t w0 : Int) > 60 →
      (NewSimpleStreamServer env pw src t ut w0).1 =
        Outcome.err (Error.new "Expired request") := by
    intro hold
    rw [hrun]
    unfold hsFinish
    unfold hsStamp at hold
    simp only [hold, ↓reduceIte]
  exact ⟨main, e, fun h4 hold => main (by rw [e h4]; exact hold)⟩

/-- A handshake whose timestamp lies 256 seconds in the past is refused. -/
theorem C4_expired_rejected_witness :
    armOk 0 (World.start (request 0x65 0x53 0xF0 0x00)) ∧
    ((World.start (request 0x65 0x53 0xF0 0x00)).BP2048.nth 0).length = 2048 ∧
    (World.start (request 0x65 0x53 0xF0 0x00)).client.input.take 32 = zeroSecret ∧
    hsLen (World.start (request 0x65 0x53 0xF0 0x00)) = 11 ∧
    34 + hsLen (World.start (request 0x65 0x53 0xF0 0x00)) ≤
      (World.start (request 0x65 0x53 0xF0 0x00)).client.input.length ∧
    hsTimestamp (World.start (request 0x65 0x53 0xF0 0x00)) = 1699999744 ∧
    (NewSimpleStreamServer (envAt 1700000000) zeroSecret "peer" 0 0
      (World.start (request 0x65 0x53 0xF0 0x00))).1 =
        Outcome.err (Error.new "Expired request") :=
  have hts : hsTimestamp (World.start (request 0x65 0x53 0xF0 0x00)) = 1699999744 := by decide!
  ⟨Or.inl rfl, Pool_unused_nth 2048 0, by decide!, by decide!, by decide!, hts,
    (C4_expired_rejected (envAt 1700000000) zeroSecret "peer" 0 0
      (World.start (request 0x65 0x53 0xF0 0x00)) (Or.inl rfl) (Pool_unused_nth 2048 0)
      (by decide!) (by decide!) (by decide!)).2.2 (by decide!) (by rw [hts]; decide)⟩

/-- C5: `Exchange` returns a non-nil error exactly when the session is a datagram
session and, after some number of passes through the client-to-destination loop
that ended without an I/O failure, the 2-byte length read from the client exceeds
65505; the error is then "packet too long".  On one pass a length of 65506 or more
yields that error and a length of 65505 or less does not.  For a stream session
`Exchange` never returns anything but `nil`, and it does return. -/
theorem C5_exchange_error (s : SimpleStreamServer) (w : World) :
    ((∃ fuel e s' w', s.Exchange fuel w = some (Step.ret (some e) s' w')) ↔
      (s.network = "udp" ∧ ∃ k sk wk, Exchange_run k s w = some (sk, wk) ∧ oversize sk wk)) ∧
    (∀ fuel e s' w', s.Exchange fuel w = some (Step.ret (some e) s' w') →
      e = Error.new "packet too long") ∧
    (s.network = "udp" → armOk s.Timeout w → 2 ≤ s.RB.data.length →
      2 ≤ w.client.input.length →
      (65506 ≤ Uint16 w.client.input →
        ∃ s' w', Exchange_iter s w = Step.ret (some (Error.new "packet too long")) s' w') ∧
      (Uint16 w.client.input ≤ 65505 →
        ∀ e s' w', Exchange_iter s w ≠ Step.ret (some e) s' w')) ∧
    (s.network = "tcp" →
      (∀ fuel r, s.Exchange fuel w = some r → ∃ s' w', r = Step.ret none s' w') ∧
      (0 < s.RB.data.length → ∃ fuel s' w', s.Exchange fuel w = some (Step.ret none s' w'))) := by
  have key : ∀ fuel e s' w', s.Exchange fuel w = some (Step.ret (some e) s' w') →
      s.network = "udp" ∧ e = Error.new "packet too long" ∧
        ∃ k sk wk, Exchange_run k s w = some (sk, wk) ∧ oversize sk wk := by
    intro fuel e s' w' h
    unfold SimpleStreamServer.Exchange at h
    split at h
    · simp at h
    · obtain ⟨k, sk, wk, _, hrun, hit, _⟩ := Exchange_loop_some _ _ _ _ h
      obtain ⟨hu, hov, he⟩ := Exchange_iter_error _ _ _ _ _ hit
      rw [Exchange_run_network _ _ _ _ _ hrun] at hu
      exact ⟨hu, he, k, sk, wk, hrun, hov⟩
  refine ⟨⟨?_, ?_⟩, ?_, ?_, ?_⟩
  · rintro ⟨fuel, e, s', w', h⟩
    obtain ⟨hu, _, hk⟩ := key fuel e s' w' h
    exact ⟨hu, hk⟩
  · rintro ⟨hu, k, sk, wk, hrun, hov⟩
    have hsk : sk.network = "udp" := by rw [Exchange_run_network _ _ _ _ _ hrun, hu]
    obtain ⟨s', w', hit⟩ := Exchange_iter_oversize sk wk hsk hov
    refine ⟨k + 1, Error.new "packet too long", s', w', ?_⟩
    unfold SimpleStreamServer.Exchange
    have hnt : ¬ (s.network = "tcp" ∧ s.Timeout = 0) := by
      rw [hu]; intro hc; exact absurd hc.1 (by decide)
    rw [if_neg hnt]
    exact Exchange_loop_of_run k s w sk wk _ hrun hit (by intro a b hc; simp at hc)
  · intro fuel e s' w' h
    exact (key fuel e s' w' h).2.1
  · intro hu harm h1 h2
    refine ⟨fun h3 => Exchange_iter_oversize s w hu ⟨harm, h1, h2, by omega⟩, ?_⟩
    intro h3 e s' w' hc
    have := (Exchange_iter_error _ _ _ _ _ hc).2.1.2.2.2
    omega
  · intro ht
    refine ⟨?_, ?_⟩
    · intro fuel r h
      unfold SimpleStreamServer.Exchange at h
      split at h
      · simp only [Option.some.injEq] at h
        exact ⟨_, _, h.symm⟩
      · obtain ⟨k, sk, wk, _, hrun, hit, hne⟩ := Exchange_loop_some _ _ _ _ h
        have hsk : sk.network = "tcp" := by rw [Exchange_run_network _ _ _ _ _ hrun, ht]
        rcases Exchange_iter_tcp_cases sk wk hsk with ⟨a, b, hc, _⟩ | ⟨a, b, hc⟩
        · rw [hc] at hit
          exact absurd hit.symm (hne a b)
        · rw [hc] at hit
          exact ⟨a, b, hit.symm⟩
    · intro hrb
      unfold SimpleStreamServer.Exchange
      by_cases hf : s.network = "tcp" ∧ s.Timeout = 0
      · exact ⟨0, _, _, by rw [if_pos hf]⟩
      · obtain ⟨s', w', h⟩ := Exchange_loop_tcp_returns
          (w.client.input.length + w.client.reads.length + 1) s w ht hrb (by omega)
        exact ⟨_, s', w', by rw [if_neg hf]; exact h⟩

/-- C6: in a datagram session, when the client sends a big-endian length `N <= 65505`
followed by `N` payload bytes, one pass through the client-to-destination loop reads
the two length bytes and the `N` payload bytes and issues exactly one write, to the
destination, of exactly the `N` payload bytes, without the length bytes. -/
theorem C6_datagram_forward (s : SimpleStreamServer) (w : World) (hi lo : Byte)
    (payload rest : List Byte) (hu : s.network = "udp") (hrb : s.RB.data.length = 65507)
    (harm : armOk s.Timeout w) (hin : w.client.input = hi :: lo :: (payload ++ rest))
    (hN : hi.val * 256 + lo.val = payload.length) (hle : payload.length ≤ 65505) :
    (Exchange_iter s w).world.log =
      w.log ++ (if s.Timeout = 0 then [] else [Event.setDeadline ConnId.client s.Timeout true]) ++
        [Event.readFull ConnId.client 2 true,
         Event.readFull ConnId.client payload.length true,
         Event.write ConnId.remote payload (w.remote.writeOk.headD true)] ∧
    (Exchange_iter s w).world.client.input = rest := by
  rw [Exchange_iter_udp s w hu harm]
  have hlen : Uint16 w.client.input = payload.length := by rw [hin]; exact hN
  have h2 : 2 ≤ w.client.input.length := by rw [hin]; simp
  have hd : w.client.input.drop 2 = payload ++ rest := by rw [hin]; rfl
  unfold Exchange_udp
  have h1' : ¬ s.RB.data.length < 2 := by omega
  simp only [h1', ↓reduceIte, ReadFull_ok, ReadFull_data, armedWorld_input, h2, decide_True,
    Bool.true_eq_false, Buf_store_data, length_field _ _ h2, hlen, ReadFull_client_input, hd]
  have h3 : ¬ payload.length > 65507 - 2 := by omega
  have hs1 : (store s.RB.data 0 (List.take 2 w.client.input)).length = 65507 := by
    rw [store_length _ _ _ (by rw [List.length_take]; omega), hrb]
  have h4 : ¬ (store s.RB.data 0 (List.take 2 w.client.input)).length < 2 + payload.length := by
    omega
  have h5 : payload.length ≤ (payload ++ rest).length := by simp
  have h6 : List.take payload.length (payload ++ rest) = payload := by simp
  have h7 := slice_store (store s.RB.data 0 (List.take 2 w.client.input)) payload 2 (by omega)
  simp only [h3, h4, h5, h6, ↓reduceIte, decide_True, Bool.true_eq_false, h7]
  split
  · simp [Step.world, armedWorld_log _ _ harm, World.conn, h2, hd]
  · simp [Step.world, armedWorld_log _ _ harm, World.conn, h2, hd]

/-- A datagram of three bytes, framed, followed by one more byte: the pass writes the
three bytes to the destination and leaves the last byte unread. -/
theorem C6_datagram_forward_witness :
    datagramSession.network = "udp" ∧ datagramSession.RB.data.length = 65507 ∧
    armOk datagramSession.Timeout (World.start [0, 3, 7, 8, 9, 1]) ∧
    (World.start [0, 3, 7, 8, 9, 1]).client.input = 0 :: 3 :: ([7, 8, 9] ++ [1]) ∧
    (Exchange_iter datagramSession (World.start [0, 3, 7, 8, 9, 1])).world.log =
      [Event.readFull ConnId.client 2 true, Event.readFull ConnId.client 3 true,
       Event.write ConnId.remote [7, 8, 9] true] ∧
    (Exchange_iter datagramSession (World.start [0, 3, 7, 8, 9, 1])).world.client.input = [1] :=
  have hrb : datagramSession.RB.data.length = 65507 := List.length_replicate _ _
  have c := C6_datagram_forward datagramSession (World.start [0, 3, 7, 8, 9, 1]) 0 3
    [7, 8, 9] [1] rfl hrb (Or.inl rfl) rfl (by decide) (by decide)
  ⟨rfl, hrb, Or.inl rfl, rfl, c.1, c.2⟩

/-- C7: in a datagram session whose write buffer has length 65507, when the read
from the destination returns `M` bytes, one pass through the destination-to-client
loop writes to the client exactly `2 + M` bytes, the big-endian 16-bit encoding of
`M` followed by the `M` bytes read; `M <= 65505`, so the conversion to `uint16`
does not truncate and the two bytes decode to `M`. -/
theorem C7_datagram_reply (s : SimpleStreamServer) (w : World) (data : List Byte)
    (hu : s.network = "udp") (hwb : s.WB.data.length = 65507)
    (harm : s.Timeout = 0 ∨ w.remote.deadlineOk.headD true = true)
    (hread : (w.Read ConnId.remote 65505).1 = some data) :
    data.length ≤ 65505 ∧ data.length % 65536 = data.length ∧
    Uint16 (PutUint16 data.length) = data.length ∧
    (PutUint16 data.length ++ data).length = 2 + data.length ∧
    (Exchange_go_iter s w).world.log =
      w.log ++ (if s.Timeout = 0 then [] else [Event.setDeadline ConnId.remote s.Timeout true]) ++
        [Event.read ConnId.remote 65505 (some data.length),
         Event.write ConnId.client (PutUint16 data.length ++ data)
           (w.client.writeOk.headD true)] := by
  obtain ⟨a1, a2, a3, a4, a5⟩ := go_arm s.Timeout w harm
  unfold Exchange_go_iter
  generalize (if s.Timeout ≠ 0 then w.SetDeadline ConnId.remote s.Timeout else (true, w)) = d
    at a1 a2 a3 a4 a5 ⊢
  have hr : (d.2.Read ConnId.remote 65505).1 = some data := by
    rw [Read_congr w d.2 _ a3 a4]; exact hread
  obtain ⟨r1, r2, r3⟩ := Read_remote_some _ _ _ hr
  have hnt : ¬ s.network = "tcp" := by rw [hu]; decide
  have hm : data.length % 65536 = data.length := Nat.mod_eq_of_lt (by omega)
  refine ⟨r1, hm, Uint16_PutUint16 _ (by omega), by simp [PutUint16_length], ?_⟩
  simp only [a1, Bool.true_eq_false, ↓reduceIte, hnt]
  simp only [hu, ↓reduceIte]
  unfold Exchange_go_udp
  have h2 : ¬ s.WB.data.length < 2 := by omega
  rw [if_neg h2]
  simp only [hwb, Nat.reduceSub, hr, Buf_store_data]
  rw [framed _ _ _ (PutUint16_length _) (by omega)]
  split
  · simp [Step.world, r2, a2, World.conn, r3, a5]
  · simp [Step.world, r2, a2, World.conn, r3, a5]

/-- A reply of three bytes is written to the client behind the two bytes `0, 3`. -/
theorem C7_datagram_reply_witness :
    datagramSession.network = "udp" ∧ datagramSession.WB.data.length = 65507 ∧
    (replyWorld.Read ConnId.remote 65505).1 = some [5, 6, 7] ∧
    PutUint16 3 = [0, 3] ∧
    (Exchange_go_iter datagramSession replyWorld).world.log =
      [Event.read ConnId.remote 65505 (some 3),
       Event.write ConnId.client [0, 3, 5, 6, 7] true] :=
  have hwb : datagramSession.WB.data.length = 65507 := List.length_replicate _ _
  have hread : (replyWorld.Read ConnId.remote 65505).1 = some [5, 6, 7] := by decide!
  have c := C7_datagram_reply datagramSession replyWorld [5, 6, 7] rfl hwb (Or.inl rfl) hread
  ⟨rfl, hwb, hread, by decide, c.2.2.2.2⟩

/-- C11: every error that `NewSimpleStreamServer` returns by itself (deadline error,
short header, secret mismatch, `L > 2048`, short body, expired timestamp) leaves the
net-acquire counts of both pools as they were.  The claim fails after that: when the
gate refuses the session, line 85 returns the error with the two buffers of the
session still acquired, and a body shorter than 7 bytes makes line 84 panic with
them acquired. -/
theorem C11_release_on_failure :
    (∀ env pw src t ut w0 e, (w0.BP2048.nth 0).length = 2048 →
      (w0.BP65507.nth 0).length = 65507 →
      (NewSimpleStreamServer env pw src t ut w0).1 = Outcome.err e → e ≠ Error.gate →
      (NewSimpleStreamServer env pw src t ut w0).2.BP2048.acquired = w0.BP2048.acquired ∧
      (NewSimpleStreamServer env pw src t ut w0).2.BP65507.acquired = w0.BP65507.acquired) ∧
    (∀ env pw src t ut w0, (w0.BP2048.nth 0).length = 2048 →
      (w0.BP65507.nth 0).length = 65507 → hsValid pw t w0 →
      ¬ env.now - (hsStamp t w0 : Int) > 60 → 7 ≤ hsLen w0 → env.gateErr = true →
      (NewSimpleStreamServer env pw src t ut w0).1 = Outcome.err Error.gate ∧
      (NewSimpleStreamServer env pw src t ut w0).2.BP2048.acquired =
        w0.BP2048.acquired + (if hsStamp t w0 % 2 = 0 then 2 else 0) ∧
      (NewSimpleStreamServer env pw src t ut w0).2.BP65507.acquired =
        w0.BP65507.acquired + (if hsStamp t w0 % 2 = 0 then 0 else 2)) ∧
    ((World.start (request 0x65 0x53 0xF1 0x00)).BP2048.acquired = 0 ∧
      (NewSimpleStreamServer (envRefusing 1700000000) zeroSecret "peer" 0 0
        (World.start (request 0x65 0x53 0xF1 0x00))).1 = Outcome.err Error.gate ∧
      (NewSimpleStreamServer (envRefusing 1700000000) zeroSecret "peer" 0 0
        (World.start (request 0x65 0x53 0xF1 0x00))).2.BP2048.acquired = 2) ∧
    ((NewSimpleStreamServer (envAt 1700000000) zeroSecret "peer" 0 0
        (World.start (bareRequest 0x65 0x53 0xF1 0x00))).1 = Outcome.panic ∧
      (NewSimpleStreamServer (envAt 1700000000) zeroSecret "peer" 0 0
        (World.start (bareRequest 0x65 0x53 0xF1 0x00))).2.BP2048.acquired = 2) := by
  refine ⟨?_, ?_, ⟨by decide!, by decide!, by decide!⟩, ⟨by decide!, by decide!⟩⟩
  · intro env pw src t ut w0 e hsmall hlarge he hne
    have ha := armedWorld_counts t w0
    have hh := headerWorld_counts t w0
    have hb := bodyWorld_counts t w0
    rcases New_cases env pw src t ut w0 hsmall hlarge with
      ⟨_, h⟩ | ⟨_, _, h⟩ | ⟨_, _, _, h⟩ | ⟨_, _, _, _, h⟩ | ⟨_, _, _, _, _, h⟩ | ⟨_, _, h⟩ |
      ⟨_, _, _, h⟩ | ⟨_, _, _, s, h⟩
    · rw [h]; exact ⟨by rw [ha.1], by rw [ha.2]⟩
    · rw [h]
      have hp := Put_small_counts (headerWorld t w0) (headerBuf t w0)
      exact ⟨by rw [hp.1, hh.1]; ring, by rw [hp.2, hh.2]⟩
    · rw [h]
      have hp := reject_counts (headerWorld t w0) (headerBuf t w0)
      exact ⟨by rw [hp.1, hh.1]; ring, by rw [hp.2, hh.2]⟩
    · rw [h]
      have hp := Put_small_counts (headerWorld t w0) (headerBuf t w0)
      exact ⟨by rw [hp.1, hh.1]; ring, by rw [hp.2, hh.2]⟩
    · rw [h]
      have hp := Put_small_counts (bodyWorld t w0) (bodyBuf t w0)
      exact ⟨by rw [hp.1, hb.1]; ring, by rw [hp.2, hb.2]⟩
    · rw [h]
      have hp := reject_counts (bodyWorld t w0) (bodyBuf t w0)
      exact ⟨by rw [hp.1, hb.1]; ring, by rw [hp.2, hb.2]⟩
    · rw [h] at he; simp at he
    · rw [h] at he
      by_cases hg : env.gateErr = true
      · simp only [hg, ↓reduceIte, Outcome.err.injEq] at he
        exact absurd he.symm hne
      · simp [hg] at he
  · intro env pw src t ut w0 hsmall hlarge hv hf h7 hg
    obtain ⟨harm, hin, hpw, hl, hbody⟩ := hv
    obtain ⟨s, h⟩ := (New_fresh env pw src t ut w0 harm hsmall hlarge hin hpw hl hbody hf).2 h7
    rw [h]
    simp only [hg, ↓reduceIte]
    exact ⟨trivial, (grantedWorld_counts t w0).1, (grantedWorld_counts t w0).2⟩

/-- C12: after a successful handshake, one `Clean` brings the net-acquire counts of
both pools back to what they were before `NewSimpleStreamServer` was called.  A
stream session puts `WB` and `RB`, both taken from the small pool, into the small
pool and nothing into the large pool; a datagram session puts `WB` and `RB`, both
taken from the large pool, into the large pool and nothing into the small pool, its
handshake buffer having been put back into the small pool during construction. -/
theorem C12_clean_restores (env : Env) (pw : List Byte) (src : String) (t ut : Int)
    (w0 : World) (s : SimpleStreamServer) (w : World)
    (h : NewSimpleStreamServer env pw src t ut w0 = (Outcome.ok s, w)) :
    (s.Clean w).BP2048.acquired = w0.BP2048.acquired ∧
    (s.Clean w).BP65507.acquired = w0.BP65507.acquired ∧
    (s.Network = "tcp" →
      (s.Clean w).log = w.log ++
        [Event.put PoolId.BP2048 s.WB.id, Event.put PoolId.BP2048 s.RB.id] ∧
      s.RB.id = BufId.pooled PoolId.BP2048 w0.BP2048.gets ∧
      s.WB.id = BufId.pooled PoolId.BP2048 (w0.BP2048.gets + 1)) ∧
    (s.Network = "udp" →
      (s.Clean w).log = w.log ++
        [Event.put PoolId.BP65507 s.WB.id, Event.put PoolId.BP65507 s.RB.id] ∧
      s.RB.id = BufId.pooled PoolId.BP65507 w0.BP65507.gets ∧
      s.WB.id = BufId.pooled PoolId.BP65507 (w0.BP65507.gets + 1) ∧
      Event.put PoolId.BP2048 (BufId.pooled PoolId.BP2048 w0.BP2048.gets) ∈ w.log) := by
  have a := NewSimpleStreamServer_ok h
  obtain ⟨_, hw, _, _, hst⟩ := NewSimpleStreamServer_ok_world h
  have hn := a.network
  have hc := grantedWorld_counts t w0
  rw [← hw, hst] at hc
  have hlog := grantedWorld_log t w0
  rw [← hw, hst] at hlog
  have hri := a.rb_id
  have hwi := a.wb_id
  unfold SimpleStreamServer.Network
  rcases Nat.mod_two_eq_zero_or_one (hsTimestamp w0) with hp | hp
  · simp only [hp, ↓reduceIte] at hn hc hri hwi
    have hnu : ¬ s.network = "udp" := by rw [hn]; decide
    have hcl : s.Clean w = (w.Put PoolId.BP2048 s.WB).Put PoolId.BP2048 s.RB := by
      unfold SimpleStreamServer.Clean
      simp only [hn, ↓reduceIte]
      rw [if_neg (by decide)]
    rw [hcl]
    refine ⟨?_, ?_, ?_, ?_⟩
    · rw [(Put_small_counts _ _).1, (Put_small_counts _ _).1, hc.1]; ring
    · rw [(Put_small_counts _ _).2, (Put_small_counts _ _).2, hc.2]; ring
    · intro _
      exact ⟨by simp, hri, hwi⟩
    · intro hu
      exact absurd hu hnu
  · have hne : ¬ hsTimestamp w0 % 2 = 0 := by omega
    simp only [hne, ↓reduceIte] at hn hc hri hwi hlog
    have hnt : ¬ s.network = "tcp" := by rw [hn]; decide
    have hcl : s.Clean w = (w.Put PoolId.BP65507 s.WB).Put PoolId.BP65507 s.RB := by
      unfold SimpleStreamServer.Clean
      simp only [hn, ↓reduceIte]
      rw [if_neg (by decide)]
    rw [hcl]
    refine ⟨?_, ?_, ?_, ?_⟩
    · show w.BP2048.acquired = _
      rw [hc.1]; ring
    · show (((w.Put PoolId.BP65507 s.WB).Put PoolId.BP65507 s.RB).pool
        PoolId.BP65507).acquired = _
      rw [Put_acquired, Put_acquired]
      show w.BP65507.acquired - 1 - 1 = _
      rw [hc.2]; ring
    · intro ht
      exact absurd ht hnt
    · intro _
      refine ⟨by simp, hri, hwi, ?_⟩
      rw [hlog]
      simp

/-- The scenario of the spec, cleaned: both buffers go back to the small pool. -/
theorem C12_clean_restores_witness :
    NewSimpleStreamServer (envAt 1700000000) zeroSecret "peer" 0 0
      (World.start (request 0x65 0x53 0xF1 0x00)) =
      (Outcome.ok (streamSession 0x65 0x53 0xF1 0x00), streamWorld) ∧
    ((streamSession 0x65 0x53 0xF1 0x00).Clean streamWorld).BP2048.acquired =
      (World.start (request 0x65 0x53 0xF1 0x00)).BP2048.acquired ∧
    ((streamSession 0x65 0x53 0xF1 0x00).Clean streamWorld).BP65507.acquired =
      (World.start (request 0x65 0x53 0xF1 0x00)).BP65507.acquired :=
  have c := C12_clean_restores _ _ _ _ _ _ _ _ scenario_run
  ⟨scenario_run, c.1, c.2.1⟩

/-- C13: a well-formed handshake with a fresh timestamp and `7 <= L <= 2048` reaches
the gate, and what `NewSimpleStreamServer` returns is what the gate returns.  The
claim fails for `L < 7`: there the slice `s.RB[5:l-2]` of line 84 is out of range
and the call panics; with `L = 4` and a body of four fresh timestamp bytes it does. -/
theorem C13_short_body_panics :
    (∀ env pw src t ut w0, (w0.BP2048.nth 0).length = 2048 →
      (w0.BP65507.nth 0).length = 65507 → hsValid pw t w0 →
      ¬ env.now - (hsStamp t w0 : Int) > 60 → 7 ≤ hsLen w0 →
      (env.gateErr = false → ∃ s, (NewSimpleStreamServer env pw src t ut w0).1 = Outcome.ok s) ∧
      (env.gateErr = true →
        (NewSimpleStreamServer env pw src t ut w0).1 = Outcome.err Error.gate)) ∧
    (∀ env pw src t ut w0, (w0.BP2048.nth 0).length = 2048 →
      (w0.BP65507.nth 0).length = 65507 → hsValid pw t w0 →
      ¬ env.now - (hsStamp t w0 : Int) > 60 → hsLen w0 < 7 →
      (NewSimpleStreamServer env pw src t ut w0).1 = Outcome.panic) ∧
    (hsValid zeroSecret 0 (World.start (bareRequest 0x65 0x53 0xF1 0x00)) ∧
      hsLen (World.start (bareRequest 0x65 0x53 0xF1 0x00)) = 4 ∧
      hsTimestamp (World.start (bareRequest 0x65 0x53 0xF1 0x00)) = 1700000000 ∧
      (NewSimpleStreamServer (envAt 1700000000) zeroSecret "peer" 0 0
        (World.start (bareRequest 0x65 0x53 0xF1 0x00))).1 = Outcome.panic) := by
  refine ⟨?_, ?_, ⟨⟨Or.inl rfl, by decide!, by decide!, by decide!, by decide!⟩, by decide!,
    by decide!, by decide!⟩⟩
  · intro env pw src t ut w0 hsmall hlarge hv hf h7
    obtain ⟨harm, hin, hpw, hl, hbody⟩ := hv
    obtain ⟨s, h⟩ := (New_fresh env pw src t ut w0 harm hsmall hlarge hin hpw hl hbody hf).2 h7
    rw [h]
    refine ⟨fun hg => ⟨s, by simp [hg]⟩, fun hg => by simp [hg]⟩
  · intro env pw src t ut w0 hsmall hlarge hv hf h7
    obtain ⟨harm, hin, hpw, hl, hbody⟩ := hv
    rw [(New_fresh env pw src t ut w0 harm hsmall hlarge hin hpw hl hbody hf).1 h7]

/-- C14: for `L >= 4` the timestamp that the code reads is the big-endian `uint32` of
the first four body bytes.  The claim fails for `L < 4`: the body read overwrites
only `b[:L]`, and `b[:4]` still ends in bytes of the secret.  Two handshakes with the
same empty body (`L = 0`) and the same clock are told apart by their secrets:
one is read as 1700000000, is fresh and panics on line 84, the other is read as 0 and
is refused as expired. -/
theorem C14_timestamp_from_header :
    (∀ t w0, 4 ≤ hsLen w0 → 34 + hsLen w0 ≤ w0.client.input.length →
      hsStamp t w0 = hsTimestamp w0) ∧
    (hsValid stampSecret 0 (World.start (stampSecret ++ [0, 0])) ∧
      hsValid zeroSecret 0 (World.start (zeroSecret ++ [0, 0])) ∧
      hsBody (World.start (stampSecret ++ [0, 0])) = [] ∧
      hsBody (World.start (zeroSecret ++ [0, 0])) = [] ∧
      hsStamp 0 (World.start (stampSecret ++ [0, 0])) = 1700000000 ∧
      hsStamp 0 (World.start (zeroSecret ++ [0, 0])) = 0 ∧
      (NewSimpleStreamServer (envAt 1700000000) stampSecret "peer" 0 0
        (World.start (stampSecret ++ [0, 0]))).1 = Outcome.panic ∧
      (NewSimpleStreamServer (envAt 1700000000) zeroSecret "peer" 0 0
        (World.start (zeroSecret ++ [0, 0]))).1 =
          Outcome.err (Error.new "Expired request")) := by
  refine ⟨?_, ⟨⟨Or.inl rfl, by decide!, by decide!, by decide!, by decide!⟩,
    ⟨Or.inl rfl, by decide!, by decide!, by decide!, by decide!⟩, by decide!, by decide!,
    by decide!, by decide!, by decide!, by decide!⟩⟩
  intro t w0 h4 hbody
  unfold hsStamp bodyBuf
  rw [Buf_store_data]
  refine body_timestamp _ _ ?_
  unfold hsBody
  rw [List.length_take, List.length_drop]
  omega

/-- C15: for a well-formed handshake (matching secret, `L <= 2048`, body fully read)
`NewSimpleStreamServer` fails with "Expired request" if and only if `now - ts > 60`
for the timestamp `ts` that the code reads, which for `L >= 4` is the big-endian
`uint32` at the front of the body: a request exactly 60 seconds old passes the
freshness check and one 61 seconds old is refused. -/
theorem C15_expired_iff (env : Env) (pw : List Byte) (src : String) (t ut : Int) (w0 : World)
    (hsmall : (w0.BP2048.nth 0).length = 2048) (hlarge : (w0.BP65507.nth 0).length = 65507)
    (hv : hsValid pw t w0) :
    ((NewSimpleStreamServer env pw src t ut w0).1 = Outcome.err (Error.new "Expired request") ↔
      env.now - (hsStamp t w0 : Int) > 60) ∧
    (4 ≤ hsLen w0 → hsStamp t w0 = hsTimestamp w0) ∧
    (4 ≤ hsLen w0 →
      ((NewSimpleStreamServer env pw src t ut w0).1 =
          Outcome.err (Error.new "Expired request") ↔
        env.now - (hsTimestamp w0 : Int) > 60)) ∧
    (env.now - (hsStamp t w0 : Int) = 60 →
      (NewSimpleStreamServer env pw src t ut w0).1 ≠
        Outcome.err (Error.new "Expired request")) ∧
    (env.now - (hsStamp t w0 : Int) = 61 →
      (NewSimpleStreamServer env pw src t ut w0).1 =
        Outcome.err (Error.new "Expired request")) := by
  obtain ⟨harm, hin, hpw, hl, hbody⟩ := hv
  have main : (NewSimpleStreamServer env pw src t ut w0).1 =
      Outcome.err (Error.new "Expired request") ↔ env.now - (hsStamp t w0 : Int) > 60 := by
    constructor
    · intro h
      by_contra hf
      have hc := New_fresh env pw src t ut w0 harm hsmall hlarge hin hpw hl hbody hf
      by_cases h7 : hsLen w0 < 7
      · rw [hc.1 h7] at h; simp at h
      · obtain ⟨s, hs⟩ := hc.2 (by omega)
        rw [hs] at h
        exact gate_outcome_ne _ _ _ h
    · intro hold
      rw [New_expired _ _ _ _ _ _ harm (by omega) hin hpw hl (by omega) hbody hold]
  refine ⟨main, fun h4 => stamp_eq_timestamp t w0 h4 hbody, ?_, ?_, ?_⟩
  · intro h4
    rw [← stamp_eq_timestamp t w0 h4 hbody]
    exact main
  · intro h60 hc
    have := main.mp hc
    omega
  · intro h61
    exact main.mpr (by omega)

/-- A request exactly 60 seconds old is not refused as expired, one 256 seconds old
is. -/
theorem C15_expired_iff_witness :
    hsValid zeroSecret 0 (World.start (request 0x65 0x53 0xF1 0x00)) ∧
    hsStamp 0 (World.start (request 0x65 0x53 0xF1 0x00)) = 1700000000 ∧
    (NewSimpleStreamServer (envAt 1700000060) zeroSecret "peer" 0 0
      (World.start (request 0x65 0x53 0xF1 0x00))).1 ≠
        Outcome.err (Error.new "Expired request") ∧
    (NewSimpleStreamServer (envAt 1700000061) zeroSecret "peer" 0 0
      (World.start (request 0x65 0x53 0xF1 0x00))).1 =
        Outcome.err (Error.new "Expired request") :=
  have hv : hsValid zeroSecret 0 (World.start (request 0x65 0x53 0xF1 0x00)) :=
    ⟨Or.inl rfl, by decide!, by decide!, by decide!, by decide!⟩
  have hs : hsStamp 0 (World.start (request 0x65 0x53 0xF1 0x00)) = 1700000000 := by decide!
  ⟨hv, hs,
    (C15_expired_iff (envAt 1700000060) zeroSecret "peer" 0 0
      (World.start (request 0x65 0x53 0xF1 0x00)) (Pool_unused_nth 2048 0)
      (Pool_unused_nth 65507 0) hv).2.2.2.1 (by rw [hs]; decide),
    (C15_expired_iff (envAt 1700000061) zeroSecret "peer" 0 0
      (World.start (request 0x65 0x53 0xF1 0x00)) (Pool_unused_nth 2048 0)
      (Pool_unused_nth 65507 0) hv).2.2.2.2 (by rw [hs]; decide)⟩

/-- C17: the three protocol violations of the handshake give three different errors
and are tested in the order secret, length, freshness: once the header has been
read, a mismatched secret gives "Password is wrong" whatever the length field and
the timestamp are; a matching secret with `L > 2048` gives "data too long" whatever
follows; a matching secret with `L <= 2048`, a body fully read and `now - ts > 60`
gives "Expired request". -/
theorem C17_error_order (env : Env) (pw : List Byte) (src : String) (t ut : Int) (w0 : World)
    (hsmall : (w0.BP2048.nth 0).length = 2048) (harm : armOk t w0)
    (hin : 34 ≤ w0.client.input.length) :
    (w0.client.input.take 32 ≠ pw →
      (NewSimpleStreamServer env pw src t ut w0).1 =
        Outcome.err (Error.new "Password is wrong")) ∧
    (w0.client.input.take 32 = pw → 2048 < hsLen w0 →
      (NewSimpleStreamServer env pw src t ut w0).1 = Outcome.err (Error.new "data too long")) ∧
    (w0.client.input.take 32 = pw → hsLen w0 ≤ 2048 →
      34 + hsLen w0 ≤ w0.client.input.length → env.now - (hsStamp t w0 : Int) > 60 →
      (NewSimpleStreamServer env pw src t ut w0).1 =
        Outcome.err (Error.new "Expired request")) ∧
    (w0.client.input.take 32 = pw → 4 ≤ hsLen w0 → hsLen w0 ≤ 2048 →
      34 + hsLen w0 ≤ w0.client.input.length → env.now - (hsTimestamp w0 : Int) > 60 →
      (NewSimpleStreamServer env pw src t ut w0).1 =
        Outcome.err (Error.new "Expired request")) ∧
    Error.new "Password is wrong" ≠ Error.new "data too long" ∧
    Error.new "Password is wrong" ≠ Error.new "Expired request" ∧
    Error.new "data too long" ≠ Error.new "Expired request" := by
  refine ⟨?_, ?_, ?_, ?_, by decide, by decide, by decide⟩
  · intro hne
    rw [New_mismatch _ _ _ _ _ _ harm (by omega) hin hne]
  · intro hpw hl
    rw [New_too_long _ _ _ _ _ _ harm (by omega) hin hpw hl]
  · intro hpw hl hbody hold
    rw [New_expired _ _ _ _ _ _ harm (by omega) hin hpw hl (by omega) hbody hold]
  · intro hpw h4 hl hbody hold
    rw [← stamp_eq_timestamp t w0 h4 hbody] at hold
    rw [New_expired _ _ _ _ _ _ harm (by omega) hin hpw hl (by omega) hbody hold]

/-- A handshake that has both a wrong secret and a length field above 2048 is
refused for its secret. -/
theorem C17_error_order_witness :
    ((World.start (zeroSecret ++ [0x08, 0x01] ++ [1, 2, 3])).BP2048.nth 0).length = 2048 ∧
    armOk 0 (World.start (zeroSecret ++ [0x08, 0x01] ++ [1, 2, 3])) ∧
    34 ≤ (World.start (zeroSecret ++ [0x08, 0x01] ++ [1, 2, 3])).client.input.length ∧
    (World.start (zeroSecret ++ [0x08, 0x01] ++ [1, 2, 3])).client.input.take 32 ≠
      List.replicate 32 1 ∧
    hsLen (World.start (zeroSecret ++ [0x08, 0x01] ++ [1, 2, 3])) = 2049 ∧
    (NewSimpleStreamServer (envAt 1700000000) (List.replicate 32 1) "peer" 0 0
      (World.start (zeroSecret ++ [0x08, 0x01] ++ [1, 2, 3]))).1 =
        Outcome.err (Error.new "Password is wrong") :=
  have hne : (World.start (zeroSecret ++ [0x08, 0x01] ++ [1, 2, 3])).client.input.take 32 ≠
      List.replicate 32 1 := by decide!
  have hin : 34 ≤ (World.start (zeroSecret ++ [0x08, 0x01] ++ [1, 2, 3])).client.input.length := by
    decide!
  ⟨Pool_unused_nth 2048 0, Or.inl rfl, hin, hne, by decide!,
    (C17_error_order (envAt 1700000000) (List.replicate 32 1) "peer" 0 0
      (World.start (zeroSecret ++ [0x08, 0x01] ++ [1, 2, 3])) (Pool_unused_nth 2048 0)
      (Or.inl rfl) hin).1 hne⟩


/-- C16: the events that `NewSimpleStreamServer` adds to the log contain the drain
`WaitReadErr` of the client connection exactly when it fails with "Password is
wrong" or with "Expired request"; the drain is then the last event and follows at
once the `Put` of the handshake buffer into the small pool.  On no path is there a
write to a connection. -/
theorem C16_drain (env : Env) (pw : List Byte) (src : String) (t ut : Int) (w0 : World)
    (hsmall : (w0.BP2048.nth 0).length = 2048) (hlarge : (w0.BP65507.nth 0).length = 65507) :
    ∃ evs, (NewSimpleStreamServer env pw src t ut w0).2.log = w0.log ++ evs ∧
      (∀ c d ok, Event.write c d ok ∉ evs) ∧
      (Event.waitReadErr ConnId.client ∈ evs ↔
        (NewSimpleStreamServer env pw src t ut w0).1 =
            Outcome.err (Error.new "Password is wrong") ∨
          (NewSimpleStreamServer env pw src t ut w0).1 =
            Outcome.err (Error.new "Expired request")) ∧
      (Event.waitReadErr ConnId.client ∈ evs →
        ∃ pre, evs = pre ++
            [Event.put PoolId.BP2048 (BufId.pooled PoolId.BP2048 w0.BP2048.gets),
             Event.waitReadErr ConnId.client] ∧
          Event.waitReadErr ConnId.client ∉ pre) := by
  have hnd := armEvents_no_drain t w0
  have hnw := armEvents_no_write t w0
  rcases New_cases env pw src t ut w0 hsmall hlarge with
    ⟨_, h⟩ | ⟨_, _, h⟩ | ⟨_, _, _, h⟩ | ⟨_, _, _, _, h⟩ | ⟨_, _, _, _, _, h⟩ | ⟨_, _, h⟩ |
    ⟨_, _, _, h⟩ | ⟨_, _, _, s, h⟩
  · rw [h]
    refine ⟨armEvents t w0, armedWorld_log_eq t w0, hnw, ?_, ?_⟩
    · simp [hnd]
    · intro hc; exact absurd hc hnd
  · rw [h]
    refine ⟨armEvents t w0 ++
      [Event.get PoolId.BP2048 (BufId.pooled PoolId.BP2048 w0.BP2048.gets),
       Event.readFull ConnId.client 34 (decide (34 ≤ w0.client.input.length)),
       Event.put PoolId.BP2048 (BufId.pooled PoolId.BP2048 w0.BP2048.gets)], ?_, ?_, ?_, ?_⟩
    · simp [headerWorld_log, headerBuf_id]
    · intro c d ok; simp [hnw]
    · simp [hnd]
    · intro hc; simp [hnd] at hc
  · rw [h]
    refine ⟨armEvents t w0 ++
      [Event.get PoolId.BP2048 (BufId.pooled PoolId.BP2048 w0.BP2048.gets),
       Event.readFull ConnId.client 34 (decide (34 ≤ w0.client.input.length)),
       Event.put PoolId.BP2048 (BufId.pooled PoolId.BP2048 w0.BP2048.gets),
       Event.waitReadErr ConnId.client], ?_, ?_, ?_, ?_⟩
    · simp [reject_log, headerWorld_log, headerBuf_id]
    · intro c d ok; simp [hnw]
    · simp
    · intro _
      refine ⟨armEvents t w0 ++
        [Event.get PoolId.BP2048 (BufId.pooled PoolId.BP2048 w0.BP2048.gets),
         Event.readFull ConnId.client 34 (decide (34 ≤ w0.client.input.length))], by simp, ?_⟩
      simp [hnd]
  · rw [h]
    refine ⟨armEvents t w0 ++
      [Event.get PoolId.BP2048 (BufId.pooled PoolId.BP2048 w0.BP2048.gets),
       Event.readFull ConnId.client 34 (decide (34 ≤ w0.client.input.length)),
       Event.put PoolId.BP2048 (BufId.pooled PoolId.BP2048 w0.BP2048.gets)], ?_, ?_, ?_, ?_⟩
    · simp [headerWorld_log, headerBuf_id]
    · intro c d ok; simp [hnw]
    · simp [hnd]
    · intro hc; simp [hnd] at hc
  · rw [h]
    refine ⟨armEvents t w0 ++
      [Event.get PoolId.BP2048 (BufId.pooled PoolId.BP2048 w0.BP2048.gets),
       Event.readFull ConnId.client 34 (decide (34 ≤ w0.client.input.length)),
       Event.readFull ConnId.client (hsLen w0)
         (decide (hsLen w0 ≤ (w0.client.input.drop 34).length)),
       Event.put PoolId.BP2048 (BufId.pooled PoolId.BP2048 w0.BP2048.gets)], ?_, ?_, ?_, ?_⟩
    · simp [bodyWorld_log, headerWorld_log, bodyBuf_id]
    · intro c d ok; simp [hnw]
    · simp [hnd]
    · intro hc; simp [hnd] at hc
  · rw [h]
    refine ⟨armEvents t w0 ++
      [Event.get PoolId.BP2048 (BufId.pooled PoolId.BP2048 w0.BP2048.gets),
       Event.readFull ConnId.client 34 (decide (34 ≤ w0.client.input.length)),
       Event.readFull ConnId.client (hsLen w0)
         (decide (hsLen w0 ≤ (w0.client.input.drop 34).length)),
       Event.put PoolId.BP2048 (BufId.pooled PoolId.BP2048 w0.BP2048.gets),
       Event.waitReadErr ConnId.client], ?_, ?_, ?_, ?_⟩
    · simp [reject_log, bodyWorld_log, headerWorld_log, bodyBuf_id]
    · intro c d ok; simp [hnw]
    · simp
    · intro _
      refine ⟨armEvents t w0 ++
        [Event.get PoolId.BP2048 (BufId.pooled PoolId.BP2048 w0.BP2048.gets),
         Event.readFull ConnId.client 34 (decide (34 ≤ w0.client.input.length)),
         Event.readFull ConnId.client (hsLen w0)
           (decide (hsLen w0 ≤ (w0.client.input.drop 34).length))], by simp, ?_⟩
      simp [hnd]
  · rw [h]
    refine ⟨_, by rw [grantedWorld_log, bodyWorld_log, headerWorld_log,
      List.append_assoc, List.append_assoc, List.append_assoc], ?_, ?_, ?_⟩
    · intro c d ok
      split <;> simp [hnw]
    · split <;> simp [hnd]
    · intro hc
      exfalso
      revert hc
      split <;> simp [hnd]
  · rw [h]
    have hg := gate_outcome_ne env.gateErr s
    refine ⟨_, by rw [grantedWorld_log, bodyWorld_log, headerWorld_log,
      List.append_assoc, List.append_assoc, List.append_assoc], ?_, ?_, ?_⟩
    · intro c d ok
      split <;> simp [hnw]
    · split <;> simp [hnd, hg]
    · intro hc
      exfalso
      revert hc
      split <;> simp [hnd]

/-- A handshake with a wrong secret: the drain is in the log. -/
theorem C16_drain_witness :
    ((World.start (request 0x65 0x53 0xF1 0x00)).BP2048.nth 0).length = 2048 ∧
    ((World.start (request 0x65 0x53 0xF1 0x00)).BP65507.nth 0).length = 65507 ∧
    (NewSimpleStreamServer (envAt 1700000000) (List.replicate 32 1) "peer" 0 0
      (World.start (request 0x65 0x53 0xF1 0x00))).1 =
        Outcome.err (Error.new "Password is wrong") ∧
    Event.waitReadErr ConnId.client ∈
      (NewSimpleStreamServer (envAt 1700000000) (List.replicate 32 1) "peer" 0 0
        (World.start (request 0x65 0x53 0xF1 0x00))).2.log := by
  have ho : (NewSimpleStreamServer (envAt 1700000000) (List.replicate 32 1) "peer" 0 0
      (World.start (request 0x65 0x53 0xF1 0x00))).1 =
        Outcome.err (Error.new "Password is wrong") := by decide!
  obtain ⟨evs, hlog, _, hiff, _⟩ := C16_drain (envAt 1700000000) (List.replicate 32 1) "peer" 0 0
    (World.start (request 0x65 0x53 0xF1 0x00)) (Pool_unused_nth 2048 0)
    (Pool_unused_nth 65507 0)
  refine ⟨Pool_unused_nth 2048 0, Pool_unused_nth 65507 0, ho, ?_⟩
  rw [hlog]
  exact List.mem_append_right _ (hiff.mpr (Or.inl ho))

/-- C19: a pass through the client-to-destination loop leaves `WB`, the identity and
length of `RB` and the fields `network`, `src`, `dst` and `Timeout` as they were, and
goes the same way whatever `WB` holds; a pass through the destination-to-client loop
leaves `RB`, the identity and length of `WB` and the same fields as they were, and
goes the same way whatever `RB` holds.  The same holds for the whole of `Exchange`
and of its goroutine, and the `RB` and `WB` of a session that the handshake returns
are two different buffers. -/
theorem C19_disjoint_buffers (s : SimpleStreamServer) (w : World) :
    (∀ s1, (Exchange_iter s w).session = some s1 → keepsButRB s s1) ∧
    (∀ b, Exchange_iter (s.withWB b) w = (Exchange_iter s w).mapSession (fun x => x.withWB b)) ∧
    (∀ s1, (Exchange_go_iter s w).session = some s1 → keepsButWB s s1) ∧
    (∀ b, Exchange_go_iter (s.withRB b) w =
      (Exchange_go_iter s w).mapSession (fun x => x.withRB b)) ∧
    (∀ fuel r s1, s.Exchange fuel w = some r → r.session = some s1 → keepsButRB s s1) ∧
    (∀ fuel r s1, Exchange_go fuel s w = some r → r.session = some s1 → keepsButWB s s1) ∧
    (∀ env pw src t ut w0 w1,
      NewSimpleStreamServer env pw src t ut w0 = (Outcome.ok s, w1) → s.RB.id ≠ s.WB.id) := by
  refine ⟨Exchange_iter_keeps s w, Exchange_iter_withWB s w, Exchange_go_iter_keeps s w,
    Exchange_go_iter_withRB s w,
    fun fuel r s1 h h1 => (Exchange_props fuel s w r h).2.1 s1 h1,
    fun fuel r s1 h h1 => (Exchange_go_props fuel s w r h).2 s1 h1, ?_⟩
  intro env pw src t ut w0 w1 h
  have a := NewSimpleStreamServer_ok h
  rw [a.rb_id, a.wb_id]
  split <;> simp

/-- C20: for a read buffer of length 65507 the guard of line 145 accepts a length
`l` exactly when the slice `RB[2 : 2+l]` lies within the buffer: once the two
length bytes are read, the datagram block returns "packet too long" if and only if
`2 + l` exceeds the length of `RB`, and neither the block, nor a pass through the
loop, nor the whole of `Exchange` takes a slice out of range. -/
theorem C20_guard_tight (s : SimpleStreamServer) (w : World)
    (hrb : s.RB.data.length = 65507) :
    (∀ l : Nat, l ≤ 65507 - 2 ↔ 2 + l ≤ s.RB.data.length) ∧
    (2 ≤ w.client.input.length →
      ((∃ s1 w1, Exchange_udp s w =
          Step.ret (some (Error.new "packet too long")) s1 w1) ↔
        s.RB.data.length < 2 + Uint16 w.client.input)) ∧
    (∀ w1, Exchange_udp s w ≠ Step.panic w1) ∧
    (∀ w1, Exchange_iter s w ≠ Step.panic w1) ∧
    (∀ fuel w1, s.Exchange fuel w ≠ some (Step.panic w1)) := by
  refine ⟨fun l => by omega, ?_, Exchange_udp_no_panic s w hrb,
    Exchange_iter_no_panic s w hrb, ?_⟩
  · intro h2
    constructor
    · rintro ⟨s1, w1, h⟩
      have := (Exchange_udp_error s w _ s1 w1 h).2.2.1
      omega
    · intro h
      exact Exchange_udp_oversize s w (by omega) h2 (by omega)
  · intro fuel w1 h
    exact (Exchange_props fuel s w _ h).2.2 hrb w1 rfl

/-- A datagram session with a read buffer of 65507 bytes: a pass over a framed
datagram of three bytes does not panic. -/
theorem C20_guard_tight_witness :
    datagramSession.RB.data.length = 65507 ∧
    (∀ w1, Exchange_iter datagramSession (World.start [0, 3, 7, 8, 9, 1]) ≠ Step.panic w1) :=
  have hrb : datagramSession.RB.data.length = 65507 := List.length_replicate _ _
  ⟨hrb, (C20_guard_tight datagramSession (World.start [0, 3, 7, 8, 9, 1]) hrb).2.2.2.1⟩

/-- C18: `Exchange` and its goroutine arm no deadline when `Timeout = 0`, and a
handshake with the generic timeout 0 arms none.  The claim fails for a session built
with a generic timeout `t != 0`: the deadline of line 41 is armed on the client
connection and nothing disarms it, also when the session is a datagram session whose
`Timeout` is the datagram timeout 0. -/
theorem C18_stale_deadline (env : Env) (pw : List Byte) (src : String) (t ut : Int)
    (w0 : World) (s : SimpleStreamServer) (w : World)
    (h : NewSimpleStreamServer env pw src t ut w0 = (Outcome.ok s, w)) :
    (t ≠ 0 → ∃ rest, w.log = w0.log ++ Event.setDeadline ConnId.client t true :: rest ∧
      ∀ e ∈ rest, e.isDeadline = false) ∧
    (hsTimestamp w0 % 2 = 1 → ut = 0 → s.Timeout = 0 ∧ s.Network = "udp") ∧
    (t = 0 → quietly w0 w) ∧
    (∀ (fuel : Nat) (s2 : SimpleStreamServer) (w2 : World) (r : Step),
      s2.Timeout = 0 → s2.Exchange fuel w2 = some r → quietly w2 r.world) ∧
    (∀ (fuel : Nat) (s2 : SimpleStreamServer) (w2 : World) (r : Step),
      s2.Timeout = 0 → Exchange_go fuel s2 w2 = some r → quietly w2 r.world) := by
  have a := NewSimpleStreamServer_ok h
  obtain ⟨hv, hw, _, _, _⟩ := NewSimpleStreamServer_ok_world h
  have hlog : w.log = w0.log ++ (armEvents t w0 ++
      ([Event.get PoolId.BP2048 (BufId.pooled PoolId.BP2048 w0.BP2048.gets),
        Event.readFull ConnId.client 34 (decide (34 ≤ w0.client.input.length)),
        Event.readFull ConnId.client (hsLen w0)
          (decide (hsLen w0 ≤ (w0.client.input.drop 34).length))] ++
      (if hsStamp t w0 % 2 = 0 then
        [Event.get PoolId.BP2048 (BufId.pooled PoolId.BP2048 (w0.BP2048.gets + 1))]
      else
        [Event.get PoolId.BP65507 (BufId.pooled PoolId.BP65507 w0.BP65507.gets),
         Event.put PoolId.BP2048 (BufId.pooled PoolId.BP2048 w0.BP2048.gets),
         Event.get PoolId.BP65507 (BufId.pooled PoolId.BP65507 (w0.BP65507.gets + 1))]))) := by
    rw [hw, grantedWorld_log, bodyWorld_log, headerWorld_log]
    simp
  have hrest : ∀ e ∈
      ([Event.get PoolId.BP2048 (BufId.pooled PoolId.BP2048 w0.BP2048.gets),
        Event.readFull ConnId.client 34 (decide (34 ≤ w0.client.input.length)),
        Event.readFull ConnId.client (hsLen w0)
          (decide (hsLen w0 ≤ (w0.client.input.drop 34).length))] ++
      (if hsStamp t w0 % 2 = 0 then
        [Event.get PoolId.BP2048 (BufId.pooled PoolId.BP2048 (w0.BP2048.gets + 1))]
      else
        [Event.get PoolId.BP65507 (BufId.pooled PoolId.BP65507 w0.BP65507.gets),
         Event.put PoolId.BP2048 (BufId.pooled PoolId.BP2048 w0.BP2048.gets),
         Event.get PoolId.BP65507 (BufId.pooled PoolId.BP65507 (w0.BP65507.gets + 1))])),
      e.isDeadline = false := by
    intro e he
    split at he <;> simp at he <;> casesm* _ ∨ _ <;> subst_vars <;> rfl
  refine ⟨?_, ?_, ?_, ?_, ?_⟩
  · intro ht
    have h3 : w0.client.deadlineOk.headD true = true := by
      rcases hv.1 with h | h
      · exact absurd h ht
      · exact h
    refine ⟨_, ?_, hrest⟩
    rw [hlog]
    unfold armEvents
    simp only [ht, ↓reduceIte, h3, List.singleton_append]
  · intro hp hu
    have hne : ¬ hsTimestamp w0 % 2 = 0 := by omega
    have hn := a.network
    have hto := a.timeout
    simp only [hne, ↓reduceIte] at hn hto
    exact ⟨by rw [hto, hu], hn⟩
  · intro ht
    refine ⟨_, hlog, ?_⟩
    intro e he
    rw [List.mem_append] at he
    rcases he with he | he
    · unfold armEvents at he
      simp [ht] at he
    · exact hrest e he
  · intro fuel s2 w2 r h0 hr
    exact (Exchange_props fuel s2 w2 r hr).1 h0
  · intro fuel s2 w2 r h0 hr
    exact (Exchange_go_props fuel s2 w2 r hr).1 h0

/-- A datagram handshake with the generic timeout 5 and the datagram timeout 0: the
session returned has `Timeout = 0`, and the deadline of line 41 is in the log. -/
theorem C18_stale_deadline_witness :
    (∃ s, (NewSimpleStreamServer (envAt 1700000000) zeroSecret "peer" 5 0
        (World.start (request 0x65 0x53 0xF1 0x01))).1 = Outcome.ok s ∧
      s.Timeout = 0 ∧ s.Network = "udp") ∧
    Event.setDeadline ConnId.client 5 true ∈
      (NewSimpleStreamServer (envAt 1700000000) zeroSecret "peer" 5 0
        (World.start (request 0x65 0x53 0xF1 0x01))).2.log := by
  have hf : ¬ (envAt 1700000000).now -
      (hsStamp 5 (World.start (request 0x65 0x53 0xF1 0x01)) : Int) > 60 := by decide!
  obtain ⟨s, hs⟩ := (New_fresh (envAt 1700000000) zeroSecret "peer" 5 0
    (World.start (request 0x65 0x53 0xF1 0x01)) (Or.inr rfl) (Pool_unused_nth 2048 0)
    (Pool_unused_nth 65507 0) (by decide!) (by decide!) (by decide!) (by decide!) hf).2
    (by decide!)
  have hs1 : NewSimpleStreamServer (envAt 1700000000) zeroSecret "peer" 5 0
      (World.start (request 0x65 0x53 0xF1 0x01)) =
      (Outcome.ok s, grantedWorld 5 (World.start (request 0x65 0x53 0xF1 0x01))) := hs
  obtain ⟨h1, h2, _⟩ := C18_stale_deadline _ _ _ _ _ _ _ _ hs1
  obtain ⟨rest, hlog, _⟩ := h1 (by decide)
  refine ⟨⟨s, by rw [hs1], h2 (by decide!) rfl⟩, ?_⟩
  rw [hs1]
  show _ ∈ (grantedWorld 5 (World.start (request 0x65 0x53 0xF1 0x01))).log
  rw [hlog]
  exact List.mem_append_right _ (List.mem_cons_self _ _)

end Brook
